import Mathlib

/-!
# PRE relay, PRE producer and Threshold clients: a shallow embedding

The relay (`pre_net/pre_server.h`) and the producer client
(`pre_net/pre_producer.cpp`, `pre_client.h`) are embedded as pure functions over
explicit state; the Threshold clients (`thresh_net_1/thresh_client.h`) as the
messages their methods send.  The homomorphic-encryption library is an external collaborator:
it enters only as an `HEEngine`, a record of types and total functions.  A
process that stops (failed `assert`, `std::exit(EXIT_FAILURE)`, an access past
the end of a vector, a loop that cannot end) is an `Except.error` of kind `Halt`.
-/

namespace PreNet

/-- Message payloads: the bytes of the serialized object. -/
abbrev Bytes := List Nat

/-- Modelled from the spec: the tag enumeration `PreMsgTypes` is declared in
`pre_utils.h`, which is not among the sources.  The enumerators are exactly the
tags the relay and the clients name, grouped per artifact kind into the
Request / Send / Ack / Nack families. -/
inductive PreMsgTypes where
  | ServerAccept
  | RequestCC
  | SendCC
  | SendPrivateKey
  | AckPrivateKey
  | SendPublicKey
  | AckPublicKey
  | RequestReEncryptionKey
  | SendReEncryptionKey
  | NackReEncryptionKey
  | SendCT
  | AckCT
  | RequestCT
  | NackCT
  | SendVecInt
  | AckVecInt
  | RequestVecInt
  | NackVecInt
  | DisconnectProducer
  | DisconnectConsumer
deriving DecidableEq, Repr

/-- An `olc::net::message<PreMsgTypes>`: the header tag and the body. -/
structure Message where
  id : PreMsgTypes
  body : Bytes
deriving DecidableEq, Repr

/-- The ways a process stops without finishing the step it is in: a failed
`assert`, `std::exit(EXIT_FAILURE)`, an index past the end of a vector, a loop
whose counter never reaches its bound, and the use of a `shared_ptr` that holds
no object. -/
inductive Halt where
  | assertFailed
  | exitFailure
  | outOfBounds
  | hang
  | nullPointer
deriving DecidableEq, Repr

/-- The external HE library as seen by the relay and the producer.  Every
pointer-like library type (`CC`, `PrivateKey`, ...) comes with the value a
default-constructed C++ object has.  `Deserialize` followed by
`assert(is.good())` is a function into `Option`: `none` is the failed stream. -/
structure HEEngine where
  CC : Type
  PrivateKey : Type
  PublicKey : Type
  CT : Type
  PT : Type
  EvalKey : Type
  nullCC : CC
  nullPrivateKey : PrivateKey
  nullPublicKey : PublicKey
  nullCT : CT
  nullPT : PT
  genCryptoContextBFVrns : Nat → Nat → CC
  serializeCC : CC → Bytes
  deserializeCC : Bytes → Option CC
  serializePrivateKey : PrivateKey → Bytes
  deserializePrivateKey : Bytes → Option PrivateKey
  serializePublicKey : PublicKey → Bytes
  deserializePublicKey : Bytes → Option PublicKey
  serializeCT : CT → Bytes
  deserializeCT : Bytes → Option CT
  serializeVecInt : List Int → Bytes
  deserializeVecInt : Bytes → Option (List Int)
  serializeEvalKey : EvalKey → Bytes
  ReKeyGen : CC → PublicKey → PrivateKey → EvalKey
  KeyGen : CC → PublicKey × PrivateKey
  keyPairGood : PublicKey × PrivateKey → Bool
  GetRingDimension : CC → Nat
  GetPlaintextModulus : CC → Nat
  MakePackedPlaintext : CC → List Int → PT
  Encrypt : CC → PublicKey → PT → CT
  Decrypt : CC → PrivateKey → CT → PT
  GetLength : PT → Nat
  SetLength : PT → Nat → PT
  GetPackedValue : PT → List Int

/-! ## The relay: `PreServer` -/

/-- The data members of `PreServer` (`pre_server.h`, "Server state"). -/
structure PreServer (E : HEEngine) where
  m_serverCC : E.CC
  m_producerPrivateKeyReceived : Bool
  m_producerPrivateKey : E.PrivateKey
  m_producerCTReceived : Bool
  m_producerCT : E.CT
  m_consumerPublicKey : E.PublicKey
  m_consumerVecIntReceived : Bool
  m_consumerVecInt : List Int

/-- A message handed to `client->Send`, with the connection it goes to. -/
abbrev Outbox := List (Nat × Message)

/-- `PreServer::InitializeCC`: plaintext modulus 65537, multiplicative depth 1. -/
def InitializeCC (E : HEEngine) : E.CC :=
  E.genCryptoContextBFVrns 65537 1

/-- The constructor `PreServer(nPort)`: the three flags start false, the context
is initialised, the other members are default-constructed. -/
def PreServer.new (E : HEEngine) : PreServer E :=
  { m_serverCC := InitializeCC E
    m_producerPrivateKeyReceived := false
    m_producerPrivateKey := E.nullPrivateKey
    m_producerCTReceived := false
    m_producerCT := E.nullCT
    m_consumerPublicKey := E.nullPublicKey
    m_consumerVecIntReceived := false
    m_consumerVecInt := [] }

/-- `PreServer::OnClientConnect`: greets the client with `ServerAccept`. -/
def OnClientConnect (client : Nat) : Outbox :=
  [(client, { id := .ServerAccept, body := [] })]

/-- `PreServer::SendClientCC`. -/
def SendClientCC (E : HEEngine) (s : PreServer E) (client : Nat) : Outbox :=
  [(client, { id := .SendCC, body := E.serializeCC s.m_serverCC })]

/-- `PreServer::RecvClientPrivateKey`: deserialize into the slot, set the flag,
then `assert(is.good())`. -/
def RecvClientPrivateKey (E : HEEngine) (s : PreServer E) (msg : Message) :
    Except Halt (PreServer E) :=
  match E.deserializePrivateKey msg.body with
  | some k =>
    .ok { s with m_producerPrivateKey := k, m_producerPrivateKeyReceived := true }
  | none => .error .assertFailed

/-- `PreServer::RecvClientPublicKey`: deserialize into the slot (which has no
flag), then `assert(is.good())`. -/
def RecvClientPublicKey (E : HEEngine) (s : PreServer E) (msg : Message) :
    Except Halt (PreServer E) :=
  match E.deserializePublicKey msg.body with
  | some k => .ok { s with m_consumerPublicKey := k }
  | none => .error .assertFailed

/-- `PreServer::SendClientReEncryptionKey`: Nack unless the producer private key
was received; otherwise derive the key from the two stored keys and send it. -/
def SendClientReEncryptionKey (E : HEEngine) (s : PreServer E) (client : Nat) : Outbox :=
  if !s.m_producerPrivateKeyReceived then
    [(client, { id := .NackReEncryptionKey, body := [] })]
  else
    let reencryptionKey := E.ReKeyGen s.m_serverCC s.m_consumerPublicKey s.m_producerPrivateKey
    [(client, { id := .SendReEncryptionKey, body := E.serializeEvalKey reencryptionKey })]

/-- `PreServer::RecvClientCT`: deserialize into the slot, `assert(is.good())`,
then set the flag. -/
def RecvClientCT (E : HEEngine) (s : PreServer E) (msg : Message) :
    Except Halt (PreServer E) :=
  match E.deserializeCT msg.body with
  | some c => .ok { s with m_producerCT := c, m_producerCTReceived := true }
  | none => .error .assertFailed

/-- `PreServer::SendClientCT`. -/
def SendClientCT (E : HEEngine) (s : PreServer E) (client : Nat) : Outbox :=
  if !s.m_producerCTReceived then
    [(client, { id := .NackCT, body := [] })]
  else
    [(client, { id := .SendCT, body := E.serializeCT s.m_producerCT })]

/-- `PreServer::RecvClientVecInt`. -/
def RecvClientVecInt (E : HEEngine) (s : PreServer E) (msg : Message) :
    Except Halt (PreServer E) :=
  match E.deserializeVecInt msg.body with
  | some v => .ok { s with m_consumerVecInt := v, m_consumerVecIntReceived := true }
  | none => .error .assertFailed

/-- `PreServer::SendClientVecInt`. -/
def SendClientVecInt (E : HEEngine) (s : PreServer E) (client : Nat) : Outbox :=
  if !s.m_consumerVecIntReceived then
    [(client, { id := .NackVecInt, body := [] })]
  else
    [(client, { id := .SendVecInt, body := E.serializeVecInt s.m_consumerVecInt })]

/-- `PreServer::OnMessage`: the switch over the tag of the inbound message.  The
result is the next server state and what was sent, or the failed assertion. -/
def OnMessage (E : HEEngine) (s : PreServer E) (client : Nat) (msg : Message) :
    Except Halt (PreServer E × Outbox) :=
  match msg.id with
  | .RequestCC => .ok (s, SendClientCC E s client)
  | .SendPrivateKey =>
    (RecvClientPrivateKey E s msg).map
      (fun s' => (s', [(client, { id := .AckPrivateKey, body := [] })]))
  | .SendPublicKey =>
    (RecvClientPublicKey E s msg).map
      (fun s' => (s', [(client, { id := .AckPublicKey, body := [] })]))
  | .RequestReEncryptionKey => .ok (s, SendClientReEncryptionKey E s client)
  | .SendCT =>
    (RecvClientCT E s msg).map
      (fun s' => (s', [(client, { id := .AckCT, body := [] })]))
  | .RequestCT => .ok (s, SendClientCT E s client)
  | .SendVecInt =>
    (RecvClientVecInt E s msg).map
      (fun s' => (s', [(client, { id := .AckVecInt, body := [] })]))
  | .RequestVecInt => .ok (s, SendClientVecInt E s client)
  | .DisconnectProducer =>
    .ok ({ s with m_producerCTReceived := false, m_producerPrivateKeyReceived := false }, [])
  | .DisconnectConsumer =>
    .ok ({ s with m_consumerVecIntReceived := false }, [])
  | _ => .ok (s, [])

/-- The relay handling a sequence of inbound messages, one callback each, in
order; every message comes with the connection it arrived on.  The outboxes of
the callbacks are concatenated. -/
def serve (E : HEEngine) (s : PreServer E) : List (Nat × Message) →
    Except Halt (PreServer E × Outbox)
  | [] => .ok (s, [])
  | (client, msg) :: rest =>
    match OnMessage E s client msg with
    | .error h => .error h
    | .ok (s', out) =>
      match serve E s' rest with
      | .error h => .error h
      | .ok (s'', out') => .ok (s'', out ++ out')

/-! ## The producer: `pre_client.h` and `pre_producer.cpp` -/

/-- The `enum class ProducerStates` of `pre_producer.cpp`. -/
inductive ProducerStates where
  | GetMessage
  | RequestCC
  | GenKeys
  | GenCT
  | RequestVecInt
  | Verify
deriving DecidableEq, Repr

/-- The producer process: the connection `c` (whether it is connected, its
inbound queue, and the messages it has handed to `Send`, oldest first), the
number of `std::rand()` calls made so far, and the local variables of `main`.
`clientCC`, the two keys of `keyPair`, `pt` and `ct` are `shared_ptr`s, null
until the loop assigns them: `clientCCSet`, `keyPairSet`, `ptSet` and `ctSet`
record whether the variable holds an object. -/
structure Producer (E : HEEngine) where
  connected : Bool
  incoming : List Message
  sent : List Message
  randCalls : Nat
  done : Bool
  good : Bool
  state : ProducerStates
  clientCC : E.CC
  keyPair : E.PublicKey × E.PrivateKey
  pt : E.PT
  ct : E.CT
  ringsize : Nat
  nShort : Nat
  plaintextModulus : Nat
  vShorts : List Int
  unpackedConsumer : List Int
  clientCCSet : Bool
  keyPairSet : Bool
  ptSet : Bool
  ctSet : Bool

/-- The locals of `main` right after a successful `Connect`: `done = false`,
`good = true`, state `GetMessage`, everything else default-constructed. -/
def Producer.new (E : HEEngine) : Producer E :=
  { connected := true
    incoming := []
    sent := []
    randCalls := 0
    done := false
    good := true
    state := .GetMessage
    clientCC := E.nullCC
    keyPair := (E.nullPublicKey, E.nullPrivateKey)
    pt := E.nullPT
    ct := E.nullCT
    ringsize := 0
    nShort := 0
    plaintextModulus := 0
    vShorts := []
    unpackedConsumer := []
    clientCCSet := false
    keyPairSet := false
    ptSet := false
    ctSet := false }

/-- The transport appending received messages to the inbound queue. -/
def Producer.deliver {E : HEEngine} (σ : Producer E) (msgs : List Message) : Producer E :=
  { σ with incoming := σ.incoming ++ msgs }

/-- `PreCommonClient::RequestCC`: the message it sends. -/
def RequestCC : Message := { id := .RequestCC, body := [] }

/-- `PreCommonClient::RecvCC`: deserialize, then `assert(is.good())`. -/
def RecvCC (E : HEEngine) (msg : Message) : Except Halt E.CC :=
  match E.deserializeCC msg.body with
  | some cc => .ok cc
  | none => .error .assertFailed

/-- `PreProducerClient::SendPrivateKey`: the message it sends. -/
def SendPrivateKey (E : HEEngine) (kp : E.PublicKey × E.PrivateKey) : Message :=
  { id := .SendPrivateKey, body := E.serializePrivateKey kp.2 }

/-- `PreProducerClient::SendCT`: the message it sends. -/
def SendCT (E : HEEngine) (ct : E.CT) : Message :=
  { id := .SendCT, body := E.serializeCT ct }

/-- `PreProducerClient::RequestVecInt`: the message it sends. -/
def RequestVecInt : Message := { id := .RequestVecInt, body := [] }

/-- `PreProducerClient::RecvVecInt`: deserialize, then `assert(is.good())`. -/
def RecvVecInt (E : HEEngine) (msg : Message) : Except Halt (List Int) :=
  match E.deserializeVecInt msg.body with
  | some vi => .ok vi
  | none => .error .assertFailed

/-- Modelled from the spec: `PreProducerClient::DisconnectProducer` is called by
`pre_producer.cpp` but is not in the `pre_client.h` among the sources.  The
terminal step "emits a disconnect message": one `DisconnectProducer` message
without payload, like the other payload-free requests of the client. -/
def DisconnectProducer : Message := { id := .DisconnectProducer, body := [] }

/-- The negative-wrap loop of `Verify`, with `k` iterations left at index `j`:
`if (v[j] < 0) v[j] += plaintextModulus`. -/
def wrapLoop (p : Int) : Nat → Nat → List Int → Except Halt (List Int)
  | 0, _, v => .ok v
  | k + 1, j, v =>
    match v[j]? with
    | none => .error .outOfBounds
    | some x => wrapLoop p k (j + 1) (if x < 0 then v.set j (x + p) else v)

/-- The loop `for (unsigned int j = 0; j < pt->GetLength(); j++)`: the counter is
32 bits wide, so a bound of `2^32` or more is never reached. -/
def wrapCorrect (p : Int) (n : Nat) (v : List Int) : Except Halt (List Int) :=
  if n < 2 ^ 32 then wrapLoop p n 0 v
  else
    match wrapLoop p (2 ^ 32) 0 v with
    | .error h => .error h
    | .ok _ => .error .hang

/-- The comparison loop of `Verify`, with `k` iterations left at index `j`:
`good = false` when the original differs from the self-decrypted or from the
consumer's value at `j`. -/
def compareLoop (orig enc cons : List Int) : Nat → Nat → Bool → Except Halt Bool
  | 0, _, good => .ok good
  | k + 1, j, good =>
    match orig[j]?, enc[j]?, cons[j]? with
    | some a, some b, some c =>
      compareLoop orig enc cons k (j + 1) (if a ≠ b ∨ a ≠ c then false else good)
    | _, _, _ => .error .outOfBounds

/-- The loop `for (unsigned int j = 0; j < unpackedConsumer.size(); j++)`. -/
def compareAll (orig enc cons : List Int) (good : Bool) : Except Halt Bool :=
  if cons.length < 2 ^ 32 then compareLoop orig enc cons cons.length 0 good
  else
    match compareLoop orig enc cons (2 ^ 32) 0 good with
    | .error h => .error h
    | .ok _ => .error .hang

/-- The inner switch of the `GetMessage` state on the tag of the popped message.
A context that `RecvCC` deserialized is an object: `clientCC` is set from then
on. -/
def onReply (E : HEEngine) (σ : Producer E) (msg : Message) : Except Halt (Producer E) :=
  match msg.id with
  | .ServerAccept => .ok { σ with state := .RequestCC }
  | .SendCC =>
    (RecvCC E msg).map (fun cc =>
      { σ with clientCC := cc, clientCCSet := true, state := .GenKeys })
  | .AckPrivateKey => .ok { σ with state := .GenCT }
  | .AckCT => .ok { σ with state := .RequestVecInt }
  | .SendVecInt =>
    (RecvVecInt E msg).map (fun vi => { σ with unpackedConsumer := vi, state := .Verify })
  | .NackVecInt => .ok { σ with state := .RequestVecInt }
  | _ => .ok σ

/-- One pass through the body of `while (!done)` in `main`; `rand i` is what the
`i`-th call of `std::rand()` returns.  The `nap` calls only pass time.  A state
that calls a member of `clientCC` or `pt` while the pointer is null, or hands the
library a null key or ciphertext, stops the process there; the objects the
library returns (a good key pair, a plaintext, a ciphertext) are not null. -/
def step (E : HEEngine) (rand : Nat → Nat) (σ : Producer E) : Except Halt (Producer E) :=
  if σ.connected then
    match σ.state with
    | .GetMessage =>
      match σ.incoming with
      | [] => .ok σ
      | msg :: rest => onReply E { σ with incoming := rest } msg
    | .RequestCC =>
      .ok { σ with sent := σ.sent ++ [RequestCC], state := .GetMessage }
    | .GenKeys =>
      if !σ.clientCCSet then .error .nullPointer
      else
        let keyPair := E.KeyGen σ.clientCC
        if !E.keyPairGood keyPair then .error .exitFailure
        else
          .ok { σ with keyPair := keyPair
                       keyPairSet := true
                       sent := σ.sent ++ [SendPrivateKey E keyPair]
                       state := .GetMessage }
    | .GenCT =>
      if !σ.clientCCSet then .error .nullPointer
      else
        let ringsize := E.GetRingDimension σ.clientCC % 2 ^ 32
        let plaintextModulus := E.GetPlaintextModulus σ.clientCC % 2 ^ 32
        if plaintextModulus < 65536 then .error .exitFailure
        else if !σ.keyPairSet then .error .nullPointer
        else
          let nShort := ringsize
          let vShorts := σ.vShorts ++
            (List.range nShort).map (fun i => ((rand (σ.randCalls + i) % 65536 : Nat) : Int))
          let pt := E.MakePackedPlaintext σ.clientCC vShorts
          let ct := E.Encrypt σ.clientCC σ.keyPair.1 pt
          .ok { σ with ringsize := ringsize
                       plaintextModulus := plaintextModulus
                       nShort := nShort
                       randCalls := σ.randCalls + nShort
                       vShorts := vShorts
                       pt := pt
                       ptSet := true
                       ct := ct
                       ctSet := true
                       sent := σ.sent ++ [SendCT E ct]
                       state := .GetMessage }
    | .RequestVecInt =>
      .ok { σ with sent := σ.sent ++ [RequestVecInt], state := .GetMessage }
    | .Verify =>
      if !(σ.clientCCSet && σ.keyPairSet && σ.ctSet && σ.ptSet) then .error .nullPointer
      else
        let ptDec := E.SetLength (E.Decrypt σ.clientCC σ.keyPair.2 σ.ct) (E.GetLength σ.pt)
        let unpackedOriginalProducer := E.GetPackedValue σ.pt
        let unpackedEncryptedProducer := E.GetPackedValue ptDec
        match wrapCorrect σ.plaintextModulus (E.GetLength σ.pt) unpackedEncryptedProducer with
        | .error h => .error h
        | .ok corrected =>
          match compareAll unpackedOriginalProducer corrected σ.unpackedConsumer σ.good with
          | .error h => .error h
          | .ok good =>
            .ok { σ with good := good
                         sent := σ.sent ++ [DisconnectProducer]
                         done := true }
  else .ok σ

/-- The configurations the producer can be in: the start, and from there any
number of deliveries by the transport and of loop passes, a pass being made only
while `done` is false. -/
inductive Reachable (E : HEEngine) (rand : Nat → Nat) : Producer E → Prop where
  | start : Reachable E rand (Producer.new E)
  | deliver {σ : Producer E} (msgs : List Message) :
      Reachable E rand σ → Reachable E rand (σ.deliver msgs)
  | pass {σ σ' : Producer E} :
      Reachable E rand σ → σ.done = false → step E rand σ = .ok σ' → Reachable E rand σ'

/-- The vector `unpackedOriginalProducer` of the `Verify` step. -/
def unpackedOriginalProducer (E : HEEngine) (σ : Producer E) : List Int :=
  E.GetPackedValue σ.pt

/-- The vector `unpackedEncryptedProducer` of the `Verify` step as first read
from the self-decrypted plaintext, before the negative-wrap loop. -/
def unpackedEncryptedProducer (E : HEEngine) (σ : Producer E) : List Int :=
  E.GetPackedValue (E.SetLength (E.Decrypt σ.clientCC σ.keyPair.2 σ.ct) (E.GetLength σ.pt))

/-- The loop `while (!done)` of `main` against a schedule of the transport: the
`i`-th entry lists the messages that arrive before the `i`-th pass.  The loop is
left as soon as `done` is set. -/
def run (E : HEEngine) (rand : Nat → Nat) : Producer E → List (List Message) →
    Except Halt (Producer E)
  | σ, [] => .ok σ
  | σ, arrivals :: rest =>
    if σ.done then .ok σ
    else
      match step E rand (σ.deliver arrivals) with
      | .error h => .error h
      | .ok σ' => run E rand σ' rest

/-- What one iteration of the negative-wrap loop does to the element it visits. -/
def wrapValue (p : Int) (x : Int) : Int :=
  if x < 0 then x + p else x

/-- The specification's symmetric representative of `v` modulo `p`: `v` itself if
`v ≤ p / 2`, otherwise `v - p`. -/
def specSymmetricRep (p v : Int) : Int :=
  if v ≤ p / 2 then v else v - p

/-- A schedule in which the relay answers with `NackVecInt` once per entry: the
producer first polls an empty queue `idle` times, then finds the Nack (with the
given body), then makes the pass that re-sends the request. -/
def nackSchedule : List (Nat × Bytes) → List (List Message)
  | [] => []
  | (idle, body) :: rest =>
    List.replicate idle [] ++ [{ id := .NackVecInt, body := body }] :: [] :: nackSchedule rest

/-- The tag of the message the producer sent last, if it has sent any. -/
def lastSent {E : HEEngine} (σ : Producer E) : Option PreMsgTypes :=
  σ.sent.getLast?.map (fun m => m.id)

/-- The trigger table of the specification, read by the step the producer is
waiting on (the last message it sent; none right after connecting): the reply
that step expects. -/
def specExpectedReply : Option PreMsgTypes → Option PreMsgTypes
  | none => some .ServerAccept
  | some .RequestCC => some .SendCC
  | some .SendPrivateKey => some .AckPrivateKey
  | some .SendCT => some .AckCT
  | some .RequestVecInt => some .SendVecInt
  | _ => none

/-- The Nack counterpart of a step in the specification's trigger table: only
the retrieval of the result vector has one on the producer side. -/
def specNackReply : Option PreMsgTypes → Option PreMsgTypes
  | some .RequestVecInt => some .NackVecInt
  | _ => none

/-! ## A small concrete engine for evaluating the model -/

/-- Bytes of a vector of integers: sign byte, then magnitude, per element. -/
def encodeVecInt : List Int → Bytes
  | [] => []
  | x :: xs => (if x < 0 then 1 else 0) :: x.natAbs :: encodeVecInt xs

/-- Inverse of `encodeVecInt`; an odd number of bytes or a bad sign byte fails. -/
def decodeVecInt : Bytes → Option (List Int)
  | [] => some []
  | [_] => none
  | s :: n :: rest =>
    match decodeVecInt rest with
    | none => none
    | some xs =>
      if s = 0 then some ((n : Int) :: xs)
      else if s = 1 then some (-(n : Int) :: xs)
      else none

/-- A toy engine: a context is its plaintext modulus, keys are numbers, a
ciphertext is the plaintext vector, decryption returns the representatives that
are symmetric around zero. -/
def demoEngine : HEEngine where
  CC := Nat
  PrivateKey := Nat
  PublicKey := Nat
  CT := List Int
  PT := List Int
  EvalKey := Nat × Nat
  nullCC := 0
  nullPrivateKey := 0
  nullPublicKey := 0
  nullCT := []
  nullPT := []
  genCryptoContextBFVrns := fun p _ => p
  serializeCC := fun c => [c]
  deserializeCC := fun b => match b with
    | [c] => some c
    | _ => none
  serializePrivateKey := fun k => [k]
  deserializePrivateKey := fun b => match b with
    | [k] => some k
    | _ => none
  serializePublicKey := fun k => [k]
  deserializePublicKey := fun b => match b with
    | [k] => some k
    | _ => none
  serializeCT := encodeVecInt
  deserializeCT := decodeVecInt
  serializeVecInt := encodeVecInt
  deserializeVecInt := decodeVecInt
  serializeEvalKey := fun k => [k.1, k.2]
  ReKeyGen := fun _ pk sk => (pk, sk)
  KeyGen := fun c => (c + 1, c + 2)
  keyPairGood := fun _ => true
  GetRingDimension := fun _ => 3
  GetPlaintextModulus := fun c => c
  MakePackedPlaintext := fun _ v => v
  Encrypt := fun _ _ p => p
  Decrypt := fun c _ ct => ct.map (fun x => if (c : Int) < 2 * x then x - c else x)
  GetLength := fun p => p.length
  SetLength := fun p n => p.take n ++ List.replicate (n - p.length) 0
  GetPackedValue := fun p => p

/-- A fixed stand-in for `std::rand()`. -/
def demoRand (i : Nat) : Nat := 1103515245 * i + 12345

/-- A stand-in for `std::rand()` that yields 3, 7, 40001 (the vector of
Scenario A) on its first three calls. -/
def scenarioRand (i : Nat) : Nat := [3, 7, 40001].getD i 0

/-- An honest relay's side of a producer run over the toy engine, one entry per
loop pass: the accept, the context with the given plaintext modulus, the two
acknowledgements, and the consumer's result vector `reply`; the empty entries
are the passes in which the producer sends.  The tenth pass is `Verify`. -/
def scenarioSchedule (modulus : Nat) (reply : List Int) : List (List Message) :=
  [[{ id := .ServerAccept, body := [] }], [],
   [{ id := .SendCC, body := [modulus] }], [],
   [{ id := .AckPrivateKey, body := [] }], [],
   [{ id := .AckCT, body := [] }], [],
   [{ id := .SendVecInt, body := encodeVecInt reply }], []]

/-- The toy producer of the scenario after nine passes, about to make the
`Verify` pass with the consumer's vector `reply`. -/
def scenarioBeforeVerify (reply : List Int) : Producer demoEngine :=
  { (Producer.new demoEngine) with
      sent := [RequestCC, SendPrivateKey demoEngine ((65538 : Nat), (65539 : Nat)),
        SendCT demoEngine ([3, 7, 40001] : List Int), RequestVecInt]
      randCalls := 3
      state := .Verify
      clientCCSet := true
      keyPairSet := true
      ptSet := true
      ctSet := true
      clientCC := (65537 : Nat)
      keyPair := ((65538 : Nat), (65539 : Nat))
      pt := ([3, 7, 40001] : List Int)
      ct := ([3, 7, 40001] : List Int)
      ringsize := 3
      nShort := 3
      plaintextModulus := 65537
      vShorts := [3, 7, 40001]
      unpackedConsumer := reply }

/-- The states in which the passes of `run` are made, in order: one entry per
pass, the state the producer is in when the pass begins. -/
def statesVisited (E : HEEngine) (rand : Nat → Nat) : Producer E → List (List Message) →
    List ProducerStates
  | _, [] => []
  | σ, arrivals :: rest =>
    if σ.done then []
    else
      σ.state ::
        match step E rand (σ.deliver arrivals) with
        | .error _ => []
        | .ok σ' => statesVisited E rand σ' rest

/-- A schedule in which the relay delivers one reply per entry, each while the
producer is waiting: the producer polls an empty queue `idle` times, then finds
the reply, then makes the pass of the state the reply led to. -/
def replySchedule : List (Nat × Message) → List (List Message)
  | [] => []
  | (idle, msg) :: rest => List.replicate idle [] ++ [msg] :: [] :: replySchedule rest

/-- The producer of an honest run that has received the context `cc`, has made
its `GenKeys`, `GenCT` and `RequestVecInt` passes once each and has just popped
the `SendVecInt` carrying `vi`: the configuration in which `Verify` begins. -/
def honestBeforeVerify (E : HEEngine) (rand : Nat → Nat) (cc : E.CC) (vi : List Int) :
    Producer E :=
  { (Producer.new E) with
      sent := [RequestCC, SendPrivateKey E (E.KeyGen cc),
        SendCT E (E.Encrypt cc (E.KeyGen cc).1 (E.MakePackedPlaintext cc
          ((List.range (E.GetRingDimension cc % 2 ^ 32)).map
            (fun i => ((rand i % 65536 : Nat) : Int))))),
        RequestVecInt]
      randCalls := E.GetRingDimension cc % 2 ^ 32
      state := .Verify
      clientCCSet := true
      keyPairSet := true
      ptSet := true
      ctSet := true
      clientCC := cc
      keyPair := E.KeyGen cc
      pt := E.MakePackedPlaintext cc
        ((List.range (E.GetRingDimension cc % 2 ^ 32)).map
          (fun i => ((rand i % 65536 : Nat) : Int)))
      ct := E.Encrypt cc (E.KeyGen cc).1 (E.MakePackedPlaintext cc
        ((List.range (E.GetRingDimension cc % 2 ^ 32)).map
          (fun i => ((rand i % 65536 : Nat) : Int))))
      ringsize := E.GetRingDimension cc % 2 ^ 32
      nShort := E.GetRingDimension cc % 2 ^ 32
      plaintextModulus := E.GetPlaintextModulus cc % 2 ^ 32
      vShorts := (List.range (E.GetRingDimension cc % 2 ^ 32)).map
        (fun i => ((rand i % 65536 : Nat) : Int))
      unpackedConsumer := vi }

/-- A payload the relay can store: for the four `SendX` tags the body
deserializes as an `X`; other messages carry nothing that is parsed. -/
def wellFormed (E : HEEngine) (msg : Message) : Bool :=
  match msg.id with
  | .SendPrivateKey => (E.deserializePrivateKey msg.body).isSome
  | .SendPublicKey => (E.deserializePublicKey msg.body).isSome
  | .SendCT => (E.deserializeCT msg.body).isSome
  | .SendVecInt => (E.deserializeVecInt msg.body).isSome
  | _ => true

/-- The ciphertext most recently stored by a run of messages, starting from the
stored value `v`: every `SendCT` whose body deserializes replaces it. -/
def latestCT (E : HEEngine) (v : E.CT) : List (Nat × Message) → E.CT
  | [] => v
  | (_, msg) :: rest =>
    match msg.id, E.deserializeCT msg.body with
    | .SendCT, some w => latestCT E w rest
    | _, _ => latestCT E v rest

/-- The result vector most recently stored by a run of messages, starting from
the stored value `v`: every `SendVecInt` whose body deserializes replaces it. -/
def latestVecInt (E : HEEngine) (v : List Int) : List (Nat × Message) → List Int
  | [] => v
  | (_, msg) :: rest =>
    match msg.id, E.deserializeVecInt msg.body with
    | .SendVecInt, some w => latestVecInt E w rest
    | _, _ => latestVecInt E v rest

end PreNet

/-! # The Threshold clients: `thresh_net_1/thresh_utils.h`, `thresh_client.h` -/

namespace ThreshNet

/-- The `enum class ThreshMsgTypes` of `thresh_utils.h`, in declaration order. -/
inductive ThreshMsgTypes where
  | ServerAccept
  | RequestCC
  | SendCC
  | SendRnd1PubKey
  | AckRnd1PubKey
  | NackRnd1PubKey
  | SendRnd1evalMultKey
  | AckRnd1evalMultKey
  | NackRnd1evalMultKey
  | SendRnd1evalSumKeys
  | AckRnd1evalSumKeys
  | NackRnd1evalSumKeys
  | RequestRnd1PubKey
  | RequestRnd1evalMultKey
  | RequestRnd1evalSumKeys
  | SendRnd2SharedKey
  | AckRnd2SharedKey
  | NackRnd2SharedKey
  | SendRnd2EvalMultAB
  | AckRnd2EvalMultAB
  | NackRnd2EvalMultAB
  | SendRnd2EvalMultBAB
  | AckRnd2EvalMultBAB
  | NackRnd2EvalMultBAB
  | SendRnd2EvalSumKeysJoin
  | AckRnd2EvalSumKeysJoin
  | NackRnd2EvalSumKeysJoin
  | RequestRnd2SharedKey
  | RequestRnd2EvalMultAB
  | RequestRnd2EvalMultBAB
  | RequestRnd2EvalSumKeysJoin
  | SendRnd3EvalMultFinal
  | AckRnd3EvalMultFinal
  | RequestRnd3EvalMultFinal
  | NackRnd3evalMultFinal
  | SendCT1
  | AckCT1
  | NackCT1
  | SendCT2
  | AckCT2
  | NackCT2
  | SendCT3
  | AckCT3
  | NackCT3
  | RequestCT1
  | RequestCT2
  | RequestCT3
  | SendDecryptPartialMainAdd
  | SendDecryptPartialMainMult
  | SendDecryptPartialMainSum
  | SendDecryptPartialLeadAdd
  | SendDecryptPartialLeadMult
  | SendDecryptPartialLeadSum
  | AckPartialMainAdd
  | AckPartialMainMult
  | AckPartialMainSum
  | AckPartialLeadAdd
  | AckPartialLeadMult
  | AckPartialLeadSum
  | NackPartialMainAdd
  | NackPartialMainMult
  | NackPartialMainSum
  | NackPartialLeadAdd
  | NackPartialLeadMult
  | NackPartialLeadSum
  | RequestDecryptMainAdd
  | RequestDecryptLeadAdd
  | SendDecryptMainAdd
  | SendDecryptLeadAdd
  | RequestDecryptMainMult
  | RequestDecryptLeadMult
  | SendDecryptMainMult
  | SendDecryptLeadMult
  | RequestDecryptMainSum
  | RequestDecryptLeadSum
  | SendDecryptMainSum
  | SendDecryptLeadSum
  | DisconnectClient
deriving DecidableEq, Repr

/-- An `olc::net::message<ThreshMsgTypes>`: the header tag and the body. -/
structure ThreshMessage where
  id : ThreshMsgTypes
  body : List Nat
deriving DecidableEq, Repr

/-- The library types the Threshold clients send, with their serializer.
`EvalSumKeys` stands for `std::shared_ptr<std::map<usint, EvalKey>>`. -/
structure ThreshEngine where
  PublicKey : Type
  PrivateKey : Type
  EvalKey : Type
  EvalSumKeys : Type
  CT : Type
  serializePublicKey : PublicKey → List Nat
  serializeEvalKey : EvalKey → List Nat
  serializeEvalSumKeys : EvalSumKeys → List Nat
  serializeCT : CT → List Nat

/-- `ThreshCommonClient::RequestCC`: the message it sends. -/
def ThreshCommonClient.RequestCC : ThreshMessage := { id := .RequestCC, body := [] }

/-- `ThreshCommonClient::DisconnectClient`: the message it sends. -/
def ThreshCommonClient.DisconnectClient : ThreshMessage :=
  { id := .DisconnectClient, body := [] }

/-- `ClientA::RequestRnd2SharedKey`: the message it sends. -/
def ClientA.RequestRnd2SharedKey : ThreshMessage := { id := .RequestRnd2SharedKey, body := [] }

/-- `ClientA::RequestRnd2evalMultAB`: the message it sends. -/
def ClientA.RequestRnd2evalMultAB : ThreshMessage := { id := .RequestRnd2EvalMultAB, body := [] }

/-- `ClientA::RequestRnd2evalMultBAB`: the message it sends. -/
def ClientA.RequestRnd2evalMultBAB : ThreshMessage := { id := .RequestRnd2EvalMultBAB, body := [] }

/-- `ClientA::RequestRnd2evalSumKeysJoin`: the message it sends. -/
def ClientA.RequestRnd2evalSumKeysJoin : ThreshMessage :=
  { id := .RequestRnd2EvalSumKeysJoin, body := [] }

/-- `ClientA::RequestDecryptMainAdd`: the message it sends. -/
def ClientA.RequestDecryptMainAdd : ThreshMessage := { id := .RequestDecryptMainAdd, body := [] }

/-- `ClientA::RequestDecryptMainMult`: the message it sends. -/
def ClientA.RequestDecryptMainMult : ThreshMessage := { id := .RequestDecryptMainMult, body := [] }

/-- `ClientA::RequestDecryptMainSum`: the message it sends. -/
def ClientA.RequestDecryptMainSum : ThreshMessage := { id := .RequestDecryptMainSum, body := [] }

/-- `ClientA::RequestCT1`: the message it sends. -/
def ClientA.RequestCT1 : ThreshMessage := { id := .RequestCT1, body := [] }

/-- `ClientA::RequestCT2`: the message it sends. -/
def ClientA.RequestCT2 : ThreshMessage := { id := .RequestCT2, body := [] }

/-- `ClientA::RequestCT3`: the message it sends. -/
def ClientA.RequestCT3 : ThreshMessage := { id := .RequestCT3, body := [] }

/-- `ClientA::SendRnd1PubKey`: the message it sends, carrying `kp.publicKey`. -/
def ClientA.SendRnd1PubKey (E : ThreshEngine) (kp : E.PublicKey × E.PrivateKey) : ThreshMessage :=
  { id := .SendRnd1PubKey, body := E.serializePublicKey kp.1 }

/-- `ClientA::SendRnd1evalMultKey`: the message it sends. -/
def ClientA.SendRnd1evalMultKey (E : ThreshEngine) (EvalMultKey : E.EvalKey) : ThreshMessage :=
  { id := .SendRnd1evalMultKey, body := E.serializeEvalKey EvalMultKey }

/-- `ClientA::SendRnd1evalSumKeys`: the message it sends. -/
def ClientA.SendRnd1evalSumKeys (E : ThreshEngine) (EvalSumKeys : E.EvalSumKeys) : ThreshMessage :=
  { id := .SendRnd1evalSumKeys, body := E.serializeEvalSumKeys EvalSumKeys }

/-- `ClientA::SendRnd3EvalMultFinal`: the message it sends. -/
def ClientA.SendRnd3EvalMultFinal (E : ThreshEngine) (EvalMultKey : E.EvalKey) : ThreshMessage :=
  { id := .SendRnd3EvalMultFinal, body := E.serializeEvalKey EvalMultKey }

/-- `ClientA::SendCTPartialAdd`: the message it sends. -/
def ClientA.SendCTPartialAdd (E : ThreshEngine) (ct : E.CT) : ThreshMessage :=
  { id := .SendDecryptPartialLeadAdd, body := E.serializeCT ct }

/-- `ClientA::SendCTPartialMult`: the message it sends. -/
def ClientA.SendCTPartialMult (E : ThreshEngine) (ct : E.CT) : ThreshMessage :=
  { id := .SendDecryptPartialLeadMult, body := E.serializeCT ct }

/-- `ClientA::SendCTPartialSum`: the message it sends. -/
def ClientA.SendCTPartialSum (E : ThreshEngine) (ct : E.CT) : ThreshMessage :=
  { id := .SendDecryptPartialLeadSum, body := E.serializeCT ct }

/-- `ClientB::RequestRnd1PubKey`: the message it sends. -/
def ClientB.RequestRnd1PubKey : ThreshMessage := { id := .RequestRnd1PubKey, body := [] }

/-- `ClientB::RequestRnd1evalMultKey`: the message it sends. -/
def ClientB.RequestRnd1evalMultKey : ThreshMessage := { id := .RequestRnd1evalMultKey, body := [] }

/-- `ClientB::RequestRnd1evalSumKeys`: the message it sends. -/
def ClientB.RequestRnd1evalSumKeys : ThreshMessage := { id := .RequestRnd1evalSumKeys, body := [] }

/-- `ClientB::RequestRnd3evalMultFinal`: the message it sends. -/
def ClientB.RequestRnd3evalMultFinal : ThreshMessage :=
  { id := .RequestRnd3EvalMultFinal, body := [] }

/-- `ClientB::RequestDecryptLeadAdd`: the message it sends. -/
def ClientB.RequestDecryptLeadAdd : ThreshMessage := { id := .RequestDecryptLeadAdd, body := [] }

/-- `ClientB::RequestDecryptLeadMult`: the message it sends. -/
def ClientB.RequestDecryptLeadMult : ThreshMessage := { id := .RequestDecryptLeadMult, body := [] }

/-- `ClientB::RequestDecryptLeadSum`: the message it sends. -/
def ClientB.RequestDecryptLeadSum : ThreshMessage := { id := .RequestDecryptLeadSum, body := [] }

/-- `ClientB::SendRnd2SharedKey`: the message it sends, carrying `kp.publicKey`. -/
def ClientB.SendRnd2SharedKey (E : ThreshEngine) (kp : E.PublicKey × E.PrivateKey) :
    ThreshMessage :=
  { id := .SendRnd2SharedKey, body := E.serializePublicKey kp.1 }

/-- `ClientB::SendRnd2EvalMultAB`: the message it sends. -/
def ClientB.SendRnd2EvalMultAB (E : ThreshEngine) (EvalMultAB : E.EvalKey) : ThreshMessage :=
  { id := .SendRnd2EvalMultAB, body := E.serializeEvalKey EvalMultAB }

/-- `ClientB::SendRnd2EvalMultBAB`: the message it sends. -/
def ClientB.SendRnd2EvalMultBAB (E : ThreshEngine) (EvalMultBAB : E.EvalKey) : ThreshMessage :=
  { id := .SendRnd2EvalMultBAB, body := E.serializeEvalKey EvalMultBAB }

/-- `ClientB::SendRnd2EvalSumKeysJoin`: the message it sends. -/
def ClientB.SendRnd2EvalSumKeysJoin (E : ThreshEngine) (EvalSumKeysJoin : E.EvalSumKeys) :
    ThreshMessage :=
  { id := .SendRnd2EvalSumKeysJoin, body := E.serializeEvalSumKeys EvalSumKeysJoin }

/-- `ClientB::SendCT1`: the message it sends; `num` is not used. -/
def ClientB.SendCT1 (E : ThreshEngine) (ct : E.CT) (_num : Nat) : ThreshMessage :=
  { id := .SendCT1, body := E.serializeCT ct }

/-- `ClientB::SendCT2`: the message it sends; `num` is not used. -/
def ClientB.SendCT2 (E : ThreshEngine) (ct : E.CT) (_num : Nat) : ThreshMessage :=
  { id := .SendCT2, body := E.serializeCT ct }

/-- `ClientB::SendCT3`: the message it sends; `num` is not used. -/
def ClientB.SendCT3 (E : ThreshEngine) (ct : E.CT) (_num : Nat) : ThreshMessage :=
  { id := .SendCT3, body := E.serializeCT ct }

/-- `ClientB::SendCTPartialAdd`: the message it sends. -/
def ClientB.SendCTPartialAdd (E : ThreshEngine) (ct : E.CT) : ThreshMessage :=
  { id := .SendDecryptPartialMainAdd, body := E.serializeCT ct }

/-- `ClientB::SendCTPartialMult`: the message it sends. -/
def ClientB.SendCTPartialMult (E : ThreshEngine) (ct : E.CT) : ThreshMessage :=
  { id := .SendDecryptPartialMainMult, body := E.serializeCT ct }

/-- `ClientB::SendCTPartialSum`: the message it sends. -/
def ClientB.SendCTPartialSum (E : ThreshEngine) (ct : E.CT) : ThreshMessage :=
  { id := .SendDecryptPartialMainSum, body := E.serializeCT ct }

/-- A call of a public method of `ClientA` (Alice), those inherited from
`ThreshCommonClient` included.  A `Recv...` call takes the message it decodes. -/
inductive ClientA.Call (E : ThreshEngine) where
  | RequestCC
  | RecvCC (msg : ThreshMessage)
  | RecvCT (msg : ThreshMessage)
  | DisconnectClient
  | RequestRnd2SharedKey
  | RequestRnd2evalMultAB
  | RequestRnd2evalMultBAB
  | RequestRnd2evalSumKeysJoin
  | RequestDecryptMainAdd
  | RequestDecryptMainMult
  | RequestDecryptMainSum
  | RequestCT1
  | RequestCT2
  | RequestCT3
  | SendRnd1PubKey (kp : E.PublicKey × E.PrivateKey)
  | SendRnd1evalMultKey (EvalMultKey : E.EvalKey)
  | SendRnd1evalSumKeys (EvalSumKeys : E.EvalSumKeys)
  | SendRnd3EvalMultFinal (EvalMultKey : E.EvalKey)
  | RecvRnd2SharedKey (msg : ThreshMessage)
  | RecvRnd2evalMultAB (msg : ThreshMessage)
  | RecvRnd2evalMultBAB (msg : ThreshMessage)
  | RecvRnd2evalSumKeysJoin (msg : ThreshMessage)
  | SendCTPartialAdd (ct : E.CT)
  | SendCTPartialMult (ct : E.CT)
  | SendCTPartialSum (ct : E.CT)

/-- The messages a call of a `ClientA` method hands to `Send`, in order.  The
`Recv...` methods only decode and send nothing. -/
def ClientA.sends (E : ThreshEngine) : ClientA.Call E → List ThreshMessage
  | .RequestCC => [ThreshCommonClient.RequestCC]
  | .RecvCC _ => []
  | .RecvCT _ => []
  | .DisconnectClient => [ThreshCommonClient.DisconnectClient]
  | .RequestRnd2SharedKey => [ClientA.RequestRnd2SharedKey]
  | .RequestRnd2evalMultAB => [ClientA.RequestRnd2evalMultAB]
  | .RequestRnd2evalMultBAB => [ClientA.RequestRnd2evalMultBAB]
  | .RequestRnd2evalSumKeysJoin => [ClientA.RequestRnd2evalSumKeysJoin]
  | .RequestDecryptMainAdd => [ClientA.RequestDecryptMainAdd]
  | .RequestDecryptMainMult => [ClientA.RequestDecryptMainMult]
  | .RequestDecryptMainSum => [ClientA.RequestDecryptMainSum]
  | .RequestCT1 => [ClientA.RequestCT1]
  | .RequestCT2 => [ClientA.RequestCT2]
  | .RequestCT3 => [ClientA.RequestCT3]
  | .SendRnd1PubKey x => [ClientA.SendRnd1PubKey E x]
  | .SendRnd1evalMultKey x => [ClientA.SendRnd1evalMultKey E x]
  | .SendRnd1evalSumKeys x => [ClientA.SendRnd1evalSumKeys E x]
  | .SendRnd3EvalMultFinal x => [ClientA.SendRnd3EvalMultFinal E x]
  | .RecvRnd2SharedKey _ => []
  | .RecvRnd2evalMultAB _ => []
  | .RecvRnd2evalMultBAB _ => []
  | .RecvRnd2evalSumKeysJoin _ => []
  | .SendCTPartialAdd x => [ClientA.SendCTPartialAdd E x]
  | .SendCTPartialMult x => [ClientA.SendCTPartialMult E x]
  | .SendCTPartialSum x => [ClientA.SendCTPartialSum E x]

/-- A call of a public method of `ClientB` (Bob), those inherited from
`ThreshCommonClient` included.  A `Recv...` call takes the message it decodes. -/
inductive ClientB.Call (E : ThreshEngine) where
  | RequestCC
  | RecvCC (msg : ThreshMessage)
  | RecvCT (msg : ThreshMessage)
  | DisconnectClient
  | RequestRnd1PubKey
  | RequestRnd1evalMultKey
  | RequestRnd1evalSumKeys
  | RequestRnd3evalMultFinal
  | RequestDecryptLeadAdd
  | RequestDecryptLeadMult
  | RequestDecryptLeadSum
  | RecvRnd1PubKey (msg : ThreshMessage)
  | RecvRnd1evalMultKey (msg : ThreshMessage)
  | RecvRnd1evalSumKeys (msg : ThreshMessage)
  | RecvRnd3evalMultFinal (msg : ThreshMessage)
  | SendRnd2SharedKey (kp : E.PublicKey × E.PrivateKey)
  | SendRnd2EvalMultAB (EvalMultAB : E.EvalKey)
  | SendRnd2EvalMultBAB (EvalMultBAB : E.EvalKey)
  | SendRnd2EvalSumKeysJoin (EvalSumKeysJoin : E.EvalSumKeys)
  | SendCT1 (ct : E.CT) (num : Nat)
  | SendCT2 (ct : E.CT) (num : Nat)
  | SendCT3 (ct : E.CT) (num : Nat)
  | SendCTPartialAdd (ct : E.CT)
  | SendCTPartialMult (ct : E.CT)
  | SendCTPartialSum (ct : E.CT)

/-- The messages a call of a `ClientB` method hands to `Send`, in order.  The
`Recv...` methods only decode and send nothing. -/
def ClientB.sends (E : ThreshEngine) : ClientB.Call E → List ThreshMessage
  | .RequestCC => [ThreshCommonClient.RequestCC]
  | .RecvCC _ => []
  | .RecvCT _ => []
  | .DisconnectClient => [ThreshCommonClient.DisconnectClient]
  | .RequestRnd1PubKey => [ClientB.RequestRnd1PubKey]
  | .RequestRnd1evalMultKey => [ClientB.RequestRnd1evalMultKey]
  | .RequestRnd1evalSumKeys => [ClientB.RequestRnd1evalSumKeys]
  | .RequestRnd3evalMultFinal => [ClientB.RequestRnd3evalMultFinal]
  | .RequestDecryptLeadAdd => [ClientB.RequestDecryptLeadAdd]
  | .RequestDecryptLeadMult => [ClientB.RequestDecryptLeadMult]
  | .RequestDecryptLeadSum => [ClientB.RequestDecryptLeadSum]
  | .RecvRnd1PubKey _ => []
  | .RecvRnd1evalMultKey _ => []
  | .RecvRnd1evalSumKeys _ => []
  | .RecvRnd3evalMultFinal _ => []
  | .SendRnd2SharedKey x => [ClientB.SendRnd2SharedKey E x]
  | .SendRnd2EvalMultAB x => [ClientB.SendRnd2EvalMultAB E x]
  | .SendRnd2EvalMultBAB x => [ClientB.SendRnd2EvalMultBAB E x]
  | .SendRnd2EvalSumKeysJoin x => [ClientB.SendRnd2EvalSumKeysJoin E x]
  | .SendCT1 ct num => [ClientB.SendCT1 E ct num]
  | .SendCT2 ct num => [ClientB.SendCT2 E ct num]
  | .SendCT3 ct num => [ClientB.SendCT3 E ct num]
  | .SendCTPartialAdd x => [ClientB.SendCTPartialAdd E x]
  | .SendCTPartialMult x => [ClientB.SendCTPartialMult E x]
  | .SendCTPartialSum x => [ClientB.SendCTPartialSum E x]

/-- The tags of the messages a `ClientA` call sends. -/
def ClientA.tags (E : ThreshEngine) (c : ClientA.Call E) : List ThreshMsgTypes :=
  (ClientA.sends E c).map (fun m => m.id)

/-- The tags of the messages a `ClientB` call sends. -/
def ClientB.tags (E : ThreshEngine) (c : ClientB.Call E) : List ThreshMsgTypes :=
  (ClientB.sends E c).map (fun m => m.id)

/-- The tags that carry key material of a round to the relay: the `SendRnd...`
enumerators, with the number of their round. -/
def roundOfSend : ThreshMsgTypes → Option Nat
  | .SendRnd1PubKey => some 1
  | .SendRnd1evalMultKey => some 1
  | .SendRnd1evalSumKeys => some 1
  | .SendRnd2SharedKey => some 2
  | .SendRnd2EvalMultAB => some 2
  | .SendRnd2EvalMultBAB => some 2
  | .SendRnd2EvalSumKeysJoin => some 2
  | .SendRnd3EvalMultFinal => some 3
  | _ => none

/-- The tags that ask the relay for key material of a round: the `RequestRnd...`
enumerators, with the number of their round. -/
def roundOfRequest : ThreshMsgTypes → Option Nat
  | .RequestRnd1PubKey => some 1
  | .RequestRnd1evalMultKey => some 1
  | .RequestRnd1evalSumKeys => some 1
  | .RequestRnd2SharedKey => some 2
  | .RequestRnd2EvalMultAB => some 2
  | .RequestRnd2EvalMultBAB => some 2
  | .RequestRnd2EvalSumKeysJoin => some 2
  | .RequestRnd3EvalMultFinal => some 3
  | _ => none

/-- The tags under which a lead share of a joint decryption is sent. -/
def leadSendTags : List ThreshMsgTypes :=
  [.SendDecryptPartialLeadAdd, .SendDecryptPartialLeadMult, .SendDecryptPartialLeadSum]

/-- The tags under which a main share of a joint decryption is sent. -/
def mainSendTags : List ThreshMsgTypes :=
  [.SendDecryptPartialMainAdd, .SendDecryptPartialMainMult, .SendDecryptPartialMainSum]

/-- The tags that ask the relay for a lead share. -/
def leadRequestTags : List ThreshMsgTypes :=
  [.RequestDecryptLeadAdd, .RequestDecryptLeadMult, .RequestDecryptLeadSum]

/-- The tags that ask the relay for a main share. -/
def mainRequestTags : List ThreshMsgTypes :=
  [.RequestDecryptMainAdd, .RequestDecryptMainMult, .RequestDecryptMainSum]

/-- The tags whose enumerator names a disconnect. -/
def isDisconnectTag : ThreshMsgTypes → Bool
  | .DisconnectClient => true
  | _ => false

/-- The table `ThreshMsgNames` of `thresh_utils.h`, in declaration order. -/
def ThreshMsgNames : List String :=
  ["ServerAccept", "RequestCC", "SendCC", "SendRnd1PubKey", "AckRnd1PubKey", "NackRnd1PubKey",
   "SendRnd1evalMultKey", "AckRnd1evalMultKey", "NackRnd1evalMultKey", "SendRnd1evalSumKeys",
   "AckRnd1evalSumKeys", "NackRnd1evalSumKeys", "RequestRnd1PubKey", "RequestRnd1evalMultKey",
   "RequestRnd1evalSumKeys", "SendRnd2SharedKey", "AckRnd2SharedKey", "NackRnd2SharedKey",
   "SendRnd2EvalMultAB", "AckRnd2EvalMultAB", "NackRnd2EvalMultAB", "SendRnd2EvalMultBAB",
   "AckRnd2EvalMultBAB", "NackRnd2EvalMultBAB", "SendRnd2EvalSumKeysJoin",
   "AckRnd2EvalSumKeysJoin", "NackRnd2EvalSumKeysJoin", "RequestRnd2SharedKey",
   "RequestRnd2EvalMultAB", "RequestRnd2EvalMultBAB", "RequestRnd2EvalSumKeysJoin",
   "SendRnd3EvalMultFinal", "AckRnd3EvalMultFinal", "RequestRnd3EvalMultFinal",
   "NackRnd3evalMultFinal", "SendCT1", "AckCT1", "NackCT1", "SendCT2", "AckCT2", "NackCT2",
   "SendCT3", "AckCT3", "NackCT3", "RequestCT1", "RequestCT2", "RequestCT3",
   "SendDecryptPartialMainAdd", "SendDecryptPartialMainMult", "SendDecryptPartialMainSum",
   "SendDecryptPartialLeadAdd", "SendDecryptPartialLeadMult", "SendDecryptPartialLeadSum",
   "AckPartialMainAdd", "AckPartialMainMult", "AckPartialMainSum", "AckPartialLeadAdd",
   "AckPartialLeadMult", "AckPartialLeadSum", "NackPartialMainAdd", "NackPartialMainMult",
   "NackPartialMainSum", "NackPartialLeadAdd", "NackPartialLeadMult", "NackPartialLeadSum",
   "RequestDecryptMainAdd", "RequestDecryptLeadAdd", "SendDecryptMainAdd",
   "SendDecryptLeadAdd", "RequestDecryptMainMult", "RequestDecryptLeadMult",
   "SendDecryptMainMult", "SendDecryptLeadMult", "RequestDecryptMainSum",
   "RequestDecryptLeadSum", "SendDecryptMainSum", "SendDecryptLeadSum", "DisconnectClient"]

/-- The enumerators of `ThreshMsgTypes`, in declaration order. -/
def ThreshMsgTypes.all : List ThreshMsgTypes :=
  [ThreshMsgTypes.ServerAccept, ThreshMsgTypes.RequestCC, ThreshMsgTypes.SendCC,
   ThreshMsgTypes.SendRnd1PubKey, ThreshMsgTypes.AckRnd1PubKey, ThreshMsgTypes.NackRnd1PubKey,
   ThreshMsgTypes.SendRnd1evalMultKey, ThreshMsgTypes.AckRnd1evalMultKey,
   ThreshMsgTypes.NackRnd1evalMultKey, ThreshMsgTypes.SendRnd1evalSumKeys,
   ThreshMsgTypes.AckRnd1evalSumKeys, ThreshMsgTypes.NackRnd1evalSumKeys,
   ThreshMsgTypes.RequestRnd1PubKey, ThreshMsgTypes.RequestRnd1evalMultKey,
   ThreshMsgTypes.RequestRnd1evalSumKeys, ThreshMsgTypes.SendRnd2SharedKey,
   ThreshMsgTypes.AckRnd2SharedKey, ThreshMsgTypes.NackRnd2SharedKey,
   ThreshMsgTypes.SendRnd2EvalMultAB, ThreshMsgTypes.AckRnd2EvalMultAB,
   ThreshMsgTypes.NackRnd2EvalMultAB, ThreshMsgTypes.SendRnd2EvalMultBAB,
   ThreshMsgTypes.AckRnd2EvalMultBAB, ThreshMsgTypes.NackRnd2EvalMultBAB,
   ThreshMsgTypes.SendRnd2EvalSumKeysJoin, ThreshMsgTypes.AckRnd2EvalSumKeysJoin,
   ThreshMsgTypes.NackRnd2EvalSumKeysJoin, ThreshMsgTypes.RequestRnd2SharedKey,
   ThreshMsgTypes.RequestRnd2EvalMultAB, ThreshMsgTypes.RequestRnd2EvalMultBAB,
   ThreshMsgTypes.RequestRnd2EvalSumKeysJoin, ThreshMsgTypes.SendRnd3EvalMultFinal,
   ThreshMsgTypes.AckRnd3EvalMultFinal, ThreshMsgTypes.RequestRnd3EvalMultFinal,
   ThreshMsgTypes.NackRnd3evalMultFinal, ThreshMsgTypes.SendCT1, ThreshMsgTypes.AckCT1,
   ThreshMsgTypes.NackCT1, ThreshMsgTypes.SendCT2, ThreshMsgTypes.AckCT2,
   ThreshMsgTypes.NackCT2, ThreshMsgTypes.SendCT3, ThreshMsgTypes.AckCT3,
   ThreshMsgTypes.NackCT3, ThreshMsgTypes.RequestCT1, ThreshMsgTypes.RequestCT2,
   ThreshMsgTypes.RequestCT3, ThreshMsgTypes.SendDecryptPartialMainAdd,
   ThreshMsgTypes.SendDecryptPartialMainMult, ThreshMsgTypes.SendDecryptPartialMainSum,
   ThreshMsgTypes.SendDecryptPartialLeadAdd, ThreshMsgTypes.SendDecryptPartialLeadMult,
   ThreshMsgTypes.SendDecryptPartialLeadSum, ThreshMsgTypes.AckPartialMainAdd,
   ThreshMsgTypes.AckPartialMainMult, ThreshMsgTypes.AckPartialMainSum,
   ThreshMsgTypes.AckPartialLeadAdd, ThreshMsgTypes.AckPartialLeadMult,
   ThreshMsgTypes.AckPartialLeadSum, ThreshMsgTypes.NackPartialMainAdd,
   ThreshMsgTypes.NackPartialMainMult, ThreshMsgTypes.NackPartialMainSum,
   ThreshMsgTypes.NackPartialLeadAdd, ThreshMsgTypes.NackPartialLeadMult,
   ThreshMsgTypes.NackPartialLeadSum, ThreshMsgTypes.RequestDecryptMainAdd,
   ThreshMsgTypes.RequestDecryptLeadAdd, ThreshMsgTypes.SendDecryptMainAdd,
   ThreshMsgTypes.SendDecryptLeadAdd, ThreshMsgTypes.RequestDecryptMainMult,
   ThreshMsgTypes.RequestDecryptLeadMult, ThreshMsgTypes.SendDecryptMainMult,
   ThreshMsgTypes.SendDecryptLeadMult, ThreshMsgTypes.RequestDecryptMainSum,
   ThreshMsgTypes.RequestDecryptLeadSum, ThreshMsgTypes.SendDecryptMainSum,
   ThreshMsgTypes.SendDecryptLeadSum, ThreshMsgTypes.DisconnectClient]

/-- The underlying `uint32_t` value of an enumerator: its position in the
declaration, counted from zero. -/
def ThreshMsgTypes.value (t : ThreshMsgTypes) : Nat := t.toCtorIdx

/-- The identifier each enumerator is declared with in `enum class ThreshMsgTypes`. -/
def ThreshMsgTypes.enumeratorName : ThreshMsgTypes → String
  | .ServerAccept => "ServerAccept"
  | .RequestCC => "RequestCC"
  | .SendCC => "SendCC"
  | .SendRnd1PubKey => "SendRnd1PubKey"
  | .AckRnd1PubKey => "AckRnd1PubKey"
  | .NackRnd1PubKey => "NackRnd1PubKey"
  | .SendRnd1evalMultKey => "SendRnd1evalMultKey"
  | .AckRnd1evalMultKey => "AckRnd1evalMultKey"
  | .NackRnd1evalMultKey => "NackRnd1evalMultKey"
  | .SendRnd1evalSumKeys => "SendRnd1evalSumKeys"
  | .AckRnd1evalSumKeys => "AckRnd1evalSumKeys"
  | .NackRnd1evalSumKeys => "NackRnd1evalSumKeys"
  | .RequestRnd1PubKey => "RequestRnd1PubKey"
  | .RequestRnd1evalMultKey => "RequestRnd1evalMultKey"
  | .RequestRnd1evalSumKeys => "RequestRnd1evalSumKeys"
  | .SendRnd2SharedKey => "SendRnd2SharedKey"
  | .AckRnd2SharedKey => "AckRnd2SharedKey"
  | .NackRnd2SharedKey => "NackRnd2SharedKey"
  | .SendRnd2EvalMultAB => "SendRnd2EvalMultAB"
  | .AckRnd2EvalMultAB => "AckRnd2EvalMultAB"
  | .NackRnd2EvalMultAB => "NackRnd2EvalMultAB"
  | .SendRnd2EvalMultBAB => "SendRnd2EvalMultBAB"
  | .AckRnd2EvalMultBAB => "AckRnd2EvalMultBAB"
  | .NackRnd2EvalMultBAB => "NackRnd2EvalMultBAB"
  | .SendRnd2EvalSumKeysJoin => "SendRnd2EvalSumKeysJoin"
  | .AckRnd2EvalSumKeysJoin => "AckRnd2EvalSumKeysJoin"
  | .NackRnd2EvalSumKeysJoin => "NackRnd2EvalSumKeysJoin"
  | .RequestRnd2SharedKey => "RequestRnd2SharedKey"
  | .RequestRnd2EvalMultAB => "RequestRnd2EvalMultAB"
  | .RequestRnd2EvalMultBAB => "RequestRnd2EvalMultBAB"
  | .RequestRnd2EvalSumKeysJoin => "RequestRnd2EvalSumKeysJoin"
  | .SendRnd3EvalMultFinal => "SendRnd3EvalMultFinal"
  | .AckRnd3EvalMultFinal => "AckRnd3EvalMultFinal"
  | .RequestRnd3EvalMultFinal => "RequestRnd3EvalMultFinal"
  | .NackRnd3evalMultFinal => "NackRnd3evalMultFinal"
  | .SendCT1 => "SendCT1"
  | .AckCT1 => "AckCT1"
  | .NackCT1 => "NackCT1"
  | .SendCT2 => "SendCT2"
  | .AckCT2 => "AckCT2"
  | .NackCT2 => "NackCT2"
  | .SendCT3 => "SendCT3"
  | .AckCT3 => "AckCT3"
  | .NackCT3 => "NackCT3"
  | .RequestCT1 => "RequestCT1"
  | .RequestCT2 => "RequestCT2"
  | .RequestCT3 => "RequestCT3"
  | .SendDecryptPartialMainAdd => "SendDecryptPartialMainAdd"
  | .SendDecryptPartialMainMult => "SendDecryptPartialMainMult"
  | .SendDecryptPartialMainSum => "SendDecryptPartialMainSum"
  | .SendDecryptPartialLeadAdd => "SendDecryptPartialLeadAdd"
  | .SendDecryptPartialLeadMult => "SendDecryptPartialLeadMult"
  | .SendDecryptPartialLeadSum => "SendDecryptPartialLeadSum"
  | .AckPartialMainAdd => "AckPartialMainAdd"
  | .AckPartialMainMult => "AckPartialMainMult"
  | .AckPartialMainSum => "AckPartialMainSum"
  | .AckPartialLeadAdd => "AckPartialLeadAdd"
  | .AckPartialLeadMult => "AckPartialLeadMult"
  | .AckPartialLeadSum => "AckPartialLeadSum"
  | .NackPartialMainAdd => "NackPartialMainAdd"
  | .NackPartialMainMult => "NackPartialMainMult"
  | .NackPartialMainSum => "NackPartialMainSum"
  | .NackPartialLeadAdd => "NackPartialLeadAdd"
  | .NackPartialLeadMult => "NackPartialLeadMult"
  | .NackPartialLeadSum => "NackPartialLeadSum"
  | .RequestDecryptMainAdd => "RequestDecryptMainAdd"
  | .RequestDecryptLeadAdd => "RequestDecryptLeadAdd"
  | .SendDecryptMainAdd => "SendDecryptMainAdd"
  | .SendDecryptLeadAdd => "SendDecryptLeadAdd"
  | .RequestDecryptMainMult => "RequestDecryptMainMult"
  | .RequestDecryptLeadMult => "RequestDecryptLeadMult"
  | .SendDecryptMainMult => "SendDecryptMainMult"
  | .SendDecryptLeadMult => "SendDecryptLeadMult"
  | .RequestDecryptMainSum => "RequestDecryptMainSum"
  | .RequestDecryptLeadSum => "RequestDecryptLeadSum"
  | .SendDecryptMainSum => "SendDecryptMainSum"
  | .SendDecryptLeadSum => "SendDecryptLeadSum"
  | .DisconnectClient => "DisconnectClient"

/-- The text `operator<<` writes for a tag: its value, a colon, and
`ThreshMsgNames[value]`; `none` where that index is outside the table. -/
def ThreshMsgTypes.print (t : ThreshMsgTypes) : Option String :=
  match ThreshMsgNames[t.value]? with
  | some name => some (toString t.value ++ ": " ++ name)
  | none => none

/-- A toy serializer: every object is a number and its bytes are that number. -/
def demoThreshEngine : ThreshEngine where
  PublicKey := Nat
  PrivateKey := Nat
  EvalKey := Nat
  EvalSumKeys := Nat
  CT := Nat
  serializePublicKey := fun k => [k]
  serializeEvalKey := fun k => [k]
  serializeEvalSumKeys := fun k => [k]
  serializeCT := fun c => [c]

/-! ## The Threshold relay

The Threshold server is not among the sources; the relay below follows the
specification's artifact store (§3, §4.2) for the artifacts of the three
key-agreement rounds, with the tags of `ThreshMsgTypes`. -/

/-- Modelled from the spec: the artifact kinds of the three key-agreement rounds
(the Threshold server is missing from the sources), one per `SendRnd...`
enumerator of `ThreshMsgTypes`. -/
inductive RoundArtifact where
  | Rnd1PubKey
  | Rnd1evalMultKey
  | Rnd1evalSumKeys
  | Rnd2SharedKey
  | Rnd2EvalMultAB
  | Rnd2EvalMultBAB
  | Rnd2EvalSumKeysJoin
  | Rnd3EvalMultFinal
deriving DecidableEq, Repr

/-- Modelled from the spec: the round that produces an artifact (§4.4: round 1
is Alice's three keys, round 2 Bob's four joint keys, round 3 the final key). -/
def RoundArtifact.round : RoundArtifact → Nat
  | .Rnd1PubKey => 1
  | .Rnd1evalMultKey => 1
  | .Rnd1evalSumKeys => 1
  | .Rnd2SharedKey => 2
  | .Rnd2EvalMultAB => 2
  | .Rnd2EvalMultBAB => 2
  | .Rnd2EvalSumKeysJoin => 2
  | .Rnd3EvalMultFinal => 3

/-- The `Send...` enumerator of an artifact kind. -/
def RoundArtifact.sendTag : RoundArtifact → ThreshMsgTypes
  | .Rnd1PubKey => .SendRnd1PubKey
  | .Rnd1evalMultKey => .SendRnd1evalMultKey
  | .Rnd1evalSumKeys => .SendRnd1evalSumKeys
  | .Rnd2SharedKey => .SendRnd2SharedKey
  | .Rnd2EvalMultAB => .SendRnd2EvalMultAB
  | .Rnd2EvalMultBAB => .SendRnd2EvalMultBAB
  | .Rnd2EvalSumKeysJoin => .SendRnd2EvalSumKeysJoin
  | .Rnd3EvalMultFinal => .SendRnd3EvalMultFinal

/-- The `Ack...` enumerator of an artifact kind. -/
def RoundArtifact.ackTag : RoundArtifact → ThreshMsgTypes
  | .Rnd1PubKey => .AckRnd1PubKey
  | .Rnd1evalMultKey => .AckRnd1evalMultKey
  | .Rnd1evalSumKeys => .AckRnd1evalSumKeys
  | .Rnd2SharedKey => .AckRnd2SharedKey
  | .Rnd2EvalMultAB => .AckRnd2EvalMultAB
  | .Rnd2EvalMultBAB => .AckRnd2EvalMultBAB
  | .Rnd2EvalSumKeysJoin => .AckRnd2EvalSumKeysJoin
  | .Rnd3EvalMultFinal => .AckRnd3EvalMultFinal

/-- The `Nack...` enumerator of an artifact kind. -/
def RoundArtifact.nackTag : RoundArtifact → ThreshMsgTypes
  | .Rnd1PubKey => .NackRnd1PubKey
  | .Rnd1evalMultKey => .NackRnd1evalMultKey
  | .Rnd1evalSumKeys => .NackRnd1evalSumKeys
  | .Rnd2SharedKey => .NackRnd2SharedKey
  | .Rnd2EvalMultAB => .NackRnd2EvalMultAB
  | .Rnd2EvalMultBAB => .NackRnd2EvalMultBAB
  | .Rnd2EvalSumKeysJoin => .NackRnd2EvalSumKeysJoin
  | .Rnd3EvalMultFinal => .NackRnd3evalMultFinal

/-- The artifact kind a `SendRnd...` tag stores, if the tag is one. -/
def artifactOfSend : ThreshMsgTypes → Option RoundArtifact
  | .SendRnd1PubKey => some .Rnd1PubKey
  | .SendRnd1evalMultKey => some .Rnd1evalMultKey
  | .SendRnd1evalSumKeys => some .Rnd1evalSumKeys
  | .SendRnd2SharedKey => some .Rnd2SharedKey
  | .SendRnd2EvalMultAB => some .Rnd2EvalMultAB
  | .SendRnd2EvalMultBAB => some .Rnd2EvalMultBAB
  | .SendRnd2EvalSumKeysJoin => some .Rnd2EvalSumKeysJoin
  | .SendRnd3EvalMultFinal => some .Rnd3EvalMultFinal
  | _ => none

/-- The artifact kind a `RequestRnd...` tag asks for, if the tag is one. -/
def artifactOfRequest : ThreshMsgTypes → Option RoundArtifact
  | .RequestRnd1PubKey => some .Rnd1PubKey
  | .RequestRnd1evalMultKey => some .Rnd1evalMultKey
  | .RequestRnd1evalSumKeys => some .Rnd1evalSumKeys
  | .RequestRnd2SharedKey => some .Rnd2SharedKey
  | .RequestRnd2EvalMultAB => some .Rnd2EvalMultAB
  | .RequestRnd2EvalMultBAB => some .Rnd2EvalMultBAB
  | .RequestRnd2EvalSumKeysJoin => some .Rnd2EvalSumKeysJoin
  | .RequestRnd3EvalMultFinal => some .Rnd3EvalMultFinal
  | _ => none

/-- Modelled from the spec: the relay's store for the round artifacts (the
Threshold server is missing from the sources).  One slot per artifact kind,
empty or holding the bytes last stored (§3, Artifact Slot). -/
structure ThreshRelay where
  slot : RoundArtifact → Option (List Nat)

/-- Modelled from the spec: the store of a relay that has just started, every
slot empty (the Threshold server is missing from the sources). -/
def ThreshRelay.empty : ThreshRelay := { slot := fun _ => none }

/-- Modelled from the spec: the relay's handling of one message (the Threshold
server is missing from the sources), after §4.2.  A `SendX` overwrites the slot
of `X` and is answered `AckX`; a `RequestX` is answered with the stored value
under `SendX` or, the slot being empty, with `NackX`, and changes nothing.
Messages of other kinds leave the round slots as they are; their replies are not
modelled. -/
def ThreshRelay.OnMessage (s : ThreshRelay) (msg : ThreshMessage) :
    ThreshRelay × List ThreshMessage :=
  match artifactOfSend msg.id with
  | some X =>
    ({ slot := fun Y => if Y = X then some msg.body else s.slot Y },
      [{ id := X.ackTag, body := [] }])
  | none =>
    match artifactOfRequest msg.id with
    | some X =>
      match s.slot X with
      | some v => (s, [{ id := X.sendTag, body := v }])
      | none => (s, [{ id := X.nackTag, body := [] }])
    | none => (s, [])

/-- Modelled from the spec: the relay handling a sequence of messages in order
(the Threshold server is missing from the sources); the replies are collected. -/
def ThreshRelay.serve (s : ThreshRelay) : List ThreshMessage → ThreshRelay × List ThreshMessage
  | [] => (s, [])
  | m :: rest =>
    ((ThreshRelay.serve (s.OnMessage m).1 rest).1,
      (s.OnMessage m).2 ++ (ThreshRelay.serve (s.OnMessage m).1 rest).2)

/-- The two parties of the Threshold protocol. -/
inductive Party where
  | Alice
  | Bob
deriving DecidableEq, Repr

/-- A method call of one of the two clients. -/
inductive PartyCall (E : ThreshEngine) where
  | alice (c : ClientA.Call E)
  | bob (c : ClientB.Call E)

/-- The party that makes a call. -/
def PartyCall.party {E : ThreshEngine} : PartyCall E → Party
  | .alice _ => .Alice
  | .bob _ => .Bob

/-- The messages a call hands to `Send`. -/
def PartyCall.sends (E : ThreshEngine) : PartyCall E → List ThreshMessage
  | .alice c => ClientA.sends E c
  | .bob c => ClientB.sends E c

/-- Modelled from the spec: a run of the two clients against the relay (the
Threshold server is missing from the sources).  The calls are served in the
order given; the result is the final store and every reply, each with the party
it goes to. -/
def relayRun (E : ThreshEngine) (s : ThreshRelay) :
    List (PartyCall E) → ThreshRelay × List (Party × ThreshMessage)
  | [] => (s, [])
  | c :: rest =>
    ((relayRun E (s.serve (c.sends E)).1 rest).1,
      (s.serve (c.sends E)).2.map (fun m => (c.party, m)) ++
        (relayRun E (s.serve (c.sends E)).1 rest).2)

/-- Whether party `p` has received the artifact `X` as a data reply among the
replies `seen`. -/
def fetched (seen : List (Party × ThreshMessage)) (p : Party) (X : RoundArtifact) : Bool :=
  seen.any (fun r => decide (r.1 = p ∧ r.2.id = X.sendTag))

/-- The artifacts of round 1. -/
def round1 : List RoundArtifact := [.Rnd1PubKey, .Rnd1evalMultKey, .Rnd1evalSumKeys]

/-- Whether a call sends an artifact of round 2. -/
def sendsRound2 (E : ThreshEngine) (c : PartyCall E) : Bool :=
  (c.sends E).any (fun m => decide (roundOfSend m.id = some 2))

/-- Modelled from the spec: the order of the parties' steps in §4.4, "Round 2
(Bob, after fetching round 1)" (the mains of Alice and Bob are missing from the
sources).  A run follows the rounds when every call that sends a round-2
artifact is made by a party that has already received all three round-1
artifacts from the relay; `seen` are the replies so far. -/
def followsRounds (E : ThreshEngine) :
    ThreshRelay → List (Party × ThreshMessage) → List (PartyCall E) → Bool
  | _, _, [] => true
  | s, seen, c :: rest =>
    (!(sendsRound2 E c) || round1.all (fun Y => fetched seen c.party Y)) &&
      followsRounds E (s.serve (c.sends E)).1
        (seen ++ (s.serve (c.sends E)).2.map (fun m => (c.party, m))) rest

/-- The store invariant of a run that follows the rounds: a present round-2 slot
comes with all round-1 slots present, and every data reply given so far came
from a slot that is present. -/
def RoundInv (s : ThreshRelay) (seen : List (Party × ThreshMessage)) : Prop :=
  (∀ X : RoundArtifact, X.round = 2 → (s.slot X).isSome →
    ∀ Y : RoundArtifact, Y.round = 1 → (s.slot Y).isSome) ∧
  (∀ (p : Party) (m : ThreshMessage) (Y : RoundArtifact), (p, m) ∈ seen → m.id = Y.sendTag →
    (s.slot Y).isSome)

/-- A run of the key agreement up to Alice fetching the joint public key, with
Bob asking for the final key early: Alice stores round 1, Bob asks for round 3,
fetches round 1, stores the joint public key, and Alice fetches it. -/
def demoRun : List (PartyCall demoThreshEngine) :=
  [.alice (.SendRnd1PubKey ((11 : Nat), (12 : Nat))),
   .alice (.SendRnd1evalMultKey (13 : Nat)),
   .alice (.SendRnd1evalSumKeys (14 : Nat)),
   .bob .RequestRnd3evalMultFinal,
   .bob .RequestRnd1PubKey,
   .bob .RequestRnd1evalMultKey,
   .bob .RequestRnd1evalSumKeys,
   .bob (.SendRnd2SharedKey ((21 : Nat), (22 : Nat))),
   .alice .RequestRnd2SharedKey]

end ThreshNet

/-! # The data check of the file-based server: `real_server/utils.h` -/

namespace RealServer

open PreNet (Halt)

/-- The default tolerance of `validateData`. -/
def defaultTol : ℚ := 1 / 10000

/-- The test `std::abs(x / y) > tol` of `validateData` over exact numbers.  Where
the divisor is zero the quotient is no number, and the floating-point rule the
code runs under decides: `x / 0` is an infinity when `x ≠ 0`, which exceeds every
tolerance, and a NaN when `x = 0`, for which every comparison is false. -/
def relativeExceeds (x y tol : ℚ) : Bool :=
  if y = 0 then decide (x ≠ 0) else decide (|x / y| > tol)

/-- The loop of `validateData`, with `k` iterations left at index `i`: an element
fails when both the scale check and the absolute check exceed the tolerance. -/
def validateLoop (v1 v2 : List ℚ) (tol : ℚ) : Nat → Nat → Except Halt Bool
  | 0, _ => .ok true
  | k + 1, i =>
    match v1[i]?, v2[i]? with
    | some a, some b =>
      if relativeExceeds (a - b) a tol then
        if |a - b| > tol then .ok false
        else validateLoop v1 v2 tol k (i + 1)
      else validateLoop v1 v2 tol k (i + 1)
    | _, _ => .error .outOfBounds

/-- The template `validateData` instantiated at vectors of exact real numbers
(the server calls it on complex vectors, where `std::abs` is the modulus): false
on different sizes, otherwise the loop over `unsigned int i < v1.size()`, whose
32-bit counter never reaches a bound of `2^32` or more. -/
def validateData (v1 v2 : List ℚ) (tol : ℚ) : Except Halt Bool :=
  if v1.length ≠ v2.length then .ok false
  else if v1.length < 2 ^ 32 then validateLoop v1 v2 tol v1.length 0
  else
    match validateLoop v1 v2 tol (2 ^ 32) 0 with
    | .ok true => .error .hang
    | r => r

/-- The specification's condition on one pair of elements: the difference is
within the tolerance relative to `a`, the quotient being taken only where
`a ≠ 0`, or it is within the tolerance absolutely. -/
def specWithinTolerance (a b tol : ℚ) : Prop :=
  (a ≠ 0 ∧ |a - b| / |a| ≤ tol) ∨ |a - b| ≤ tol

end RealServer

namespace PreNet

/-! ## Theorems about the relay -/

/-- A well-formed message is handled without a failed assertion. -/
theorem OnMessage_ok_of_wellFormed (E : HEEngine) (s : PreServer E) (client : Nat)
    (msg : Message) (h : wellFormed E msg = true) :
    ∃ s' out, OnMessage E s client msg = .ok (s', out) := by
  obtain ⟨id, body⟩ := msg
  cases id <;> simp only [wellFormed, Option.isSome_iff_exists] at h <;>
    first
    | exact ⟨_, _, rfl⟩
    | (obtain ⟨k, hk⟩ := h
       simp [OnMessage, RecvClientPrivateKey, RecvClientPublicKey, RecvClientCT,
         RecvClientVecInt, hk, Except.map])

/-- The producer ciphertext slot stays as it is under every message other than
`SendCT` and `DisconnectProducer`. -/
theorem OnMessage_keeps_CT (E : HEEngine) (s s' : PreServer E) (client : Nat)
    (msg : Message) (out : Outbox) (h1 : msg.id ≠ .SendCT)
    (h2 : msg.id ≠ .DisconnectProducer)
    (h : OnMessage E s client msg = .ok (s', out)) :
    s'.m_producerCTReceived = s.m_producerCTReceived ∧ s'.m_producerCT = s.m_producerCT := by
  obtain ⟨id, body⟩ := msg
  cases id <;> simp only [ne_eq, not_true_eq_false, reduceCtorEq, not_false_eq_true] at h1 h2 <;>
    simp only [OnMessage, RecvClientPrivateKey, RecvClientPublicKey, RecvClientVecInt] at h
  all_goals
    first
    | (simp only [Except.ok.injEq, Prod.mk.injEq] at h
       obtain ⟨rfl, _⟩ := h
       exact ⟨rfl, rfl⟩)
    | (split at h
       · simp only [Except.map, Except.ok.injEq, Prod.mk.injEq] at h
         obtain ⟨rfl, _⟩ := h
         exact ⟨rfl, rfl⟩
       · simp [Except.map] at h)

/-- The consumer result-vector slot stays as it is under every message other
than `SendVecInt` and `DisconnectConsumer`. -/
theorem OnMessage_keeps_VecInt (E : HEEngine) (s s' : PreServer E) (client : Nat)
    (msg : Message) (out : Outbox) (h1 : msg.id ≠ .SendVecInt)
    (h2 : msg.id ≠ .DisconnectConsumer)
    (h : OnMessage E s client msg = .ok (s', out)) :
    s'.m_consumerVecIntReceived = s.m_consumerVecIntReceived ∧
      s'.m_consumerVecInt = s.m_consumerVecInt := by
  obtain ⟨id, body⟩ := msg
  cases id <;> simp only [ne_eq, not_true_eq_false, reduceCtorEq, not_false_eq_true] at h1 h2 <;>
    simp only [OnMessage, RecvClientPrivateKey, RecvClientPublicKey, RecvClientCT] at h
  all_goals
    first
    | (simp only [Except.ok.injEq, Prod.mk.injEq] at h
       obtain ⟨rfl, _⟩ := h
       exact ⟨rfl, rfl⟩)
    | (split at h
       · simp only [Except.map, Except.ok.injEq, Prod.mk.injEq] at h
         obtain ⟨rfl, _⟩ := h
         exact ⟨rfl, rfl⟩
       · simp [Except.map] at h)

/-- A run of well-formed messages with no `SendCT` and no `DisconnectProducer`
is served to the end and leaves the ciphertext slot as it was. -/
theorem serve_keeps_CT (E : HEEngine) (post : List (Nat × Message)) :
    ∀ s : PreServer E,
    (∀ m ∈ post, wellFormed E m.2 = true ∧ m.2.id ≠ .SendCT ∧ m.2.id ≠ .DisconnectProducer) →
    ∃ s' out, serve E s post = .ok (s', out) ∧
      s'.m_producerCTReceived = s.m_producerCTReceived ∧ s'.m_producerCT = s.m_producerCT := by
  induction post with
  | nil => intro s _; exact ⟨s, [], rfl, rfl, rfl⟩
  | cons m rest ih =>
    intro s h
    obtain ⟨client, msg⟩ := m
    obtain ⟨hw, h1, h2⟩ := h (client, msg) (List.mem_cons_self _ _)
    obtain ⟨s1, out1, e1⟩ := OnMessage_ok_of_wellFormed E s client msg hw
    obtain ⟨k1, k2⟩ := OnMessage_keeps_CT E s s1 client msg out1 h1 h2 e1
    obtain ⟨s2, out2, e2, j1, j2⟩ := ih s1 (fun m hm => h m (List.mem_cons_of_mem _ hm))
    refine ⟨s2, out1 ++ out2, ?_, j1.trans k1, j2.trans k2⟩
    simp [serve, e1, e2]

/-- A run of well-formed messages with no `SendVecInt` and no
`DisconnectConsumer` is served to the end and leaves the result-vector slot as
it was. -/
theorem serve_keeps_VecInt (E : HEEngine) (post : List (Nat × Message)) :
    ∀ s : PreServer E,
    (∀ m ∈ post, wellFormed E m.2 = true ∧ m.2.id ≠ .SendVecInt ∧
      m.2.id ≠ .DisconnectConsumer) →
    ∃ s' out, serve E s post = .ok (s', out) ∧
      s'.m_consumerVecIntReceived = s.m_consumerVecIntReceived ∧
      s'.m_consumerVecInt = s.m_consumerVecInt := by
  induction post with
  | nil => intro s _; exact ⟨s, [], rfl, rfl, rfl⟩
  | cons m rest ih =>
    intro s h
    obtain ⟨client, msg⟩ := m
    obtain ⟨hw, h1, h2⟩ := h (client, msg) (List.mem_cons_self _ _)
    obtain ⟨s1, out1, e1⟩ := OnMessage_ok_of_wellFormed E s client msg hw
    obtain ⟨k1, k2⟩ := OnMessage_keeps_VecInt E s s1 client msg out1 h1 h2 e1
    obtain ⟨s2, out2, e2, j1, j2⟩ := ih s1 (fun m hm => h m (List.mem_cons_of_mem _ hm))
    refine ⟨s2, out1 ++ out2, ?_, j1.trans k1, j2.trans k2⟩
    simp [serve, e1, e2]

/-- Without a `SendCT` in the run, the latest ciphertext is the initial one. -/
theorem latestCT_of_no_SendCT (E : HEEngine) (post : List (Nat × Message)) :
    ∀ v : E.CT, (∀ m ∈ post, m.2.id ≠ .SendCT) → latestCT E v post = v := by
  induction post with
  | nil => intro v _; rfl
  | cons m rest ih =>
    intro v h
    obtain ⟨client, id, body⟩ := m
    have hid : id ≠ .SendCT := h (client, ⟨id, body⟩) (List.mem_cons_self _ _)
    have hrest := ih v (fun m hm => h m (List.mem_cons_of_mem _ hm))
    cases id <;> first
      | exact absurd rfl hid
      | simpa [latestCT] using hrest

/-- Without a `SendVecInt` in the run, the latest result vector is the initial one. -/
theorem latestVecInt_of_no_SendVecInt (E : HEEngine) (post : List (Nat × Message)) :
    ∀ v : List Int, (∀ m ∈ post, m.2.id ≠ .SendVecInt) → latestVecInt E v post = v := by
  induction post with
  | nil => intro v _; rfl
  | cons m rest ih =>
    intro v h
    obtain ⟨client, id, body⟩ := m
    have hid : id ≠ .SendVecInt := h (client, ⟨id, body⟩) (List.mem_cons_self _ _)
    have hrest := ih v (fun m hm => h m (List.mem_cons_of_mem _ hm))
    cases id <;> first
      | exact absurd rfl hid
      | simpa [latestVecInt] using hrest

/-- A run of well-formed messages without `DisconnectProducer`, served from a
state whose ciphertext slot is present, is served to the end; the slot is still
present and holds the latest ciphertext of the run. -/
theorem serve_latest_CT (E : HEEngine) (post : List (Nat × Message)) :
    ∀ s : PreServer E, s.m_producerCTReceived = true →
    (∀ m ∈ post, wellFormed E m.2 = true ∧ m.2.id ≠ .DisconnectProducer) →
    ∃ s' out, serve E s post = .ok (s', out) ∧
      s'.m_producerCTReceived = true ∧ s'.m_producerCT = latestCT E s.m_producerCT post := by
  induction post with
  | nil => intro s hf _; exact ⟨s, [], rfl, hf, rfl⟩
  | cons m rest ih =>
    intro s hf h
    obtain ⟨client, msg⟩ := m
    obtain ⟨hw, h2⟩ := h (client, msg) (List.mem_cons_self _ _)
    by_cases h1 : msg.id = .SendCT
    · obtain ⟨id, body⟩ := msg
      simp only at h1
      subst h1
      obtain ⟨w, hw'⟩ : ∃ w, E.deserializeCT body = some w := by
        simpa [wellFormed, Option.isSome_iff_exists] using hw
      obtain ⟨s2, out2, e2, j1, j2⟩ := ih
        { s with m_producerCT := w, m_producerCTReceived := true } rfl
        (fun m hm => h m (List.mem_cons_of_mem _ hm))
      refine ⟨s2, [(client, { id := .AckCT, body := [] })] ++ out2, ?_, j1, ?_⟩
      · simp [serve, OnMessage, RecvClientCT, hw', Except.map, e2]
      · simpa [latestCT, hw'] using j2
    · obtain ⟨s1, out1, e1⟩ := OnMessage_ok_of_wellFormed E s client msg hw
      obtain ⟨k1, k2⟩ := OnMessage_keeps_CT E s s1 client msg out1 h1 h2 e1
      obtain ⟨s2, out2, e2, j1, j2⟩ := ih s1 (k1.trans hf)
        (fun m hm => h m (List.mem_cons_of_mem _ hm))
      refine ⟨s2, out1 ++ out2, by simp [serve, e1, e2], j1, ?_⟩
      obtain ⟨id, body⟩ := msg
      rw [j2, k2]
      cases id <;> first
        | exact absurd rfl h1
        | simp [latestCT]

/-- A run of well-formed messages without `DisconnectConsumer`, served from a
state whose result-vector slot is present, is served to the end; the slot is
still present and holds the latest result vector of the run. -/
theorem serve_latest_VecInt (E : HEEngine) (post : List (Nat × Message)) :
    ∀ s : PreServer E, s.m_consumerVecIntReceived = true →
    (∀ m ∈ post, wellFormed E m.2 = true ∧ m.2.id ≠ .DisconnectConsumer) →
    ∃ s' out, serve E s post = .ok (s', out) ∧
      s'.m_consumerVecIntReceived = true ∧
      s'.m_consumerVecInt = latestVecInt E s.m_consumerVecInt post := by
  induction post with
  | nil => intro s hf _; exact ⟨s, [], rfl, hf, rfl⟩
  | cons m rest ih =>
    intro s hf h
    obtain ⟨client, msg⟩ := m
    obtain ⟨hw, h2⟩ := h (client, msg) (List.mem_cons_self _ _)
    by_cases h1 : msg.id = .SendVecInt
    · obtain ⟨id, body⟩ := msg
      simp only at h1
      subst h1
      obtain ⟨w, hw'⟩ : ∃ w, E.deserializeVecInt body = some w := by
        simpa [wellFormed, Option.isSome_iff_exists] using hw
      obtain ⟨s2, out2, e2, j1, j2⟩ := ih
        { s with m_consumerVecInt := w, m_consumerVecIntReceived := true } rfl
        (fun m hm => h m (List.mem_cons_of_mem _ hm))
      refine ⟨s2, [(client, { id := .AckVecInt, body := [] })] ++ out2, ?_, j1, ?_⟩
      · simp [serve, OnMessage, RecvClientVecInt, hw', Except.map, e2]
      · simpa [latestVecInt, hw'] using j2
    · obtain ⟨s1, out1, e1⟩ := OnMessage_ok_of_wellFormed E s client msg hw
      obtain ⟨k1, k2⟩ := OnMessage_keeps_VecInt E s s1 client msg out1 h1 h2 e1
      obtain ⟨s2, out2, e2, j1, j2⟩ := ih s1 (k1.trans hf)
        (fun m hm => h m (List.mem_cons_of_mem _ hm))
      refine ⟨s2, out1 ++ out2, by simp [serve, e1, e2], j1, ?_⟩
      obtain ⟨id, body⟩ := msg
      rw [j2, k2]
      cases id <;> first
        | exact absurd rfl h1
        | simp [latestVecInt]

/-- Serving a first message and then the rest. -/
theorem serve_cons_ok (E : HEEngine) (s s1 s2 : PreServer E) (client : Nat) (msg : Message)
    (rest : List (Nat × Message)) (out1 out2 : Outbox)
    (h1 : OnMessage E s client msg = .ok (s1, out1))
    (h2 : serve E s1 rest = .ok (s2, out2)) :
    serve E s ((client, msg) :: rest) = .ok (s2, out1 ++ out2) := by
  simp [serve, h1, h2]

/-- The reply to `RequestCT` when the ciphertext slot is present. -/
theorem SendClientCT_present (E : HEEngine) (s : PreServer E) (client : Nat) (body : Bytes)
    (h : s.m_producerCTReceived = true) :
    OnMessage E s client { id := .RequestCT, body := body } =
      .ok (s, [(client, { id := .SendCT, body := E.serializeCT s.m_producerCT })]) := by
  simp [OnMessage, SendClientCT, h]

/-- The reply to `RequestVecInt` when the result-vector slot is present. -/
theorem SendClientVecInt_present (E : HEEngine) (s : PreServer E) (client : Nat)
    (body : Bytes) (h : s.m_consumerVecIntReceived = true) :
    OnMessage E s client { id := .RequestVecInt, body := body } =
      .ok (s, [(client, { id := .SendVecInt, body := E.serializeVecInt s.m_consumerVecInt })]) := by
  simp [OnMessage, SendClientVecInt, h]

/-- C1: in every relay state whose ciphertext (resp. result-vector) flag is
false, and so in the freshly constructed relay, `RequestCT` (resp.
`RequestVecInt`) is answered by exactly one message, to the requester, with tag
`NackCT` (resp. `NackVecInt`); no data reply is sent and the state is unchanged. -/
theorem request_empty_slot_nacks (E : HEEngine) (s : PreServer E) (client : Nat)
    (body : Bytes) :
    (s.m_producerCTReceived = false →
      OnMessage E s client { id := .RequestCT, body := body } =
        .ok (s, [(client, { id := .NackCT, body := [] })])) ∧
    (s.m_consumerVecIntReceived = false →
      OnMessage E s client { id := .RequestVecInt, body := body } =
        .ok (s, [(client, { id := .NackVecInt, body := [] })])) ∧
    OnMessage E (PreServer.new E) client { id := .RequestCT, body := body } =
      .ok (PreServer.new E, [(client, { id := .NackCT, body := [] })]) ∧
    OnMessage E (PreServer.new E) client { id := .RequestVecInt, body := body } =
      .ok (PreServer.new E, [(client, { id := .NackVecInt, body := [] })]) := by
  refine ⟨fun h => ?_, fun h => ?_, ?_, ?_⟩
  · simp [OnMessage, SendClientCT, h]
  · simp [OnMessage, SendClientVecInt, h]
  · simp [OnMessage, SendClientCT, PreServer.new]
  · simp [OnMessage, SendClientVecInt, PreServer.new]

/-- Witness for C1: the freshly constructed relay over the toy engine has both
flags false and answers both requests with the Nack. -/
theorem request_empty_slot_nacks_witness :
    (PreServer.new demoEngine).m_producerCTReceived = false ∧
    (PreServer.new demoEngine).m_consumerVecIntReceived = false ∧
    OnMessage demoEngine (PreServer.new demoEngine) 7 { id := .RequestCT, body := [] } =
      .ok (PreServer.new demoEngine, [(7, { id := .NackCT, body := [] })]) ∧
    OnMessage demoEngine (PreServer.new demoEngine) 7 { id := .RequestVecInt, body := [] } =
      .ok (PreServer.new demoEngine, [(7, { id := .NackVecInt, body := [] })]) :=
  ⟨rfl, rfl,
    (request_empty_slot_nacks demoEngine (PreServer.new demoEngine) 7 []).1 rfl,
    (request_empty_slot_nacks demoEngine (PreServer.new demoEngine) 7 []).2.1 rfl⟩

/-- C2: let the relay, in any state, handle `SendCT` with a payload that
deserializes to `v`, and after it any run of well-formed messages that contains
no Disconnect.  The run is served to the end, and in the state reached every
`RequestCT`, from any connection, is answered by exactly one message, never
`NackCT`: its tag is `SendCT` and its payload is the serialization of the
ciphertext stored last, which is `v` itself unless the run contains a newer
`SendCT`.  The same holds for `SendVecInt` and `RequestVecInt`. -/
theorem request_present_slot_sends (E : HEEngine) (s : PreServer E) (client : Nat)
    (payload : Bytes) (post : List (Nat × Message))
    (hpost : ∀ m ∈ post, wellFormed E m.2 = true ∧
      m.2.id ≠ .DisconnectProducer ∧ m.2.id ≠ .DisconnectConsumer) :
    (∀ v, E.deserializeCT payload = some v →
      ∃ s' out, serve E s ((client, { id := .SendCT, body := payload }) :: post) = .ok (s', out) ∧
        (∀ requester body, OnMessage E s' requester { id := .RequestCT, body := body } =
          .ok (s', [(requester, { id := .SendCT, body := E.serializeCT (latestCT E v post) })])) ∧
        ((∀ m ∈ post, m.2.id ≠ .SendCT) → latestCT E v post = v)) ∧
    (∀ v, E.deserializeVecInt payload = some v →
      ∃ s' out, serve E s ((client, { id := .SendVecInt, body := payload }) :: post) =
          .ok (s', out) ∧
        (∀ requester body, OnMessage E s' requester { id := .RequestVecInt, body := body } =
          .ok (s', [(requester,
            { id := .SendVecInt, body := E.serializeVecInt (latestVecInt E v post) })])) ∧
        ((∀ m ∈ post, m.2.id ≠ .SendVecInt) → latestVecInt E v post = v)) := by
  constructor
  · intro v hv
    obtain ⟨s2, out2, e2, j1, j2⟩ := serve_latest_CT E post
      { s with m_producerCT := v, m_producerCTReceived := true } rfl
      (fun m hm => ⟨(hpost m hm).1, (hpost m hm).2.1⟩)
    refine ⟨s2, _, serve_cons_ok E s _ s2 client _ post
      [(client, { id := .AckCT, body := [] })] out2 ?_ e2, ?_,
      latestCT_of_no_SendCT E post v⟩
    · simp [OnMessage, RecvClientCT, hv, Except.map]
    · intro requester body
      rw [SendClientCT_present E s2 requester body j1, j2]
  · intro v hv
    obtain ⟨s2, out2, e2, j1, j2⟩ := serve_latest_VecInt E post
      { s with m_consumerVecInt := v, m_consumerVecIntReceived := true } rfl
      (fun m hm => ⟨(hpost m hm).1, (hpost m hm).2.2⟩)
    refine ⟨s2, _, serve_cons_ok E s _ s2 client _ post
      [(client, { id := .AckVecInt, body := [] })] out2 ?_ e2, ?_,
      latestVecInt_of_no_SendVecInt E post v⟩
    · simp [OnMessage, RecvClientVecInt, hv, Except.map]
    · intro requester body
      rw [SendClientVecInt_present E s2 requester body j1, j2]

/-- Witness for C2: on the fresh toy relay the payload `[0, 5, 1, 2]` decodes to
`[5, -2]` both as a ciphertext and as a result vector; a key upload and a
context request in between do not disturb either slot. -/
theorem request_present_slot_sends_witness :
    demoEngine.deserializeCT [0, 5, 1, 2] = some [5, -2] ∧
    (∃ s' out, serve demoEngine (PreServer.new demoEngine)
        ((1, { id := .SendCT, body := [0, 5, 1, 2] }) ::
          [(2, { id := .SendPublicKey, body := [22] }), (2, { id := .RequestCC, body := [] })]) =
          .ok (s', out) ∧
      ∀ requester body, OnMessage demoEngine s' requester { id := .RequestCT, body := body } =
        .ok (s', [(requester, { id := .SendCT, body := [0, 5, 1, 2] })])) ∧
    (∃ s' out, serve demoEngine (PreServer.new demoEngine)
        ((1, { id := .SendVecInt, body := [0, 5, 1, 2] }) ::
          [(2, { id := .SendPublicKey, body := [22] }), (2, { id := .RequestCC, body := [] })]) =
          .ok (s', out) ∧
      ∀ requester body, OnMessage demoEngine s' requester { id := .RequestVecInt, body := body } =
        .ok (s', [(requester, { id := .SendVecInt, body := [0, 5, 1, 2] })])) := by
  have hpost : ∀ m ∈ [((2 : Nat), ({ id := .SendPublicKey, body := [22] } : Message)),
      (2, { id := .RequestCC, body := [] })],
      wellFormed demoEngine m.2 = true ∧
        m.2.id ≠ .DisconnectProducer ∧ m.2.id ≠ .DisconnectConsumer := by
    intro m hm
    simp only [List.mem_cons, List.mem_singleton, List.not_mem_nil, or_false] at hm
    rcases hm with rfl | rfl <;> exact ⟨rfl, by decide, by decide⟩
  obtain ⟨s1, out1, e1, r1, _⟩ :=
    (request_present_slot_sends demoEngine (PreServer.new demoEngine) 1 [0, 5, 1, 2]
      [(2, { id := .SendPublicKey, body := [22] }), (2, { id := .RequestCC, body := [] })]
      hpost).1 ([5, -2] : List Int) rfl
  obtain ⟨s2, out2, e2, r2, _⟩ :=
    (request_present_slot_sends demoEngine (PreServer.new demoEngine) 1 [0, 5, 1, 2]
      [(2, { id := .SendPublicKey, body := [22] }), (2, { id := .RequestCC, body := [] })]
      hpost).2 [5, -2] rfl
  exact ⟨rfl, ⟨s1, out1, e1, r1⟩, ⟨s2, out2, e2, r2⟩⟩

/-- C4: let `p1`, `p2` be payloads of public keys `k1`, `k2` and `ps` the payload
of a private key `sk`.  From any relay state, after `SendPublicKey(p1)`,
`SendPublicKey(p2)`, `SendPrivateKey(ps)` in any of the three orders that keep
`p2` after `p1`, the next `RequestReEncryptionKey` is answered by one
`SendReEncryptionKey` message whose payload is the serialization of
`ReKeyGen(k2, sk)` under the server context. -/
theorem reencryption_key_uses_latest_public_key (E : HEEngine) (s : PreServer E)
    (consumer producer requester : Nat) (p1 p2 ps body : Bytes)
    (k1 k2 : E.PublicKey) (sk : E.PrivateKey)
    (h1 : E.deserializePublicKey p1 = some k1) (h2 : E.deserializePublicKey p2 = some k2)
    (hs : E.deserializePrivateKey ps = some sk) :
    ∀ run ∈ [[(consumer, { id := .SendPublicKey, body := p1 }),
              (consumer, { id := .SendPublicKey, body := p2 }),
              (producer, { id := .SendPrivateKey, body := ps })],
             [(consumer, { id := .SendPublicKey, body := p1 }),
              (producer, { id := .SendPrivateKey, body := ps }),
              (consumer, { id := .SendPublicKey, body := p2 })],
             [(producer, { id := .SendPrivateKey, body := ps }),
              (consumer, { id := .SendPublicKey, body := p1 }),
              (consumer, { id := .SendPublicKey, body := p2 })]],
      ∃ s' out, serve E s run = .ok (s', out) ∧
        OnMessage E s' requester { id := .RequestReEncryptionKey, body := body } =
          .ok (s', [(requester, { id := .SendReEncryptionKey
                                  body := E.serializeEvalKey (E.ReKeyGen s.m_serverCC k2 sk) })]) := by
  intro run hrun
  simp only [List.mem_cons, List.mem_singleton, List.not_mem_nil, or_false] at hrun
  rcases hrun with rfl | rfl | rfl <;>
    simp [serve, OnMessage, RecvClientPublicKey, RecvClientPrivateKey,
      SendClientReEncryptionKey, Except.map, h1, h2, hs]

/-- Witness for C4: public keys 21 then 22 and private key 11 on the toy relay;
the derived key pairs 22 with 11. -/
theorem reencryption_key_uses_latest_public_key_witness :
    ∃ s' out, serve demoEngine (PreServer.new demoEngine)
        [(2, { id := .SendPublicKey, body := [21] }),
         (1, { id := .SendPrivateKey, body := [11] }),
         (2, { id := .SendPublicKey, body := [22] })] = .ok (s', out) ∧
      OnMessage demoEngine s' 2 { id := .RequestReEncryptionKey, body := [] } =
        .ok (s', [(2, { id := .SendReEncryptionKey, body := [22, 11] })]) :=
  reencryption_key_uses_latest_public_key demoEngine (PreServer.new demoEngine) 2 1 2
    [21] [22] [11] [] (21 : Nat) (22 : Nat) (11 : Nat) rfl rfl rfl _
    (List.mem_cons_of_mem _ (List.mem_cons_self _ _))

/-- C5: `DisconnectProducer` sends nothing and sets the ciphertext flag and the
private-key flag to false, so that `RequestCT` is then answered `NackCT` and
`RequestReEncryptionKey` is answered `NackReEncryptionKey`; the consumer public
key, the consumer result vector and its flag, and the server context are as
before. -/
theorem disconnect_producer_clears_producer (E : HEEngine) (s : PreServer E)
    (client requester : Nat) (body body' : Bytes) :
    ∃ s', OnMessage E s client { id := .DisconnectProducer, body := body } = .ok (s', []) ∧
      s'.m_producerCTReceived = false ∧
      s'.m_producerPrivateKeyReceived = false ∧
      OnMessage E s' requester { id := .RequestCT, body := body' } =
        .ok (s', [(requester, { id := .NackCT, body := [] })]) ∧
      OnMessage E s' requester { id := .RequestReEncryptionKey, body := body' } =
        .ok (s', [(requester, { id := .NackReEncryptionKey, body := [] })]) ∧
      s'.m_consumerPublicKey = s.m_consumerPublicKey ∧
      s'.m_consumerVecInt = s.m_consumerVecInt ∧
      s'.m_consumerVecIntReceived = s.m_consumerVecIntReceived ∧
      s'.m_serverCC = s.m_serverCC :=
  ⟨{ s with m_producerCTReceived := false, m_producerPrivateKeyReceived := false },
    rfl, rfl, rfl, rfl, rfl, rfl, rfl, rfl, rfl⟩

/-- C6 (the relay against the claim): the toy relay is given a private key and a
consumer public key, then `DisconnectConsumer`.  A `RequestReEncryptionKey` after
that is still answered with a key derived from the public key 22 of the consumer
that disconnected: the handler resets the result-vector flag only, and the
public key stays available. -/
theorem disconnect_consumer_keeps_public_key :
    serve demoEngine (PreServer.new demoEngine)
      [(1, { id := .SendPrivateKey, body := [11] }),
       (2, { id := .SendPublicKey, body := [22] }),
       (2, { id := .DisconnectConsumer, body := [] }),
       (3, { id := .RequestReEncryptionKey, body := [] })] =
    .ok ({ (PreServer.new demoEngine) with
            m_producerPrivateKey := (11 : Nat)
            m_producerPrivateKeyReceived := true
            m_consumerPublicKey := (22 : Nat) },
      [(1, { id := .AckPrivateKey, body := [] }),
       (2, { id := .AckPublicKey, body := [] }),
       (3, { id := .SendReEncryptionKey, body := [22, 11] })]) := by
  rfl

/-- C7: for each of `SendPrivateKey`, `SendPublicKey`, `SendCT`, `SendVecInt`
with a payload that deserializes to `v`, the relay stores `v` in that slot
(setting the slot's flag where it has one) and sends exactly one message, to the
sender, with the matching Ack tag and an empty body. -/
theorem send_stores_and_acks (E : HEEngine) (s : PreServer E) (client : Nat)
    (payload : Bytes) :
    (∀ v, E.deserializePrivateKey payload = some v →
      OnMessage E s client { id := .SendPrivateKey, body := payload } =
        .ok ({ s with m_producerPrivateKey := v, m_producerPrivateKeyReceived := true },
          [(client, { id := .AckPrivateKey, body := [] })])) ∧
    (∀ v, E.deserializePublicKey payload = some v →
      OnMessage E s client { id := .SendPublicKey, body := payload } =
        .ok ({ s with m_consumerPublicKey := v },
          [(client, { id := .AckPublicKey, body := [] })])) ∧
    (∀ v, E.deserializeCT payload = some v →
      OnMessage E s client { id := .SendCT, body := payload } =
        .ok ({ s with m_producerCT := v, m_producerCTReceived := true },
          [(client, { id := .AckCT, body := [] })])) ∧
    (∀ v, E.deserializeVecInt payload = some v →
      OnMessage E s client { id := .SendVecInt, body := payload } =
        .ok ({ s with m_consumerVecInt := v, m_consumerVecIntReceived := true },
          [(client, { id := .AckVecInt, body := [] })])) := by
  refine ⟨fun v h => ?_, fun v h => ?_, fun v h => ?_, fun v h => ?_⟩
  · simp [OnMessage, RecvClientPrivateKey, Except.map, h]
  · simp [OnMessage, RecvClientPublicKey, Except.map, h]
  · simp [OnMessage, RecvClientCT, Except.map, h]
  · simp [OnMessage, RecvClientVecInt, Except.map, h]

/-- Witness for C7: one well-formed payload of each kind on the fresh toy relay. -/
theorem send_stores_and_acks_witness :
    (demoEngine.deserializePrivateKey [11] = some (11 : Nat) ∧
      OnMessage demoEngine (PreServer.new demoEngine) 1 { id := .SendPrivateKey, body := [11] } =
        .ok ({ (PreServer.new demoEngine) with
                m_producerPrivateKey := (11 : Nat), m_producerPrivateKeyReceived := true },
          [(1, { id := .AckPrivateKey, body := [] })])) ∧
    (demoEngine.deserializePublicKey [11] = some (11 : Nat) ∧
      OnMessage demoEngine (PreServer.new demoEngine) 1 { id := .SendPublicKey, body := [11] } =
        .ok ({ (PreServer.new demoEngine) with m_consumerPublicKey := (11 : Nat) },
          [(1, { id := .AckPublicKey, body := [] })])) ∧
    (demoEngine.deserializeCT [0, 3, 0, 7] = some [3, 7] ∧
      OnMessage demoEngine (PreServer.new demoEngine) 1 { id := .SendCT, body := [0, 3, 0, 7] } =
        .ok ({ (PreServer.new demoEngine) with
                m_producerCT := ([3, 7] : List Int), m_producerCTReceived := true },
          [(1, { id := .AckCT, body := [] })])) ∧
    (demoEngine.deserializeVecInt [0, 3, 0, 7] = some [3, 7] ∧
      OnMessage demoEngine (PreServer.new demoEngine) 1
          { id := .SendVecInt, body := [0, 3, 0, 7] } =
        .ok ({ (PreServer.new demoEngine) with
                m_consumerVecInt := [3, 7], m_consumerVecIntReceived := true },
          [(1, { id := .AckVecInt, body := [] })])) :=
  ⟨⟨rfl, (send_stores_and_acks demoEngine (PreServer.new demoEngine) 1 [11]).1 (11 : Nat) rfl⟩,
   ⟨rfl, (send_stores_and_acks demoEngine (PreServer.new demoEngine) 1 [11]).2.1 (11 : Nat) rfl⟩,
   ⟨rfl, (send_stores_and_acks demoEngine (PreServer.new demoEngine) 1 [0, 3, 0, 7]).2.2.1
      ([3, 7] : List Int) rfl⟩,
   ⟨rfl, (send_stores_and_acks demoEngine (PreServer.new demoEngine) 1 [0, 3, 0, 7]).2.2.2
      [3, 7] rfl⟩⟩

/-- C8: let `pa`, `pb` be payloads of ciphertexts `a`, `b`.  From any relay state,
after `SendCT(pa)` then `SendCT(pb)`, and then any run of well-formed messages
without a further `SendCT` or Disconnect, every `RequestCT` is answered by one
`SendCT` message carrying the serialization of `b`: the reply depends on `pb`
alone, `a` is gone.  Likewise for `SendVecInt` and `RequestVecInt`. -/
theorem last_write_wins (E : HEEngine) (s : PreServer E) (c1 c2 : Nat)
    (pa pb : Bytes) (post : List (Nat × Message)) :
    (∀ a b, E.deserializeCT pa = some a → E.deserializeCT pb = some b →
      (∀ m ∈ post, wellFormed E m.2 = true ∧ m.2.id ≠ .SendCT ∧
        m.2.id ≠ .DisconnectProducer ∧ m.2.id ≠ .DisconnectConsumer) →
      ∃ s' out, serve E s ((c1, { id := .SendCT, body := pa }) ::
          (c2, { id := .SendCT, body := pb }) :: post) = .ok (s', out) ∧
        ∀ requester body, OnMessage E s' requester { id := .RequestCT, body := body } =
          .ok (s', [(requester, { id := .SendCT, body := E.serializeCT b })])) ∧
    (∀ a b, E.deserializeVecInt pa = some a → E.deserializeVecInt pb = some b →
      (∀ m ∈ post, wellFormed E m.2 = true ∧ m.2.id ≠ .SendVecInt ∧
        m.2.id ≠ .DisconnectProducer ∧ m.2.id ≠ .DisconnectConsumer) →
      ∃ s' out, serve E s ((c1, { id := .SendVecInt, body := pa }) ::
          (c2, { id := .SendVecInt, body := pb }) :: post) = .ok (s', out) ∧
        ∀ requester body, OnMessage E s' requester { id := .RequestVecInt, body := body } =
          .ok (s', [(requester, { id := .SendVecInt, body := E.serializeVecInt b })])) := by
  constructor
  · intro a b ha hb hpost
    obtain ⟨s2, out2, e2, j1, j2⟩ := serve_keeps_CT E post
      { s with m_producerCT := b, m_producerCTReceived := true }
      (fun m hm => ⟨(hpost m hm).1, (hpost m hm).2.1, (hpost m hm).2.2.1⟩)
    refine ⟨s2, _, serve_cons_ok E s { s with m_producerCT := a, m_producerCTReceived := true }
      s2 c1 _ _ [(c1, { id := .AckCT, body := [] })] _ ?_
      (serve_cons_ok E _ _ s2 c2 _ post [(c2, { id := .AckCT, body := [] })] out2 ?_ e2), ?_⟩
    · simp [OnMessage, RecvClientCT, ha, Except.map]
    · simp [OnMessage, RecvClientCT, hb, Except.map]
    · intro requester body
      rw [SendClientCT_present E s2 requester body j1, j2]
  · intro a b ha hb hpost
    obtain ⟨s2, out2, e2, j1, j2⟩ := serve_keeps_VecInt E post
      { s with m_consumerVecInt := b, m_consumerVecIntReceived := true }
      (fun m hm => ⟨(hpost m hm).1, (hpost m hm).2.1, (hpost m hm).2.2.2⟩)
    refine ⟨s2, _, serve_cons_ok E s
      { s with m_consumerVecInt := a, m_consumerVecIntReceived := true }
      s2 c1 _ _ [(c1, { id := .AckVecInt, body := [] })] _ ?_
      (serve_cons_ok E _ _ s2 c2 _ post [(c2, { id := .AckVecInt, body := [] })] out2 ?_ e2), ?_⟩
    · simp [OnMessage, RecvClientVecInt, ha, Except.map]
    · simp [OnMessage, RecvClientVecInt, hb, Except.map]
    · intro requester body
      rw [SendClientVecInt_present E s2 requester body j1, j2]

/-- Witness for C8: `[3, 7]` then `[5, -2]` sent to the fresh toy relay, as
ciphertexts and as result vectors; the request returns `[5, -2]`. -/
theorem last_write_wins_witness :
    (∃ s' out, serve demoEngine (PreServer.new demoEngine)
        ((1, { id := .SendCT, body := [0, 3, 0, 7] }) ::
          (1, { id := .SendCT, body := [0, 5, 1, 2] }) :: []) = .ok (s', out) ∧
      ∀ requester body, OnMessage demoEngine s' requester { id := .RequestCT, body := body } =
        .ok (s', [(requester, { id := .SendCT, body := [0, 5, 1, 2] })])) ∧
    (∃ s' out, serve demoEngine (PreServer.new demoEngine)
        ((2, { id := .SendVecInt, body := [0, 3, 0, 7] }) ::
          (2, { id := .SendVecInt, body := [0, 5, 1, 2] }) :: []) = .ok (s', out) ∧
      ∀ requester body, OnMessage demoEngine s' requester
          { id := .RequestVecInt, body := body } =
        .ok (s', [(requester, { id := .SendVecInt, body := [0, 5, 1, 2] })])) :=
  ⟨(last_write_wins demoEngine (PreServer.new demoEngine) 1 1 [0, 3, 0, 7] [0, 5, 1, 2] []).1
      ([3, 7] : List Int) ([5, -2] : List Int) rfl rfl (fun _ hm => absurd hm (List.not_mem_nil _)),
   (last_write_wins demoEngine (PreServer.new demoEngine) 2 2 [0, 3, 0, 7] [0, 5, 1, 2] []).2
      [3, 7] [5, -2] rfl rfl (fun _ hm => absurd hm (List.not_mem_nil _))⟩

/-! ## Theorems about the producer -/

/-- C9 as stated fails: the connected producer waits in `GetMessage` and the head
of its queue has tag `SendCC`, but the body does not deserialize.  `RecvCC`
fails its assertion and the process stops; there is no next state `GenKeys`. -/
theorem transition_table_malformed_payload :
    ((Producer.new demoEngine).deliver [{ id := .SendCC, body := [] }]).connected = true ∧
    ((Producer.new demoEngine).deliver [{ id := .SendCC, body := [] }]).state = .GetMessage ∧
    ((Producer.new demoEngine).deliver [{ id := .SendCC, body := [] }]).incoming =
      [{ id := .SendCC, body := [] }] ∧
    step demoEngine demoRand ((Producer.new demoEngine).deliver [{ id := .SendCC, body := [] }]) =
      .error .assertFailed ∧
    ¬ ∃ σ', step demoEngine demoRand
        ((Producer.new demoEngine).deliver [{ id := .SendCC, body := [] }]) = .ok σ' ∧
      σ'.state = .GenKeys := by
  refine ⟨rfl, rfl, rfl, rfl, ?_⟩
  rintro ⟨σ', h, _⟩
  have e : step demoEngine demoRand
      ((Producer.new demoEngine).deliver [{ id := .SendCC, body := [] }]) =
      .error .assertFailed := rfl
  rw [e] at h
  exact Except.noConfusion h

/-- C9 (amended): the connected producer in state `GetMessage` with `msg` at the
head of its queue pops `msg` and goes to `RequestCC` on `ServerAccept`, `GenCT`
on `AckPrivateKey`, `RequestVecInt` on `AckCT` and on `NackVecInt`; on `SendCC`
(resp. `SendVecInt`) with a body that deserializes it stores the context (resp.
the vector) and goes to `GenKeys` (resp. `Verify`), and with a body that does
not deserialize it stops on the failed assertion.  Nothing else changes. -/
theorem producer_transition_table (E : HEEngine) (rand : Nat → Nat) (σ : Producer E)
    (msg : Message) (rest : List Message)
    (hc : σ.connected = true) (hs : σ.state = .GetMessage) (hq : σ.incoming = msg :: rest) :
    (msg.id = .ServerAccept →
      step E rand σ = .ok { σ with incoming := rest, state := .RequestCC }) ∧
    (msg.id = .SendCC →
      (∀ cc, E.deserializeCC msg.body = some cc →
        step E rand σ =
          .ok { σ with incoming := rest, clientCC := cc, clientCCSet := true
                       state := .GenKeys }) ∧
      (E.deserializeCC msg.body = none → step E rand σ = .error .assertFailed)) ∧
    (msg.id = .AckPrivateKey →
      step E rand σ = .ok { σ with incoming := rest, state := .GenCT }) ∧
    (msg.id = .AckCT →
      step E rand σ = .ok { σ with incoming := rest, state := .RequestVecInt }) ∧
    (msg.id = .SendVecInt →
      (∀ vi, E.deserializeVecInt msg.body = some vi →
        step E rand σ =
          .ok { σ with incoming := rest, unpackedConsumer := vi, state := .Verify }) ∧
      (E.deserializeVecInt msg.body = none → step E rand σ = .error .assertFailed)) ∧
    (msg.id = .NackVecInt →
      step E rand σ = .ok { σ with incoming := rest, state := .RequestVecInt }) := by
  obtain ⟨id, body⟩ := msg
  refine ⟨?_, ?_, ?_, ?_, ?_, ?_⟩ <;> intro h <;> simp only at h <;> subst h
  · simp [step, hc, hs, hq, onReply]
  · constructor
    · intro cc hcc
      simp [step, hc, hs, hq, onReply, RecvCC, hcc, Except.map]
    · intro hcc
      simp [step, hc, hs, hq, onReply, RecvCC, hcc, Except.map]
  · simp [step, hc, hs, hq, onReply]
  · simp [step, hc, hs, hq, onReply]
  · constructor
    · intro vi hvi
      simp [step, hc, hs, hq, onReply, RecvVecInt, hvi, Except.map]
    · intro hvi
      simp [step, hc, hs, hq, onReply, RecvVecInt, hvi, Except.map]
  · simp [step, hc, hs, hq, onReply]

/-- Witness for C9 (amended): the fresh toy producer after delivery of a `SendCC`
whose body `[65537]` is a context. -/
theorem producer_transition_table_witness :
    ((Producer.new demoEngine).deliver [{ id := .SendCC, body := [65537] }]).connected = true ∧
    ((Producer.new demoEngine).deliver [{ id := .SendCC, body := [65537] }]).state =
      .GetMessage ∧
    ((Producer.new demoEngine).deliver [{ id := .SendCC, body := [65537] }]).incoming =
      { id := .SendCC, body := [65537] } :: [] ∧
    demoEngine.deserializeCC [65537] = some (65537 : Nat) ∧
    step demoEngine demoRand
        ((Producer.new demoEngine).deliver [{ id := .SendCC, body := [65537] }]) =
      .ok { (Producer.new demoEngine) with
              incoming := [], clientCC := (65537 : Nat), clientCCSet := true
              state := .GenKeys } :=
  ⟨rfl, rfl, rfl, rfl,
    ((producer_transition_table demoEngine demoRand
      ((Producer.new demoEngine).deliver [{ id := .SendCC, body := [65537] }])
      { id := .SendCC, body := [65537] } [] rfl rfl rfl).2.1 rfl).1 (65537 : Nat) rfl⟩

/-- C10 as stated fails: the toy producer has received `ServerAccept`, has sent
`RequestCC` and waits for `SendCC` (that step has no Nack).  An `AckCT` arrives
instead, and the producer leaves `GetMessage` for `RequestVecInt`. -/
theorem producer_transitions_on_unexpected_reply :
    Reachable demoEngine demoRand
      { (Producer.new demoEngine) with
          sent := [RequestCC], incoming := [{ id := .AckCT, body := [] }] } ∧
    ({ (Producer.new demoEngine) with
        sent := [RequestCC], incoming := [{ id := .AckCT, body := [] }] } :
      Producer demoEngine).state = .GetMessage ∧
    lastSent ({ (Producer.new demoEngine) with
        sent := [RequestCC], incoming := [{ id := .AckCT, body := [] }] } :
      Producer demoEngine) = some .RequestCC ∧
    specExpectedReply (some .RequestCC) = some .SendCC ∧
    specNackReply (some .RequestCC) = none ∧
    step demoEngine demoRand
      { (Producer.new demoEngine) with
          sent := [RequestCC], incoming := [{ id := .AckCT, body := [] }] } =
      .ok { (Producer.new demoEngine) with
              sent := [RequestCC], incoming := [], state := .RequestVecInt } := by
  refine ⟨?_, rfl, rfl, rfl, rfl, rfl⟩
  have h0 : Reachable demoEngine demoRand
      ((Producer.new demoEngine).deliver [{ id := .ServerAccept, body := [] }]) :=
    Reachable.deliver _ Reachable.start
  have h1 : Reachable demoEngine demoRand
      { (Producer.new demoEngine) with state := .RequestCC } :=
    Reachable.pass h0 rfl rfl
  have h2 : Reachable demoEngine demoRand
      { (Producer.new demoEngine) with sent := [RequestCC] } :=
    Reachable.pass h1 rfl rfl
  exact Reachable.deliver [{ id := .AckCT, body := [] }] h2

/-- C10 (amended): a pass of the loop in state `GetMessage` changes the state only
by popping a message whose tag is one of the six handled ones (`ServerAccept`,
`SendCC`, `AckPrivateKey`, `AckCT`, `SendVecInt`, `NackVecInt`), whichever
request was sent last; and with any other tag at the head of the queue the pass
completes and the producer is still in `GetMessage`. -/
theorem waiting_state_changes_only_on_handled_tag (E : HEEngine) (rand : Nat → Nat)
    (σ : Producer E) (hs : σ.state = .GetMessage) :
    (∀ σ', step E rand σ = .ok σ' → σ'.state ≠ .GetMessage →
      ∃ msg rest, σ.connected = true ∧ σ.incoming = msg :: rest ∧ σ'.incoming = rest ∧
        msg.id ∈ [PreMsgTypes.ServerAccept, .SendCC, .AckPrivateKey, .AckCT, .SendVecInt,
          .NackVecInt]) ∧
    (∀ msg rest, σ.incoming = msg :: rest →
      msg.id ∉ [PreMsgTypes.ServerAccept, .SendCC, .AckPrivateKey, .AckCT, .SendVecInt,
        .NackVecInt] →
      ∃ σ', step E rand σ = .ok σ' ∧ σ'.state = .GetMessage) := by
  constructor
  · intro σ' h hne
    cases hc : σ.connected
    · simp [step, hc] at h
      subst h
      exact absurd hs hne
    · cases hq : σ.incoming with
      | nil =>
        simp [step, hc, hs, hq] at h
        subst h
        exact absurd hs hne
      | cons msg rest =>
        refine ⟨msg, rest, rfl, rfl, ?_⟩
        obtain ⟨id, body⟩ := msg
        simp only [step, hc, hs, hq, if_true] at h
        cases id <;> simp only [onReply, RecvCC, RecvVecInt] at h
        all_goals
          first
          | (simp only [Except.ok.injEq] at h
             subst h
             first
             | exact absurd rfl hne
             | exact absurd hs hne
             | exact ⟨rfl, by simp⟩)
          | (split at h
             · simp only [Except.map, Except.ok.injEq] at h
               subst h
               exact ⟨rfl, by simp⟩
             · simp [Except.map] at h)
  · intro msg rest hq hne
    obtain ⟨id, body⟩ := msg
    cases hc : σ.connected
    · exact ⟨σ, by simp [step, hc], hs⟩
    · cases id <;> simp at hne <;>
        exact ⟨{ σ with incoming := rest }, by simp [step, hc, hs, hq, onReply], hs⟩

/-- Witness for C10 (amended): the toy producer waiting for `SendCC` leaves
`GetMessage` on an `AckCT`, one of the six handled tags, and stays in
`GetMessage` on an `AckVecInt`, which is not handled. -/
theorem waiting_state_changes_only_on_handled_tag_witness :
    (∃ msg rest,
      ({ (Producer.new demoEngine) with
          sent := [RequestCC], incoming := [{ id := .AckCT, body := [] }] } :
        Producer demoEngine).incoming = msg :: rest ∧
      msg.id ∈ [PreMsgTypes.ServerAccept, .SendCC, .AckPrivateKey, .AckCT, .SendVecInt,
        .NackVecInt]) ∧
    (∃ σ', step demoEngine demoRand
        { (Producer.new demoEngine) with
            sent := [RequestCC], incoming := [{ id := .AckVecInt, body := [] }] } = .ok σ' ∧
      σ'.state = .GetMessage) := by
  constructor
  · obtain ⟨msg, rest, _, h1, _, h2⟩ :=
      (waiting_state_changes_only_on_handled_tag demoEngine demoRand
        { (Producer.new demoEngine) with
            sent := [RequestCC], incoming := [{ id := .AckCT, body := [] }] } rfl).1
        { (Producer.new demoEngine) with
            sent := [RequestCC], incoming := [], state := .RequestVecInt } rfl (by decide)
    exact ⟨msg, rest, h1, h2⟩
  · exact (waiting_state_changes_only_on_handled_tag demoEngine demoRand
      { (Producer.new demoEngine) with
          sent := [RequestCC], incoming := [{ id := .AckVecInt, body := [] }] } rfl).2
      { id := .AckVecInt, body := [] } [] rfl (by decide)

/-! ## The loops of `Verify` and the loop of `main` -/

/-- The negative-wrap loop started at the end of `pre` with `k` iterations left
corrects the next `k` elements and leaves the others. -/
theorem wrapLoop_append (p : Int) : ∀ (k : Nat) (pre xs : List Int), k ≤ xs.length →
    wrapLoop p k pre.length (pre ++ xs) =
      .ok (pre ++ ((xs.take k).map (wrapValue p) ++ xs.drop k))
  | 0, pre, xs, _ => by simp [wrapLoop]
  | k + 1, pre, [], h => by simp at h
  | k + 1, pre, x :: xs, h => by
    have ih := wrapLoop_append p k (pre ++ [wrapValue p x]) xs (by simpa using h)
    have hget : (pre ++ x :: xs)[pre.length]? = some x := by
      rw [List.getElem?_append_right (le_refl _)]
      simp
    have hset : (if x < 0 then (pre ++ x :: xs).set pre.length (x + p) else pre ++ x :: xs) =
        (pre ++ [wrapValue p x]) ++ xs := by
      unfold wrapValue
      split <;> simp
    rw [wrapLoop, hget]
    simp only [hset]
    have hlen : pre.length + 1 = (pre ++ [wrapValue p x]).length := by simp
    rw [hlen, ih]
    simp

/-- The negative-wrap loop over the first `n` elements, all of them present. -/
theorem wrapCorrect_ok (p : Int) (n : Nat) (v : List Int) (hn : n ≤ v.length)
    (h32 : n < 2 ^ 32) :
    wrapCorrect p n v = .ok ((v.take n).map (wrapValue p) ++ v.drop n) := by
  have h := wrapLoop_append p n [] v hn
  simp only [List.length_nil, List.nil_append] at h
  unfold wrapCorrect
  rw [if_pos h32, h]

/-- The comparison loop over indices that are all present returns; the flag
is true afterwards exactly when it was true before and no visited index shows a
difference. -/
theorem compareLoop_ok (orig enc cons : List Int) : ∀ (k j : Nat) (good : Bool),
    j + k ≤ orig.length → j + k ≤ enc.length → j + k ≤ cons.length →
    ∃ g, compareLoop orig enc cons k j good = .ok g ∧
      (g = true ↔ good = true ∧
        ∀ i, j ≤ i → i < j + k → orig[i]? = enc[i]? ∧ orig[i]? = cons[i]?)
  | 0, j, good, _, _, _ => by
    refine ⟨good, rfl, ?_⟩
    constructor
    · intro h
      exact ⟨h, fun i h1 h2 => absurd h2 (by omega)⟩
    · intro h
      exact h.1
  | k + 1, j, good, ho, he, hc => by
    have hjo : j < orig.length := by omega
    have hje : j < enc.length := by omega
    have hjc : j < cons.length := by omega
    obtain ⟨g, hg, hiff⟩ := compareLoop_ok orig enc cons k (j + 1)
      (if orig[j] ≠ enc[j] ∨ orig[j] ≠ cons[j] then false else good)
      (by omega) (by omega) (by omega)
    refine ⟨g, ?_, ?_⟩
    · rw [compareLoop, List.getElem?_eq_getElem hjo, List.getElem?_eq_getElem hje,
        List.getElem?_eq_getElem hjc]
      exact hg
    · rw [hiff]
      constructor
      · rintro ⟨h1, h2⟩
        by_cases hm : orig[j] ≠ enc[j] ∨ orig[j] ≠ cons[j]
        · simp [hm] at h1
        · rw [if_neg hm] at h1
          push_neg at hm
          refine ⟨h1, fun i hi1 hi2 => ?_⟩
          by_cases hij : i = j
          · subst hij
            rw [List.getElem?_eq_getElem hjo, List.getElem?_eq_getElem hje,
              List.getElem?_eq_getElem hjc, hm.1, ← hm.2, hm.1]
            exact ⟨rfl, rfl⟩
          · exact h2 i (by omega) (by omega)
      · rintro ⟨h1, h2⟩
        have hj := h2 j (le_refl _) (by omega)
        rw [List.getElem?_eq_getElem hjo, List.getElem?_eq_getElem hje,
          List.getElem?_eq_getElem hjc] at hj
        have hm : ¬ (orig[j] ≠ enc[j] ∨ orig[j] ≠ cons[j]) := by
          push_neg
          exact ⟨Option.some.inj hj.1, Option.some.inj hj.2⟩
        rw [if_neg hm]
        exact ⟨h1, fun i hi1 hi2 => h2 i (by omega) (by omega)⟩

/-- The comparison loop of `Verify` over a consumer vector no longer than the
other two. -/
theorem compareAll_ok (orig enc cons : List Int) (good : Bool)
    (ho : cons.length ≤ orig.length) (he : cons.length ≤ enc.length)
    (h32 : cons.length < 2 ^ 32) :
    ∃ g, compareAll orig enc cons good = .ok g ∧
      (g = true ↔ good = true ∧
        ∀ i, i < cons.length → orig[i]? = enc[i]? ∧ orig[i]? = cons[i]?) := by
  obtain ⟨g, hg, hiff⟩ := compareLoop_ok orig enc cons cons.length 0 good
    (by omega) (by omega) (by omega)
  refine ⟨g, ?_, ?_⟩
  · unfold compareAll
    rw [if_pos h32, hg]
  · rw [hiff]
    constructor
    · rintro ⟨h1, h2⟩
      exact ⟨h1, fun i hi => h2 i (Nat.zero_le _) (by omega)⟩
    · rintro ⟨h1, h2⟩
      exact ⟨h1, fun i _ hi => h2 i (by omega)⟩

/-- The `Verify` pass when every index the two loops visit is present: the pass
completes, sends `DisconnectProducer`, sets `done`, and leaves `good` true exactly
when it was true and the three vectors agree at every index of the consumer's. -/
theorem step_Verify_ok (E : HEEngine) (rand : Nat → Nat) (σ : Producer E)
    (hc : σ.connected = true) (hs : σ.state = .Verify)
    (hcc : σ.clientCCSet = true) (hkp : σ.keyPairSet = true)
    (hct : σ.ctSet = true) (hpt : σ.ptSet = true)
    (h1 : E.GetLength σ.pt ≤ (unpackedEncryptedProducer E σ).length)
    (h2 : E.GetLength σ.pt < 2 ^ 32)
    (h3 : σ.unpackedConsumer.length ≤ (unpackedOriginalProducer E σ).length)
    (h4 : σ.unpackedConsumer.length ≤ (unpackedEncryptedProducer E σ).length)
    (h5 : σ.unpackedConsumer.length < 2 ^ 32) :
    ∃ g, step E rand σ =
        .ok { σ with good := g, sent := σ.sent ++ [DisconnectProducer], done := true } ∧
      (g = true ↔ σ.good = true ∧ ∀ i, i < σ.unpackedConsumer.length →
        (unpackedOriginalProducer E σ)[i]? =
            (((unpackedEncryptedProducer E σ).take (E.GetLength σ.pt)).map
              (wrapValue σ.plaintextModulus) ++
              (unpackedEncryptedProducer E σ).drop (E.GetLength σ.pt))[i]? ∧
          (unpackedOriginalProducer E σ)[i]? = σ.unpackedConsumer[i]?) := by
  have hw := wrapCorrect_ok σ.plaintextModulus (E.GetLength σ.pt)
    (unpackedEncryptedProducer E σ) h1 h2
  obtain ⟨g, hg, hiff⟩ := compareAll_ok (unpackedOriginalProducer E σ)
    (((unpackedEncryptedProducer E σ).take (E.GetLength σ.pt)).map
      (wrapValue σ.plaintextModulus) ++
      (unpackedEncryptedProducer E σ).drop (E.GetLength σ.pt))
    σ.unpackedConsumer σ.good h3 (by simp only [List.length_append, List.length_map,
      List.length_take, List.length_drop]; omega) h5
  refine ⟨g, ?_, hiff⟩
  unfold unpackedEncryptedProducer at hw hg
  unfold unpackedOriginalProducer at hg
  simp only [step, hc, hs, hcc, hkp, hct, hpt, Bool.and_self, Bool.not_true, if_true,
    Bool.false_eq_true, if_false, hw, hg]

/-- A pass of the loop either leaves `good` and `done` as they were, or is the
`Verify` pass and sets `done`. -/
theorem step_good_done (E : HEEngine) (rand : Nat → Nat) (σ σ' : Producer E)
    (h : step E rand σ = .ok σ') :
    (σ'.good = σ.good ∧ σ'.done = σ.done) ∨
      (σ.connected = true ∧ σ.state = .Verify ∧ σ'.done = true) := by
  cases hc : σ.connected
  · simp [step, hc] at h
    subst h
    exact Or.inl ⟨rfl, rfl⟩
  · cases hs : σ.state
    · -- GetMessage
      cases hq : σ.incoming with
      | nil =>
        simp [step, hc, hs, hq] at h
        subst h
        exact Or.inl ⟨rfl, rfl⟩
      | cons msg rest =>
        obtain ⟨id, body⟩ := msg
        simp only [step, hc, hs, hq, if_true] at h
        cases id <;> simp only [onReply, RecvCC, RecvVecInt] at h
        all_goals
          first
          | (simp only [Except.ok.injEq] at h
             subst h
             exact Or.inl ⟨rfl, rfl⟩)
          | (split at h
             · simp only [Except.map, Except.ok.injEq] at h
               subst h
               exact Or.inl ⟨rfl, rfl⟩
             · simp [Except.map] at h)
    · simp [step, hc, hs] at h
      subst h
      exact Or.inl ⟨rfl, rfl⟩
    · simp only [step, hc, hs, if_true] at h
      split at h
      · simp at h
      · split at h
        · simp at h
        · simp only [Except.ok.injEq] at h
          subst h
          exact Or.inl ⟨rfl, rfl⟩
    · simp only [step, hc, hs, if_true] at h
      split at h
      · simp at h
      · split at h
        · simp at h
        · split at h
          · simp at h
          · simp only [Except.ok.injEq] at h
            subst h
            exact Or.inl ⟨rfl, rfl⟩
    · simp [step, hc, hs] at h
      subst h
      exact Or.inl ⟨rfl, rfl⟩
    · refine Or.inr ⟨rfl, rfl, ?_⟩
      simp only [step, hc, hs, if_true] at h
      split at h
      · simp at h
      · split at h
        · simp at h
        · split at h
          · simp at h
          · simp only [Except.ok.injEq] at h
            subst h
            rfl

/-- The loop is not entered again once `done` is set. -/
theorem run_of_done (E : HEEngine) (rand : Nat → Nat) (σ : Producer E)
    (schedule : List (List Message)) (h : σ.done = true) :
    run E rand σ schedule = .ok σ := by
  cases schedule with
  | nil => rfl
  | cons a rest => simp [run, h]

/-- One pass of a running loop, then the rest of the schedule. -/
theorem run_cons (E : HEEngine) (rand : Nat → Nat) (σ σ' : Producer E)
    (arrivals : List Message) (rest : List (List Message))
    (hd : σ.done = false) (h : step E rand (σ.deliver arrivals) = .ok σ') :
    run E rand σ (arrivals :: rest) = run E rand σ' rest := by
  simp [run, hd, h]

/-- C11 (the producer against the claim): three runs of the toy producer against
an honest relay, modulus 65537, original vector `[3, 7, 40001]`.  When the
consumer's vector is `[3, 7, 40001]` the run ends with `good = true`; when its
last element is changed it ends with `good = false`; but when the consumer's
vector is only `[3, 7]`, or is empty, the run also ends with `good = true`,
although the vectors are not equal: the comparison loop stops at the length of
the consumer's vector and the lengths are never compared. -/
theorem verify_passes_on_shorter_consumer_vector :
    (run demoEngine scenarioRand (Producer.new demoEngine)
        (scenarioSchedule 65537 [3, 7, 40001])).map
      (fun σ => (σ.done, σ.good, unpackedOriginalProducer demoEngine σ, σ.unpackedConsumer)) =
      .ok (true, true, [3, 7, 40001], [3, 7, 40001]) ∧
    (run demoEngine scenarioRand (Producer.new demoEngine)
        (scenarioSchedule 65537 [3, 7, 40002])).map
      (fun σ => (σ.done, σ.good, unpackedOriginalProducer demoEngine σ, σ.unpackedConsumer)) =
      .ok (true, false, [3, 7, 40001], [3, 7, 40002]) ∧
    (run demoEngine scenarioRand (Producer.new demoEngine)
        (scenarioSchedule 65537 [3, 7])).map
      (fun σ => (σ.done, σ.good, unpackedOriginalProducer demoEngine σ, σ.unpackedConsumer)) =
      .ok (true, true, [3, 7, 40001], [3, 7]) ∧
    (run demoEngine scenarioRand (Producer.new demoEngine)
        (scenarioSchedule 65537 [])).map
      (fun σ => (σ.done, σ.good, unpackedOriginalProducer demoEngine σ, σ.unpackedConsumer)) =
      .ok (true, true, [3, 7, 40001], []) := by
  refine ⟨?_, ?_, ?_, ?_⟩ <;> rfl

/-- C12: for a plaintext modulus `p > 0`, the correction of `Verify` (add `p` to
a negative value, leave the others) maps the symmetric representative of every
`v` in `[0, p)` back to `v`, leaves non-negative values unchanged, and maps
every value of `[-p, p)` into `[0, p)`; and the negative-wrap loop run over the
symmetric representatives of a vector with entries in `[0, p)` returns that
vector. -/
theorem negative_wrap_recovers (p : Int) (_hp : 0 < p) :
    (∀ v, 0 ≤ v → v < p → wrapValue p (specSymmetricRep p v) = v) ∧
    (∀ x, 0 ≤ x → wrapValue p x = x) ∧
    (∀ x, -p ≤ x → x < p → 0 ≤ wrapValue p x ∧ wrapValue p x < p) ∧
    (∀ vs : List Int, vs.length < 2 ^ 32 → (∀ v ∈ vs, 0 ≤ v ∧ v < p) →
      wrapCorrect p vs.length (vs.map (specSymmetricRep p)) = .ok vs) := by
  have h1 : ∀ v, 0 ≤ v → v < p → wrapValue p (specSymmetricRep p v) = v := by
    intro v h0 hv
    unfold wrapValue specSymmetricRep
    split_ifs <;> omega
  refine ⟨h1, ?_, ?_, ?_⟩
  · intro x hx
    unfold wrapValue
    split_ifs <;> omega
  · intro x hl hu
    unfold wrapValue
    split_ifs <;> omega
  · intro vs h32 hvs
    have hlen : vs.length ≤ (vs.map (specSymmetricRep p)).length := by simp
    rw [wrapCorrect_ok p vs.length _ hlen h32]
    have e : ∀ ws : List Int, (∀ v ∈ ws, 0 ≤ v ∧ v < p) →
        ws.map (fun v => wrapValue p (specSymmetricRep p v)) = ws := by
      intro ws
      induction ws with
      | nil => intro _; rfl
      | cons w ws ih =>
        intro h
        rw [List.map_cons, h1 w (h w (List.mem_cons_self _ _)).1 (h w (List.mem_cons_self _ _)).2,
          ih (fun v hv => h v (List.mem_cons_of_mem _ hv))]
    have ht : List.take vs.length (vs.map (specSymmetricRep p)) = vs.map (specSymmetricRep p) :=
      List.take_of_length_le (by simp)
    have hd : List.drop vs.length (vs.map (specSymmetricRep p)) = [] :=
      List.drop_of_length_le (by simp)
    rw [ht, hd, List.append_nil, List.map_map]
    exact congrArg Except.ok (e vs hvs)

/-- Witness for C12: modulus 65537; 40001 has the representative -25536, which the
correction maps back; the loop recovers `[3, 7, 40001]` from `[3, 7, -25536]`. -/
theorem negative_wrap_recovers_witness :
    (0 : Int) < 65537 ∧
    specSymmetricRep 65537 40001 = -25536 ∧
    wrapValue 65537 (specSymmetricRep 65537 40001) = 40001 ∧
    wrapValue 65537 7 = 7 ∧
    (0 ≤ wrapValue 65537 (-25536) ∧ wrapValue 65537 (-25536) < 65537) ∧
    wrapCorrect 65537 3 [3, 7, -25536] = .ok [3, 7, 40001] :=
  ⟨by decide, by decide,
    (negative_wrap_recovers 65537 (by decide)).1 40001 (by decide) (by decide),
    (negative_wrap_recovers 65537 (by decide)).2.1 7 (by decide),
    (negative_wrap_recovers 65537 (by decide)).2.2.1 (-25536) (by decide) (by decide),
    (negative_wrap_recovers 65537 (by decide)).2.2.2 [3, 7, 40001] (by decide) (by decide)⟩

/-- C13 (the producer against the claim): the toy producer is sent a context
whose plaintext modulus is exactly 65536, which does not exceed 65536.  `GenCT`
does not exit: after six passes the producer has packed and encrypted a vector
and has sent `RequestCC`, `SendPrivateKey`, `SendCT`.  With modulus 65535 the
same pass is `std::exit(EXIT_FAILURE)`.  The test in the code is
`plaintextModulus < 65536`, while its error message says the code is designed
for `plaintextModulus>65536`. -/
theorem genCT_accepts_modulus_65536 :
    (run demoEngine scenarioRand (Producer.new demoEngine)
        ((scenarioSchedule 65536 []).take 6)).map
      (fun σ => (σ.plaintextModulus, σ.ct, σ.sent.map (fun m => m.id))) =
      .ok (65536, [3, 7, 40001], [.RequestCC, .SendPrivateKey, .SendCT]) ∧
    run demoEngine scenarioRand (Producer.new demoEngine)
        ((scenarioSchedule 65535 []).take 6) = .error .exitFailure := by
  constructor <;> rfl

/-- A pass in `GetMessage` with nothing in the queue and nothing arriving changes
nothing. -/
theorem step_idle (E : HEEngine) (rand : Nat → Nat) (σ : Producer E)
    (hs : σ.state = .GetMessage) (hq : σ.incoming = []) :
    step E rand (σ.deliver []) = .ok σ := by
  obtain ⟨connected, incoming, sent, randCalls, done, good, state, clientCC, keyPair, pt, ct,
    ringsize, nShort, plaintextModulus, vShorts, unpackedConsumer⟩ := σ
  simp only at hs hq
  subst hs hq
  cases connected <;> simp [step, Producer.deliver]

/-- Idle passes of the waiting producer leave the run where it was. -/
theorem run_idle (E : HEEngine) (rand : Nat → Nat) (σ : Producer E)
    (hd : σ.done = false) (hs : σ.state = .GetMessage) (hq : σ.incoming = [])
    (rest : List (List Message)) :
    ∀ idle : Nat, run E rand σ (List.replicate idle [] ++ rest) = run E rand σ rest
  | 0 => by simp
  | idle + 1 => by
    rw [List.replicate_succ, List.cons_append,
      run_cons E rand σ σ [] _ hd (step_idle E rand σ hs hq)]
    exact run_idle E rand σ hd hs hq rest idle

/-- One Nack round of the waiting producer: idle polls, the pass that pops the
`NackVecInt`, and the pass that sends `RequestVecInt` again. -/
theorem run_nack_round (E : HEEngine) (rand : Nat → Nat) (σ : Producer E)
    (hc : σ.connected = true) (hd : σ.done = false) (hs : σ.state = .GetMessage)
    (hq : σ.incoming = []) (idle : Nat) (body : Bytes) (rest : List (List Message)) :
    run E rand σ
        (List.replicate idle [] ++ [{ id := .NackVecInt, body := body }] :: [] :: rest) =
      run E rand { σ with sent := σ.sent ++ [RequestVecInt] } rest := by
  rw [run_idle E rand σ hd hs hq _ idle]
  obtain ⟨connected, incoming, sent, randCalls, done, good, state, clientCC, keyPair, pt, ct,
    ringsize, nShort, plaintextModulus, vShorts, unpackedConsumer⟩ := σ
  simp only at hc hd hs hq
  subst hc hd hs hq
  simp [run, step, Producer.deliver, onReply]

/-- The waiting producer against a schedule of Nacks: one more `RequestVecInt`
per Nack, and nothing else changes. -/
theorem run_nackSchedule (E : HEEngine) (rand : Nat → Nat) :
    ∀ (rounds : List (Nat × Bytes)) (σ : Producer E),
      σ.connected = true → σ.done = false → σ.state = .GetMessage → σ.incoming = [] →
      run E rand σ (nackSchedule rounds) =
        .ok { σ with sent := σ.sent ++ List.replicate rounds.length RequestVecInt }
  | [], σ, _, _, _, _ => by simp [nackSchedule, run]
  | (idle, body) :: rounds, σ, hc, hd, hs, hq => by
    rw [nackSchedule, run_nack_round E rand σ hc hd hs hq idle body,
      run_nackSchedule E rand rounds { σ with sent := σ.sent ++ [RequestVecInt] } hc hd hs hq]
    simp [List.replicate_succ]

/-- C14: the connected producer is about to send `RequestVecInt` with an empty
queue.  Let the relay answer `NackVecInt` `n` times in a row (`rounds` has one
entry per Nack: how many empty polls precede it, and its body).  For every `n`
the run completes without stopping, and at its end the producer has sent
exactly `n + 1` messages with tag `RequestVecInt` and an empty body and nothing
else, `done` is still false, the queue is empty and the state is `GetMessage`,
waiting for the reply; no other variable has changed. -/
theorem nack_retry_unbounded (E : HEEngine) (rand : Nat → Nat) (σ : Producer E)
    (rounds : List (Nat × Bytes))
    (hc : σ.connected = true) (hd : σ.done = false) (hs : σ.state = .RequestVecInt)
    (hq : σ.incoming = []) :
    run E rand σ ([] :: nackSchedule rounds) =
      .ok { σ with sent := σ.sent ++ List.replicate (rounds.length + 1)
                     ({ id := .RequestVecInt, body := [] } : Message)
                   state := .GetMessage } ∧
    (∀ σ', run E rand σ ([] :: nackSchedule rounds) = .ok σ' →
      σ'.done = false ∧ σ'.state = .GetMessage ∧ σ'.incoming = [] ∧
      σ'.sent.length = σ.sent.length + (rounds.length + 1) ∧
      (∀ m ∈ σ'.sent.drop σ.sent.length, m.id = PreMsgTypes.RequestVecInt ∧ m.body = []) ∧
      σ'.sent.take σ.sent.length = σ.sent) := by
  have hfirst : step E rand (σ.deliver []) =
      .ok { σ with sent := σ.sent ++ [RequestVecInt], state := .GetMessage } := by
    obtain ⟨connected, incoming, sent, randCalls, done, good, state, clientCC, keyPair, pt, ct,
      ringsize, nShort, plaintextModulus, vShorts, unpackedConsumer⟩ := σ
    simp only at hc hd hs hq
    subst hc hd hs hq
    simp [step, Producer.deliver]
  have hrun : run E rand σ ([] :: nackSchedule rounds) =
      .ok { σ with sent := σ.sent ++ List.replicate (rounds.length + 1)
                     ({ id := .RequestVecInt, body := [] } : Message)
                   state := .GetMessage } := by
    rw [run_cons E rand σ _ [] _ hd hfirst,
      run_nackSchedule E rand rounds
        { σ with sent := σ.sent ++ [RequestVecInt], state := .GetMessage } hc hd rfl hq]
    simp [List.replicate_succ, RequestVecInt]
  refine ⟨hrun, ?_⟩
  intro σ' h
  rw [hrun] at h
  have e := Except.ok.inj h
  subst e
  refine ⟨hd, rfl, hq, by simp, ?_, by simp⟩
  intro m hm
  simp only [List.drop_left] at hm
  rw [List.eq_of_mem_replicate hm]
  exact ⟨rfl, rfl⟩

/-- Witness for C14: the toy producer, three Nacks (the second after two empty
polls): four messages with tag `RequestVecInt` sent, still waiting. -/
theorem nack_retry_unbounded_witness :
    run demoEngine demoRand { (Producer.new demoEngine) with state := .RequestVecInt }
        ([] :: nackSchedule [(0, []), (2, []), (0, [])]) =
      .ok { (Producer.new demoEngine) with
              sent := [{ id := .RequestVecInt, body := [] }, { id := .RequestVecInt, body := [] },
                { id := .RequestVecInt, body := [] }, { id := .RequestVecInt, body := [] }]
              state := .GetMessage } :=
  (nack_retry_unbounded demoEngine demoRand
    { (Producer.new demoEngine) with state := .RequestVecInt }
    [(0, []), (2, []), (0, [])] rfl rfl rfl rfl).1

/-- C15: the producer is in `GetMessage` and the head of its queue has a tag
other than `ServerAccept`, `SendCC`, `AckPrivateKey`, `AckCT`, `SendVecInt`,
`NackVecInt`.  The pass completes; if the producer is connected the message is
popped, and nothing else changes: same state, nothing sent, same context, keys,
plaintext, ciphertext, vectors and flags.  And a pass in `GetMessage` with an
empty queue returns the configuration unchanged. -/
theorem unhandled_message_ignored (E : HEEngine) (rand : Nat → Nat) (σ : Producer E)
    (hs : σ.state = .GetMessage) :
    (∀ msg rest, σ.incoming = msg :: rest →
      msg.id ∉ [PreMsgTypes.ServerAccept, .SendCC, .AckPrivateKey, .AckCT, .SendVecInt,
        .NackVecInt] →
      step E rand σ = .ok (if σ.connected then { σ with incoming := rest } else σ)) ∧
    (σ.incoming = [] → step E rand σ = .ok σ) := by
  constructor
  · intro msg rest hq hne
    obtain ⟨id, body⟩ := msg
    cases hc : σ.connected
    · simp [step, hc]
    · cases id <;> simp at hne <;> simp [step, hc, hs, hq, onReply]
  · intro hq
    cases hc : σ.connected <;> simp [step, hc, hs, hq]

/-- Witness for C15: the waiting toy producer pops a `NackCT` and is otherwise
unchanged; with an empty queue the pass changes nothing. -/
theorem unhandled_message_ignored_witness :
    step demoEngine demoRand
        { (Producer.new demoEngine) with
            sent := [RequestCC], incoming := [{ id := .NackCT, body := [9] }] } =
      .ok { (Producer.new demoEngine) with sent := [RequestCC], incoming := [] } ∧
    step demoEngine demoRand { (Producer.new demoEngine) with sent := [RequestCC] } =
      .ok { (Producer.new demoEngine) with sent := [RequestCC] } :=
  ⟨(unhandled_message_ignored demoEngine demoRand
      { (Producer.new demoEngine) with
          sent := [RequestCC], incoming := [{ id := .NackCT, body := [9] }] } rfl).1
      { id := .NackCT, body := [9] } [] rfl (by decide),
    (unhandled_message_ignored demoEngine demoRand
      { (Producer.new demoEngine) with sent := [RequestCC] } rfl).2 rfl⟩

/-- A pass that enters `Verify` from another state is the `GetMessage` pass that
pops a `SendVecInt` and stores its vector. -/
theorem step_enters_Verify (E : HEEngine) (rand : Nat → Nat) (σ σ' : Producer E)
    (h : step E rand σ = .ok σ') (hne : σ.state ≠ .Verify) (hv : σ'.state = .Verify) :
    σ.connected = true ∧ σ.state = .GetMessage ∧
      ∃ msg rest, σ.incoming = msg :: rest ∧ msg.id = .SendVecInt ∧ σ'.incoming = rest ∧
        E.deserializeVecInt msg.body = some σ'.unpackedConsumer := by
  cases hc : σ.connected
  · simp [step, hc] at h
    subst h
    exact absurd hv hne
  · cases hs : σ.state
    · cases hq : σ.incoming with
      | nil =>
        simp [step, hc, hs, hq] at h
        subst h
        exact absurd hv hne
      | cons msg rest =>
        refine ⟨rfl, rfl, msg, rest, rfl, ?_⟩
        obtain ⟨id, body⟩ := msg
        simp only [step, hc, hs, hq, if_true] at h
        cases id <;> simp only [onReply, RecvCC, RecvVecInt] at h
        all_goals
          first
          | (simp only [Except.ok.injEq] at h
             subst h
             simp at hv)
          | (split at h
             · simp only [Except.map, Except.ok.injEq] at h
               subst h
               first
               | exact ⟨rfl, rfl, by assumption⟩
               | (simp at hv)
             · simp [Except.map] at h)
    · simp [step, hc, hs] at h
      subst h
      simp at hv
    · simp only [step, hc, hs, if_true] at h
      split at h
      · simp at h
      · split at h
        · simp at h
        · simp only [Except.ok.injEq] at h
          subst h
          simp at hv
    · simp only [step, hc, hs, if_true] at h
      split at h
      · simp at h
      · split at h
        · simp at h
        · split at h
          · simp at h
          · simp only [Except.ok.injEq] at h
            subst h
            simp at hv
    · simp [step, hc, hs] at h
      subst h
      simp at hv
    · exact absurd hs hne

/-- What a completed `Verify` pass leaves: `done` set and exactly one
`DisconnectProducer` appended to the messages sent. -/
theorem step_Verify_sends (E : HEEngine) (rand : Nat → Nat) (σ σ' : Producer E)
    (h : step E rand σ = .ok σ') (hc : σ.connected = true) (hs : σ.state = .Verify) :
    σ'.done = true ∧ σ'.sent = σ.sent ++ [DisconnectProducer] := by
  simp only [step, hc, hs, if_true] at h
  split at h
  · simp at h
  · split at h
    · simp at h
    · split at h
      · simp at h
      · simp only [Except.ok.injEq] at h
        subst h
        exact ⟨rfl, rfl⟩

/-- C16: the producer starts in `GetMessage`, and for every completed pass of the
loop from `σ` to `σ'`: (a) if the pass sets `done`, the producer was connected
and in state `Verify`; (b) if the pass enters `Verify`, it is the `GetMessage`
pass that pops a `SendVecInt` and stores its vector; (c) if it is the `Verify`
pass, it sets `done` and appends exactly one `DisconnectProducer` to the
messages sent, and the loop then ends: whatever arrives later, no further pass
is made and nothing more is sent. -/
theorem producer_halts_only_from_verify (E : HEEngine) (rand : Nat → Nat)
    (σ σ' : Producer E) (h : step E rand σ = .ok σ') :
    (Producer.new E).state = .GetMessage ∧
    (σ.done = false → σ'.done = true → σ.connected = true ∧ σ.state = .Verify) ∧
    (σ.state ≠ .Verify → σ'.state = .Verify →
      σ.connected = true ∧ σ.state = .GetMessage ∧
        ∃ msg rest, σ.incoming = msg :: rest ∧ msg.id = .SendVecInt ∧ σ'.incoming = rest ∧
          E.deserializeVecInt msg.body = some σ'.unpackedConsumer) ∧
    (σ.connected = true → σ.state = .Verify →
      σ'.done = true ∧ σ'.sent = σ.sent ++ [DisconnectProducer] ∧
        ∀ schedule, run E rand σ' schedule = .ok σ') := by
  refine ⟨rfl, ?_, ?_, ?_⟩
  · intro hd hd'
    rcases step_good_done E rand σ σ' h with ⟨_, hdone⟩ | ⟨hc, hs, _⟩
    · rw [hdone, hd] at hd'
      exact absurd hd' (by decide)
    · exact ⟨hc, hs⟩
  · exact step_enters_Verify E rand σ σ' h
  · intro hc hs
    obtain ⟨hd, hsent⟩ := step_Verify_sends E rand σ σ' h hc hs
    exact ⟨hd, hsent, fun schedule => run_of_done E rand σ' schedule hd⟩

/-- Witness for C16: the `Verify` pass of the scenario's toy producer; it sets
`done`, sends the disconnect as its fifth message, and a later schedule changes
nothing. -/
theorem producer_halts_only_from_verify_witness :
    step demoEngine scenarioRand (scenarioBeforeVerify [3, 7, 40001]) =
      .ok { scenarioBeforeVerify [3, 7, 40001] with
              sent := (scenarioBeforeVerify [3, 7, 40001]).sent ++ [DisconnectProducer]
              done := true } ∧
    (scenarioBeforeVerify [3, 7, 40001]).done = false ∧
    (scenarioBeforeVerify [3, 7, 40001]).connected = true ∧
    (scenarioBeforeVerify [3, 7, 40001]).state = .Verify ∧
    run demoEngine scenarioRand
        { scenarioBeforeVerify [3, 7, 40001] with
            sent := (scenarioBeforeVerify [3, 7, 40001]).sent ++ [DisconnectProducer]
            done := true }
        [[{ id := .NackVecInt, body := [] }], []] =
      .ok { scenarioBeforeVerify [3, 7, 40001] with
              sent := (scenarioBeforeVerify [3, 7, 40001]).sent ++ [DisconnectProducer]
              done := true } :=
  ⟨rfl, rfl, rfl, rfl,
    ((producer_halts_only_from_verify demoEngine scenarioRand
      (scenarioBeforeVerify [3, 7, 40001])
      { scenarioBeforeVerify [3, 7, 40001] with
          sent := (scenarioBeforeVerify [3, 7, 40001]).sent ++ [DisconnectProducer]
          done := true } rfl).2.2.2 rfl rfl).2.2 [[{ id := .NackVecInt, body := [] }], []]⟩

/-- C22: for each of `SendPrivateKey`, `SendPublicKey`, `SendCT`, `SendVecInt`, if
the body does not deserialize (the stream is left in a failed state), the
handler stops on the failed assertion: no next state and no reply exist, in
particular no Ack, and whatever messages follow are never served, so no later
request finds the slot present. -/
theorem malformed_payload_is_fatal (E : HEEngine) (s : PreServer E) (client : Nat)
    (payload : Bytes) (rest : List (Nat × Message)) :
    (E.deserializePrivateKey payload = none →
      OnMessage E s client { id := .SendPrivateKey, body := payload } = .error .assertFailed ∧
      serve E s ((client, { id := .SendPrivateKey, body := payload }) :: rest) =
        .error .assertFailed) ∧
    (E.deserializePublicKey payload = none →
      OnMessage E s client { id := .SendPublicKey, body := payload } = .error .assertFailed ∧
      serve E s ((client, { id := .SendPublicKey, body := payload }) :: rest) =
        .error .assertFailed) ∧
    (E.deserializeCT payload = none →
      OnMessage E s client { id := .SendCT, body := payload } = .error .assertFailed ∧
      serve E s ((client, { id := .SendCT, body := payload }) :: rest) =
        .error .assertFailed) ∧
    (E.deserializeVecInt payload = none →
      OnMessage E s client { id := .SendVecInt, body := payload } = .error .assertFailed ∧
      serve E s ((client, { id := .SendVecInt, body := payload }) :: rest) =
        .error .assertFailed) := by
  refine ⟨fun h => ?_, fun h => ?_, fun h => ?_, fun h => ?_⟩
  · have e : OnMessage E s client { id := .SendPrivateKey, body := payload } =
        .error .assertFailed := by
      simp [OnMessage, RecvClientPrivateKey, Except.map, h]
    exact ⟨e, by simp [serve, e]⟩
  · have e : OnMessage E s client { id := .SendPublicKey, body := payload } =
        .error .assertFailed := by
      simp [OnMessage, RecvClientPublicKey, Except.map, h]
    exact ⟨e, by simp [serve, e]⟩
  · have e : OnMessage E s client { id := .SendCT, body := payload } =
        .error .assertFailed := by
      simp [OnMessage, RecvClientCT, Except.map, h]
    exact ⟨e, by simp [serve, e]⟩
  · have e : OnMessage E s client { id := .SendVecInt, body := payload } =
        .error .assertFailed := by
      simp [OnMessage, RecvClientVecInt, Except.map, h]
    exact ⟨e, by simp [serve, e]⟩

/-- Witness for C22: the empty body is no key and the one-byte body `[7]` is no
vector for the toy engine; the fresh relay fails on each, and the request that
follows is not served. -/
theorem malformed_payload_is_fatal_witness :
    (demoEngine.deserializePrivateKey [] = none ∧
      serve demoEngine (PreServer.new demoEngine)
        ((1, { id := .SendPrivateKey, body := [] }) ::
          [(2, { id := .RequestReEncryptionKey, body := [] })]) = .error .assertFailed) ∧
    (demoEngine.deserializePublicKey [] = none ∧
      serve demoEngine (PreServer.new demoEngine)
        ((2, { id := .SendPublicKey, body := [] }) ::
          [(2, { id := .RequestReEncryptionKey, body := [] })]) = .error .assertFailed) ∧
    (demoEngine.deserializeCT [7] = none ∧
      serve demoEngine (PreServer.new demoEngine)
        ((1, { id := .SendCT, body := [7] }) ::
          [(2, { id := .RequestCT, body := [] })]) = .error .assertFailed) ∧
    (demoEngine.deserializeVecInt [7] = none ∧
      serve demoEngine (PreServer.new demoEngine)
        ((2, { id := .SendVecInt, body := [7] }) ::
          [(1, { id := .RequestVecInt, body := [] })]) = .error .assertFailed) :=
  ⟨⟨rfl, ((malformed_payload_is_fatal demoEngine (PreServer.new demoEngine) 1 []
      [(2, { id := .RequestReEncryptionKey, body := [] })]).1 rfl).2⟩,
   ⟨rfl, ((malformed_payload_is_fatal demoEngine (PreServer.new demoEngine) 2 []
      [(2, { id := .RequestReEncryptionKey, body := [] })]).2.1 rfl).2⟩,
   ⟨rfl, ((malformed_payload_is_fatal demoEngine (PreServer.new demoEngine) 1 [7]
      [(2, { id := .RequestCT, body := [] })]).2.2.1 rfl).2⟩,
   ⟨rfl, ((malformed_payload_is_fatal demoEngine (PreServer.new demoEngine) 2 [7]
      [(1, { id := .RequestVecInt, body := [] })]).2.2.2 rfl).2⟩⟩

/-- C27: handling `RequestCC`, `RequestReEncryptionKey`, `RequestCT` or
`RequestVecInt` returns the very state it was given, in every state and for
every body: no slot value, no flag and not the context is written, and the key
derived for `RequestReEncryptionKey` goes into the reply only. -/
theorem requests_leave_store_unchanged (E : HEEngine) (s : PreServer E) (client : Nat)
    (body : Bytes) :
    (∃ out, OnMessage E s client { id := .RequestCC, body := body } = .ok (s, out)) ∧
    (∃ out, OnMessage E s client { id := .RequestReEncryptionKey, body := body } =
      .ok (s, out)) ∧
    (∃ out, OnMessage E s client { id := .RequestCT, body := body } = .ok (s, out)) ∧
    (∃ out, OnMessage E s client { id := .RequestVecInt, body := body } = .ok (s, out)) :=
  ⟨⟨_, rfl⟩, ⟨_, rfl⟩, ⟨_, rfl⟩, ⟨_, rfl⟩⟩

/-- A message whose handling turns a ready flag from true to false is one of the
two Disconnect messages. -/
theorem flag_cleared_only_by_disconnect (E : HEEngine) (s s' : PreServer E) (client : Nat)
    (msg : Message) (out : Outbox) (h : OnMessage E s client msg = .ok (s', out))
    (hf : (s.m_producerPrivateKeyReceived = true ∧ s'.m_producerPrivateKeyReceived = false) ∨
      (s.m_producerCTReceived = true ∧ s'.m_producerCTReceived = false) ∨
      (s.m_consumerVecIntReceived = true ∧ s'.m_consumerVecIntReceived = false)) :
    msg.id = .DisconnectProducer ∨ msg.id = .DisconnectConsumer := by
  obtain ⟨id, body⟩ := msg
  cases id <;>
    simp only [OnMessage, RecvClientPrivateKey, RecvClientPublicKey, RecvClientCT,
      RecvClientVecInt] at h
  all_goals
    first
    | exact Or.inl rfl
    | exact Or.inr rfl
    | (simp only [Except.ok.injEq, Prod.mk.injEq] at h
       obtain ⟨rfl, _⟩ := h
       rcases hf with ⟨h1, h2⟩ | ⟨h1, h2⟩ | ⟨h1, h2⟩ <;> simp [h1] at h2)
    | (split at h
       · simp only [Except.map, Except.ok.injEq, Prod.mk.injEq] at h
         obtain ⟨rfl, _⟩ := h
         rcases hf with ⟨h1, h2⟩ | ⟨h1, h2⟩ | ⟨h1, h2⟩ <;> simp [h1] at h2
       · simp [Except.map] at h)

/-- C28: in every state, `SendX` with a body that deserializes to `v` changes
exactly the members of slot `X`: the private key and its flag for
`SendPrivateKey`, the public key alone for `SendPublicKey`, the ciphertext and
its flag for `SendCT`, the result vector and its flag for `SendVecInt`; all other
slot values, all other flags and the server context are as before.  And whenever
the handling of any message turns one of the three ready flags from true to
false, that message is `DisconnectProducer` or `DisconnectConsumer`. -/
theorem store_touches_only_its_slot (E : HEEngine) (s : PreServer E) (client : Nat)
    (payload : Bytes) :
    (∀ v, E.deserializePrivateKey payload = some v →
      ∃ s' out, OnMessage E s client { id := .SendPrivateKey, body := payload } = .ok (s', out) ∧
        s'.m_producerPrivateKey = v ∧ s'.m_producerPrivateKeyReceived = true ∧
        s'.m_serverCC = s.m_serverCC ∧
        s'.m_producerCTReceived = s.m_producerCTReceived ∧ s'.m_producerCT = s.m_producerCT ∧
        s'.m_consumerPublicKey = s.m_consumerPublicKey ∧
        s'.m_consumerVecIntReceived = s.m_consumerVecIntReceived ∧
        s'.m_consumerVecInt = s.m_consumerVecInt) ∧
    (∀ v, E.deserializePublicKey payload = some v →
      ∃ s' out, OnMessage E s client { id := .SendPublicKey, body := payload } = .ok (s', out) ∧
        s'.m_consumerPublicKey = v ∧
        s'.m_serverCC = s.m_serverCC ∧
        s'.m_producerPrivateKeyReceived = s.m_producerPrivateKeyReceived ∧
        s'.m_producerPrivateKey = s.m_producerPrivateKey ∧
        s'.m_producerCTReceived = s.m_producerCTReceived ∧ s'.m_producerCT = s.m_producerCT ∧
        s'.m_consumerVecIntReceived = s.m_consumerVecIntReceived ∧
        s'.m_consumerVecInt = s.m_consumerVecInt) ∧
    (∀ v, E.deserializeCT payload = some v →
      ∃ s' out, OnMessage E s client { id := .SendCT, body := payload } = .ok (s', out) ∧
        s'.m_producerCT = v ∧ s'.m_producerCTReceived = true ∧
        s'.m_serverCC = s.m_serverCC ∧
        s'.m_producerPrivateKeyReceived = s.m_producerPrivateKeyReceived ∧
        s'.m_producerPrivateKey = s.m_producerPrivateKey ∧
        s'.m_consumerPublicKey = s.m_consumerPublicKey ∧
        s'.m_consumerVecIntReceived = s.m_consumerVecIntReceived ∧
        s'.m_consumerVecInt = s.m_consumerVecInt) ∧
    (∀ v, E.deserializeVecInt payload = some v →
      ∃ s' out, OnMessage E s client { id := .SendVecInt, body := payload } = .ok (s', out) ∧
        s'.m_consumerVecInt = v ∧ s'.m_consumerVecIntReceived = true ∧
        s'.m_serverCC = s.m_serverCC ∧
        s'.m_producerPrivateKeyReceived = s.m_producerPrivateKeyReceived ∧
        s'.m_producerPrivateKey = s.m_producerPrivateKey ∧
        s'.m_producerCTReceived = s.m_producerCTReceived ∧ s'.m_producerCT = s.m_producerCT ∧
        s'.m_consumerPublicKey = s.m_consumerPublicKey) ∧
    (∀ (msg : Message) (s' : PreServer E) (out : Outbox),
      OnMessage E s client msg = .ok (s', out) →
      (s.m_producerPrivateKeyReceived = true ∧ s'.m_producerPrivateKeyReceived = false) ∨
        (s.m_producerCTReceived = true ∧ s'.m_producerCTReceived = false) ∨
        (s.m_consumerVecIntReceived = true ∧ s'.m_consumerVecIntReceived = false) →
      msg.id = .DisconnectProducer ∨ msg.id = .DisconnectConsumer) := by
  refine ⟨fun v h => ?_, fun v h => ?_, fun v h => ?_, fun v h => ?_, ?_⟩
  · exact ⟨{ s with m_producerPrivateKey := v, m_producerPrivateKeyReceived := true },
      [(client, { id := .AckPrivateKey, body := [] })],
      by simp [OnMessage, RecvClientPrivateKey, Except.map, h],
      rfl, rfl, rfl, rfl, rfl, rfl, rfl, rfl⟩
  · exact ⟨{ s with m_consumerPublicKey := v },
      [(client, { id := .AckPublicKey, body := [] })],
      by simp [OnMessage, RecvClientPublicKey, Except.map, h],
      rfl, rfl, rfl, rfl, rfl, rfl, rfl, rfl⟩
  · exact ⟨{ s with m_producerCT := v, m_producerCTReceived := true },
      [(client, { id := .AckCT, body := [] })],
      by simp [OnMessage, RecvClientCT, Except.map, h],
      rfl, rfl, rfl, rfl, rfl, rfl, rfl, rfl⟩
  · exact ⟨{ s with m_consumerVecInt := v, m_consumerVecIntReceived := true },
      [(client, { id := .AckVecInt, body := [] })],
      by simp [OnMessage, RecvClientVecInt, Except.map, h],
      rfl, rfl, rfl, rfl, rfl, rfl, rfl, rfl⟩
  · intro msg s' out h hf
    exact flag_cleared_only_by_disconnect E s s' client msg out h hf

/-- Witness for C28: a toy relay with every flag set stores the ciphertext
`[5, -2]`, the other members staying as they are; and `DisconnectProducer`, which
turns two flags to false, is one of the two Disconnect messages. -/
theorem store_touches_only_its_slot_witness :
    demoEngine.deserializeCT [0, 5, 1, 2] = some [5, -2] ∧
    (∃ s' out, OnMessage demoEngine
        ({ (PreServer.new demoEngine) with
            m_producerPrivateKeyReceived := true, m_consumerVecIntReceived := true,
            m_consumerVecInt := [1] }) 1 { id := .SendCT, body := [0, 5, 1, 2] } = .ok (s', out) ∧
      s'.m_producerCT = ([5, -2] : List Int) ∧ s'.m_producerCTReceived = true ∧
      s'.m_producerPrivateKeyReceived = true ∧ s'.m_consumerVecIntReceived = true ∧
      s'.m_consumerVecInt = [1]) ∧
    (PreMsgTypes.DisconnectProducer = .DisconnectProducer ∨
      PreMsgTypes.DisconnectProducer = .DisconnectConsumer) := by
  obtain ⟨s', out, h, h1, h2, _, h4, _, _, h7, h8⟩ :=
    (store_touches_only_its_slot demoEngine
      ({ (PreServer.new demoEngine) with
          m_producerPrivateKeyReceived := true, m_consumerVecIntReceived := true,
          m_consumerVecInt := [1] }) 1 [0, 5, 1, 2]).2.2.1 ([5, -2] : List Int) rfl
  refine ⟨rfl, ⟨s', out, h, h1, h2, h4, h7, h8⟩, ?_⟩
  exact (store_touches_only_its_slot demoEngine
      ({ (PreServer.new demoEngine) with
          m_producerPrivateKeyReceived := true, m_producerCTReceived := true }) 1 []).2.2.2.2
    { id := .DisconnectProducer, body := [] }
    { (PreServer.new demoEngine) with
        m_producerPrivateKeyReceived := false, m_producerCTReceived := false }
    [] rfl (Or.inl ⟨rfl, rfl⟩)

/-! ## The action states, the honest run and the vector of `GenCT` -/

/-- C23 as stated fails: the toy producer that received a context with plaintext
modulus 5, generated its keys and received the acknowledgement of its private
key is in the action state `GenCT`; its pass is `std::exit(EXIT_FAILURE)`: no
message is sent and there is no next state. -/
theorem genCT_exits_without_sending :
    (run demoEngine scenarioRand (Producer.new demoEngine)
        ((scenarioSchedule 5 []).take 5)).map
      (fun σ => (σ.connected, σ.done, σ.state, σ.clientCCSet, σ.keyPairSet,
        demoEngine.GetPlaintextModulus σ.clientCC, σ.sent.map (fun m => m.id))) =
      .ok (true, false, .GenCT, true, true, 5, [.RequestCC, .SendPrivateKey]) ∧
    run demoEngine scenarioRand (Producer.new demoEngine) ((scenarioSchedule 5 []).take 5) =
      .ok { (Producer.new demoEngine) with
              sent := [{ id := .RequestCC, body := [] }, { id := .SendPrivateKey, body := [7] }]
              state := .GenCT, clientCC := (5 : Nat), keyPair := ((6 : Nat), (7 : Nat))
              clientCCSet := true, keyPairSet := true } ∧
    step demoEngine scenarioRand
        { (Producer.new demoEngine) with
            sent := [{ id := .RequestCC, body := [] }, { id := .SendPrivateKey, body := [7] }]
            state := .GenCT, clientCC := (5 : Nat), keyPair := ((6 : Nat), (7 : Nat))
            clientCCSet := true, keyPairSet := true } =
      .error .exitFailure ∧
    run demoEngine scenarioRand (Producer.new demoEngine) ((scenarioSchedule 5 []).take 6) =
      .error .exitFailure := by
  refine ⟨rfl, rfl, rfl, rfl⟩

/-- C23 (amended): the pass of the connected producer in an action state sends
exactly one message and sets the state to `GetMessage`, unless the state's guard
stops the process or the state uses a pointer that has not been assigned.
`RequestCC` sends one message with tag `RequestCC` and no body.  `GenKeys`, the
context being set, generates a key pair and, if the pair is good, stores it and
sends one `SendPrivateKey` whose body is the serialized secret key of that pair;
if the pair is not good it exits with failure.  `GenCT`, the context and the
key pair being set, when the value of the `unsigned int` variable
`plaintextModulus` (the context's plaintext modulus modulo `2^32`) exceeds 65536,
appends the drawn values to `vShorts`, packs, encrypts and sends one `SendCT`
whose body is the serialized ciphertext; when that value is below 65536 it exits
with failure.  `RequestVecInt` sends one message with tag `RequestVecInt` and no
body.  `GenKeys` and `GenCT` entered with a null context stop the process
without sending. -/
theorem action_states_send_one_message (E : HEEngine) (rand : Nat → Nat) (σ : Producer E)
    (hc : σ.connected = true) :
    (σ.state = .RequestCC →
      step E rand σ =
        .ok { σ with sent := σ.sent ++ [{ id := .RequestCC, body := [] }]
                     state := .GetMessage }) ∧
    (σ.state = .GenKeys →
      (σ.clientCCSet = true → E.keyPairGood (E.KeyGen σ.clientCC) = true →
        step E rand σ =
          .ok { σ with keyPair := E.KeyGen σ.clientCC
                       keyPairSet := true
                       sent := σ.sent ++ [{ id := .SendPrivateKey
                                            body := E.serializePrivateKey (E.KeyGen σ.clientCC).2 }]
                       state := .GetMessage }) ∧
      (σ.clientCCSet = true → E.keyPairGood (E.KeyGen σ.clientCC) = false →
        step E rand σ = .error .exitFailure) ∧
      (σ.clientCCSet = false → step E rand σ = .error .nullPointer)) ∧
    (σ.state = .GenCT →
      (σ.clientCCSet = true → σ.keyPairSet = true →
        65536 < E.GetPlaintextModulus σ.clientCC % 2 ^ 32 →
        ∃ σ', step E rand σ = .ok σ' ∧ σ'.state = .GetMessage ∧
          σ'.vShorts = σ.vShorts ++ (List.range (E.GetRingDimension σ.clientCC % 2 ^ 32)).map
            (fun i => ((rand (σ.randCalls + i) % 65536 : Nat) : Int)) ∧
          σ'.pt = E.MakePackedPlaintext σ.clientCC σ'.vShorts ∧
          σ'.ct = E.Encrypt σ.clientCC σ.keyPair.1 σ'.pt ∧
          σ'.sent = σ.sent ++ [{ id := .SendCT, body := E.serializeCT σ'.ct }] ∧
          σ'.incoming = σ.incoming ∧ σ'.done = σ.done ∧ σ'.good = σ.good ∧
          σ'.clientCC = σ.clientCC ∧ σ'.keyPair = σ.keyPair) ∧
      (σ.clientCCSet = true → E.GetPlaintextModulus σ.clientCC % 2 ^ 32 < 65536 →
        step E rand σ = .error .exitFailure) ∧
      (σ.clientCCSet = false → step E rand σ = .error .nullPointer)) ∧
    (σ.state = .RequestVecInt →
      step E rand σ =
        .ok { σ with sent := σ.sent ++ [{ id := .RequestVecInt, body := [] }]
                     state := .GetMessage }) := by
  refine ⟨fun hs => ?_, fun hs => ⟨fun hcc hk => ?_, fun hcc hk => ?_, fun hcc => ?_⟩,
    fun hs => ⟨fun hcc hkp hm => ?_, fun hcc hm => ?_, fun hcc => ?_⟩, fun hs => ?_⟩
  · simp [step, hc, hs, RequestCC]
  · simp [step, hc, hs, hcc, hk, SendPrivateKey]
  · simp [step, hc, hs, hcc, hk]
  · simp [step, hc, hs, hcc]
  · have hm' : ¬ E.GetPlaintextModulus σ.clientCC % 2 ^ 32 < 65536 := by omega
    have hstep : ∃ σ', step E rand σ = .ok σ' ∧ σ' =
        { σ with
            ringsize := E.GetRingDimension σ.clientCC % 2 ^ 32
            plaintextModulus := E.GetPlaintextModulus σ.clientCC % 2 ^ 32
            nShort := E.GetRingDimension σ.clientCC % 2 ^ 32
            randCalls := σ.randCalls + E.GetRingDimension σ.clientCC % 2 ^ 32
            vShorts := σ.vShorts ++ (List.range (E.GetRingDimension σ.clientCC % 2 ^ 32)).map
              (fun i => ((rand (σ.randCalls + i) % 65536 : Nat) : Int))
            pt := E.MakePackedPlaintext σ.clientCC
              (σ.vShorts ++ (List.range (E.GetRingDimension σ.clientCC % 2 ^ 32)).map
                (fun i => ((rand (σ.randCalls + i) % 65536 : Nat) : Int)))
            ptSet := true
            ct := E.Encrypt σ.clientCC σ.keyPair.1 (E.MakePackedPlaintext σ.clientCC
              (σ.vShorts ++ (List.range (E.GetRingDimension σ.clientCC % 2 ^ 32)).map
                (fun i => ((rand (σ.randCalls + i) % 65536 : Nat) : Int))))
            ctSet := true
            sent := σ.sent ++ [SendCT E (E.Encrypt σ.clientCC σ.keyPair.1
              (E.MakePackedPlaintext σ.clientCC
                (σ.vShorts ++ (List.range (E.GetRingDimension σ.clientCC % 2 ^ 32)).map
                  (fun i => ((rand (σ.randCalls + i) % 65536 : Nat) : Int)))))]
            state := .GetMessage } :=
      ⟨_, by simp only [step, hc, hs, hcc, hkp, Bool.not_true, Bool.false_eq_true, if_true,
        if_false, if_neg hm'], rfl⟩
    obtain ⟨σ', h1, h2⟩ := hstep
    subst h2
    exact ⟨_, h1, rfl, rfl, rfl, rfl, rfl, rfl, rfl, rfl, rfl, rfl⟩
  · simp only [step, hc, hs, hcc, Bool.not_true, Bool.false_eq_true, if_true, if_false,
      if_pos hm]
  · simp [step, hc, hs, hcc]
  · simp [step, hc, hs, RequestVecInt]

/-- Witness for C23 (amended): the four action passes of the scenario's toy
producer with modulus 65537, each sending its one message, tag and body
spelled out. -/
theorem action_states_send_one_message_witness :
    step demoEngine scenarioRand { (Producer.new demoEngine) with state := .RequestCC } =
      .ok { (Producer.new demoEngine) with sent := [{ id := .RequestCC, body := [] }] } ∧
    step demoEngine scenarioRand
        { (Producer.new demoEngine) with
            state := .GenKeys, clientCC := (65537 : Nat), clientCCSet := true } =
      .ok { (Producer.new demoEngine) with
              clientCC := (65537 : Nat), clientCCSet := true
              keyPair := ((65538 : Nat), (65539 : Nat)), keyPairSet := true
              sent := [{ id := .SendPrivateKey, body := [65539] }] } ∧
    (∃ σ', step demoEngine scenarioRand
        { (Producer.new demoEngine) with
            state := .GenCT, clientCC := (65537 : Nat), clientCCSet := true
            keyPair := ((65538 : Nat), (65539 : Nat)), keyPairSet := true } = .ok σ' ∧
      σ'.state = .GetMessage ∧ σ'.vShorts = [3, 7, 40001] ∧
      σ'.sent = [{ id := .SendCT, body := [0, 3, 0, 7, 0, 40001] }]) ∧
    step demoEngine scenarioRand { (Producer.new demoEngine) with state := .RequestVecInt } =
      .ok { (Producer.new demoEngine) with sent := [{ id := .RequestVecInt, body := [] }] } := by
  refine ⟨(action_states_send_one_message demoEngine scenarioRand
      { (Producer.new demoEngine) with state := .RequestCC } rfl).1 rfl,
    ((action_states_send_one_message demoEngine scenarioRand
      { (Producer.new demoEngine) with
          state := .GenKeys, clientCC := (65537 : Nat), clientCCSet := true } rfl).2.1
      rfl).1 rfl rfl, ?_,
    (action_states_send_one_message demoEngine scenarioRand
      { (Producer.new demoEngine) with state := .RequestVecInt } rfl).2.2.2 rfl⟩
  obtain ⟨σ', h, hs, hv, _, hct, hsent, _⟩ :=
    ((action_states_send_one_message demoEngine scenarioRand
      { (Producer.new demoEngine) with
          state := .GenCT, clientCC := (65537 : Nat), clientCCSet := true
          keyPair := ((65538 : Nat), (65539 : Nat)), keyPairSet := true } rfl).2.2.1
      rfl).1 rfl rfl (by decide)
  have hstep : step demoEngine scenarioRand
      { (Producer.new demoEngine) with
          state := .GenCT, clientCC := (65537 : Nat), clientCCSet := true
          keyPair := ((65538 : Nat), (65539 : Nat)), keyPairSet := true } =
      .ok { (Producer.new demoEngine) with
              clientCC := (65537 : Nat), clientCCSet := true
              keyPair := ((65538 : Nat), (65539 : Nat)), keyPairSet := true
              ringsize := 3, plaintextModulus := 65537, nShort := 3
              randCalls := 3, vShorts := [3, 7, 40001], pt := ([3, 7, 40001] : List Int)
              ptSet := true
              ct := ([3, 7, 40001] : List Int)
              ctSet := true
              sent := [{ id := .SendCT, body := [0, 3, 0, 7, 0, 40001] }] } := rfl
  rw [hstep] at h
  have e := Except.ok.inj h
  subst e
  exact ⟨_, hstep, rfl, rfl, rfl⟩

/-- C25 (the producer against the claim): the toy producer (ring dimension 3,
modulus 65537) makes its `GenCT` pass twice, because `AckPrivateKey` is delivered
twice.  The first pass packs and encrypts the three drawn values.  The second
pass passes the modulus check too and packs and encrypts a vector of six
elements: `vShorts` is declared outside the loop and only ever appended to. -/
theorem second_genCT_packs_longer_vector :
    (run demoEngine scenarioRand (Producer.new demoEngine)
        [[{ id := .ServerAccept, body := [] }], [],
         [{ id := .SendCC, body := [65537] }], [],
         [{ id := .AckPrivateKey, body := [] }], []]).map
      (fun σ => (demoEngine.GetRingDimension σ.clientCC, σ.vShorts,
        demoEngine.GetPackedValue σ.pt, σ.ct)) =
      .ok (3, [3, 7, 40001], [3, 7, 40001], [3, 7, 40001]) ∧
    (run demoEngine scenarioRand (Producer.new demoEngine)
        [[{ id := .ServerAccept, body := [] }], [],
         [{ id := .SendCC, body := [65537] }], [],
         [{ id := .AckPrivateKey, body := [] }], [],
         [{ id := .AckPrivateKey, body := [] }], []]).map
      (fun σ => (demoEngine.GetRingDimension σ.clientCC, σ.vShorts,
        demoEngine.GetPackedValue σ.pt, σ.ct, σ.sent.map (fun m => m.id))) =
      .ok (3, [3, 7, 40001, 0, 0, 0], [3, 7, 40001, 0, 0, 0], [3, 7, 40001, 0, 0, 0],
        [.RequestCC, .SendPrivateKey, .SendCT, .SendCT]) := by
  constructor <;> rfl

/-- Idle passes of the waiting producer are passes in `GetMessage`. -/
theorem statesVisited_idle (E : HEEngine) (rand : Nat → Nat) (σ : Producer E)
    (hd : σ.done = false) (hs : σ.state = .GetMessage) (hq : σ.incoming = [])
    (rest : List (List Message)) :
    ∀ idle : Nat, statesVisited E rand σ (List.replicate idle [] ++ rest) =
      List.replicate idle .GetMessage ++ statesVisited E rand σ rest
  | 0 => by simp
  | idle + 1 => by
    rw [List.replicate_succ, List.cons_append, statesVisited]
    simp only [hd, step_idle E rand σ hs hq, hs, Bool.false_eq_true, if_false]
    rw [statesVisited_idle E rand σ hd hs hq rest idle, List.replicate_succ, List.cons_append]

/-- One reply of the relay to the waiting producer: idle polls, the pass that
pops the reply, and the pass of the state it led to. -/
theorem run_reply_round (E : HEEngine) (rand : Nat → Nat) (σ σ1 σ2 : Producer E)
    (msg : Message) (idle : Nat) (rest : List (List Message))
    (hd : σ.done = false) (hs : σ.state = .GetMessage) (hq : σ.incoming = [])
    (h1 : step E rand (σ.deliver [msg]) = .ok σ1) (hd1 : σ1.done = false)
    (h2 : step E rand (σ1.deliver []) = .ok σ2) :
    run E rand σ (List.replicate idle [] ++ [msg] :: [] :: rest) = run E rand σ2 rest ∧
    statesVisited E rand σ (List.replicate idle [] ++ [msg] :: [] :: rest) =
      List.replicate idle .GetMessage ++
        .GetMessage :: σ1.state :: statesVisited E rand σ2 rest := by
  constructor
  · rw [run_idle E rand σ hd hs hq _ idle, run_cons E rand σ σ1 [msg] _ hd h1,
      run_cons E rand σ1 σ2 [] _ hd1 h2]
  · rw [statesVisited_idle E rand σ hd hs hq _ idle]
    simp [statesVisited, hd, hs, h1, hd1, h2]

/-- Dropping the waiting state from a list of visited states. -/
theorem filter_waiting (n : Nat) (l : List ProducerStates) :
    (List.replicate n ProducerStates.GetMessage ++ l).filter (fun st => st ≠ .GetMessage) =
      l.filter (fun st => st ≠ .GetMessage) := by
  induction n with
  | zero => simp
  | succ n ih => simp [List.replicate_succ]

/-- C24: the producer starts in its initial configuration and the relay delivers,
each while the producer is waiting and after any number of empty polls,
`ServerAccept`, a `SendCC` carrying the context `cc`, `AckPrivateKey`, `AckCT`
and a `SendVecInt` carrying the vector `vi`.  Key generation yields a good pair,
the plaintext modulus exceeds 65536 (and fits the 32-bit variable), and the
indices the `Verify` loops visit are present.  Then the run completes with
`done` set; the states other than `GetMessage` in which passes were made are
`RequestCC`, `GenKeys`, `GenCT`, `RequestVecInt`, `Verify`, in that order; the
messages sent are exactly `RequestCC`, `SendPrivateKey`, `SendCT`,
`RequestVecInt`, `DisconnectProducer`, in that order; and up to and including
the pass that pops `ServerAccept` nothing has been sent. -/
theorem honest_producer_run (E : HEEngine) (rand : Nat → Nat) (cc : E.CC) (vi : List Int)
    (ccBody viBody b1 b3 b4 : Bytes) (i1 i2 i3 i4 i5 : Nat)
    (hcc : E.deserializeCC ccBody = some cc) (hvi : E.deserializeVecInt viBody = some vi)
    (hkey : E.keyPairGood (E.KeyGen cc) = true)
    (hmod : 65536 < E.GetPlaintextModulus cc) (hfit : E.GetPlaintextModulus cc < 2 ^ 32)
    (h1 : E.GetLength (honestBeforeVerify E rand cc vi).pt ≤
      (unpackedEncryptedProducer E (honestBeforeVerify E rand cc vi)).length)
    (h2 : E.GetLength (honestBeforeVerify E rand cc vi).pt < 2 ^ 32)
    (h3 : vi.length ≤ (unpackedOriginalProducer E (honestBeforeVerify E rand cc vi)).length)
    (h4 : vi.length ≤ (unpackedEncryptedProducer E (honestBeforeVerify E rand cc vi)).length)
    (h5 : vi.length < 2 ^ 32) :
    ∃ final,
      run E rand (Producer.new E)
        (replySchedule [(i1, { id := .ServerAccept, body := b1 }),
          (i2, { id := .SendCC, body := ccBody }), (i3, { id := .AckPrivateKey, body := b3 }),
          (i4, { id := .AckCT, body := b4 }), (i5, { id := .SendVecInt, body := viBody })]) =
        .ok final ∧
      final.done = true ∧
      final.sent = [RequestCC, SendPrivateKey E (E.KeyGen cc),
        SendCT E (honestBeforeVerify E rand cc vi).ct, RequestVecInt, DisconnectProducer] ∧
      (statesVisited E rand (Producer.new E)
        (replySchedule [(i1, { id := .ServerAccept, body := b1 }),
          (i2, { id := .SendCC, body := ccBody }), (i3, { id := .AckPrivateKey, body := b3 }),
          (i4, { id := .AckCT, body := b4 }),
          (i5, { id := .SendVecInt, body := viBody })])).filter
        (fun st => st ≠ .GetMessage) =
        [.RequestCC, .GenKeys, .GenCT, .RequestVecInt, .Verify] ∧
      run E rand (Producer.new E)
          (List.replicate i1 [] ++ [[{ id := .ServerAccept, body := b1 }]]) =
        .ok { (Producer.new E) with state := .RequestCC } := by
  have hm : ¬ E.GetPlaintextModulus cc % 2 ^ 32 < 65536 := by
    rw [Nat.mod_eq_of_lt hfit]
    omega
  obtain ⟨g, hg, _⟩ := step_Verify_ok E rand (honestBeforeVerify E rand cc vi) rfl rfl
    rfl rfl rfl rfl h1 h2 h3 h4 h5
  -- the five rounds
  have r1 := run_reply_round E rand (Producer.new E)
    { (Producer.new E) with state := .RequestCC }
    { (Producer.new E) with sent := [RequestCC] }
    { id := .ServerAccept, body := b1 } i1
    (replySchedule [(i2, { id := .SendCC, body := ccBody }),
      (i3, { id := .AckPrivateKey, body := b3 }), (i4, { id := .AckCT, body := b4 }),
      (i5, { id := .SendVecInt, body := viBody })])
    rfl rfl rfl (by simp [step, Producer.deliver, Producer.new, onReply]) rfl
    (by simp [step, Producer.deliver, Producer.new])
  have r2 := run_reply_round E rand
    { (Producer.new E) with sent := [RequestCC] }
    { (Producer.new E) with
        sent := [RequestCC], clientCC := cc, clientCCSet := true, state := .GenKeys }
    { (Producer.new E) with
        sent := [RequestCC, SendPrivateKey E (E.KeyGen cc)]
        clientCC := cc
        clientCCSet := true
        keyPair := E.KeyGen cc
        keyPairSet := true }
    { id := .SendCC, body := ccBody } i2
    (replySchedule [(i3, { id := .AckPrivateKey, body := b3 }),
      (i4, { id := .AckCT, body := b4 }), (i5, { id := .SendVecInt, body := viBody })])
    rfl rfl rfl
    (by simp [step, Producer.deliver, Producer.new, onReply, RecvCC, hcc, Except.map]) rfl
    (by simp [step, Producer.deliver, Producer.new, hkey])
  have r3 := run_reply_round E rand
    { (Producer.new E) with
        sent := [RequestCC, SendPrivateKey E (E.KeyGen cc)]
        clientCC := cc
        clientCCSet := true
        keyPair := E.KeyGen cc
        keyPairSet := true }
    { (Producer.new E) with
        sent := [RequestCC, SendPrivateKey E (E.KeyGen cc)]
        clientCC := cc
        clientCCSet := true
        keyPair := E.KeyGen cc
        keyPairSet := true
        state := .GenCT }
    { (honestBeforeVerify E rand cc vi) with
        sent := [RequestCC, SendPrivateKey E (E.KeyGen cc),
          SendCT E (honestBeforeVerify E rand cc vi).ct]
        state := .GetMessage
        unpackedConsumer := [] }
    { id := .AckPrivateKey, body := b3 } i3
    (replySchedule [(i4, { id := .AckCT, body := b4 }),
      (i5, { id := .SendVecInt, body := viBody })])
    rfl rfl rfl (by simp [step, Producer.deliver, Producer.new, onReply]) rfl
    (by
      have hm3 : 65536 ≤ E.GetPlaintextModulus cc % 4294967296 := by simpa using hm
      simp [step, Producer.deliver, Producer.new, honestBeforeVerify, hm3])
  have r4 := run_reply_round E rand
    { (honestBeforeVerify E rand cc vi) with
        sent := [RequestCC, SendPrivateKey E (E.KeyGen cc),
          SendCT E (honestBeforeVerify E rand cc vi).ct]
        state := .GetMessage
        unpackedConsumer := [] }
    { (honestBeforeVerify E rand cc vi) with
        sent := [RequestCC, SendPrivateKey E (E.KeyGen cc),
          SendCT E (honestBeforeVerify E rand cc vi).ct]
        state := .RequestVecInt
        unpackedConsumer := [] }
    { (honestBeforeVerify E rand cc vi) with
        state := .GetMessage
        unpackedConsumer := [] }
    { id := .AckCT, body := b4 } i4
    (replySchedule [(i5, { id := .SendVecInt, body := viBody })])
    rfl rfl rfl (by simp [step, Producer.deliver, honestBeforeVerify, Producer.new, onReply]) rfl
    (by simp [step, Producer.deliver, honestBeforeVerify, Producer.new])
  have r5 := run_reply_round E rand
    { (honestBeforeVerify E rand cc vi) with
        state := .GetMessage
        unpackedConsumer := [] }
    (honestBeforeVerify E rand cc vi)
    { (honestBeforeVerify E rand cc vi) with
        good := g
        sent := (honestBeforeVerify E rand cc vi).sent ++ [DisconnectProducer]
        done := true }
    { id := .SendVecInt, body := viBody } i5 (replySchedule [])
    rfl rfl rfl
    (by simp [step, Producer.deliver, honestBeforeVerify, Producer.new, onReply, RecvVecInt,
      hvi, Except.map]) rfl
    (by
      have e : (honestBeforeVerify E rand cc vi).deliver [] = honestBeforeVerify E rand cc vi := by
        simp [Producer.deliver, honestBeforeVerify, Producer.new]
      rw [e]
      exact hg)
  refine ⟨{ (honestBeforeVerify E rand cc vi) with
      good := g
      sent := (honestBeforeVerify E rand cc vi).sent ++ [DisconnectProducer]
      done := true }, ?_, rfl, rfl, ?_, ?_⟩
  · simp only [replySchedule] at r1 r2 r3 r4 r5 ⊢
    rw [r1.1, r2.1, r3.1, r4.1, r5.1]
    rfl
  · simp only [replySchedule] at r1 r2 r3 r4 r5 ⊢
    rw [r1.2, r2.2, r3.2, r4.2, r5.2]
    simp only [filter_waiting, statesVisited]
    have hv : (honestBeforeVerify E rand cc vi).state = .Verify := rfl
    simp [List.filter, hv]
  · have hd0 : (Producer.new E).done = false := rfl
    rw [run_idle E rand (Producer.new E) hd0 rfl rfl _ i1]
    simp [run, step, Producer.deliver, Producer.new, onReply]

/-- Witness for C24: the toy producer, context with modulus 65537, consumer vector
`[3, 7, 40001]`, one empty poll before `SendCC` and two before `AckCT`. -/
theorem honest_producer_run_witness :
    ∃ final,
      run demoEngine scenarioRand (Producer.new demoEngine)
        (replySchedule [(0, { id := .ServerAccept, body := [] }),
          (1, { id := .SendCC, body := [65537] }), (0, { id := .AckPrivateKey, body := [] }),
          (2, { id := .AckCT, body := [] }),
          (0, { id := .SendVecInt, body := [0, 3, 0, 7, 0, 40001] })]) = .ok final ∧
      final.done = true ∧
      final.sent.map (fun m => m.id) =
        [.RequestCC, .SendPrivateKey, .SendCT, .RequestVecInt, .DisconnectProducer] ∧
      (statesVisited demoEngine scenarioRand (Producer.new demoEngine)
        (replySchedule [(0, { id := .ServerAccept, body := [] }),
          (1, { id := .SendCC, body := [65537] }), (0, { id := .AckPrivateKey, body := [] }),
          (2, { id := .AckCT, body := [] }),
          (0, { id := .SendVecInt, body := [0, 3, 0, 7, 0, 40001] })])).filter
        (fun st => st ≠ .GetMessage) =
        [.RequestCC, .GenKeys, .GenCT, .RequestVecInt, .Verify] := by
  obtain ⟨final, hrun, hdone, hsent, hstates, _⟩ :=
    honest_producer_run demoEngine scenarioRand (65537 : Nat) [3, 7, 40001]
      [65537] [0, 3, 0, 7, 0, 40001] [] [] [] 0 1 0 2 0 rfl rfl rfl
      (by decide) (by decide) (by decide) (by decide) (by decide) (by decide) (by decide)
  exact ⟨final, hrun, hdone, by rw [hsent]; rfl, hstates⟩

/-- The negative-wrap loop never reads past the end of a vector that has at
least as many elements as the loop bound. -/
theorem wrapCorrect_in_bounds (p : Int) (n : Nat) (v : List Int) (hn : n ≤ v.length) :
    wrapCorrect p n v ≠ .error .outOfBounds := by
  by_cases h32 : n < 2 ^ 32
  · rw [wrapCorrect_ok p n v hn h32]
    exact fun h => Except.noConfusion h
  · have h := wrapLoop_append p (2 ^ 32) [] v (by omega)
    simp only [List.length_nil, List.nil_append] at h
    unfold wrapCorrect
    rw [if_neg h32, h]
    exact fun h => Except.noConfusion h (fun h' => Halt.noConfusion h')

/-- The comparison loop never reads past the end of vectors that have at least
as many elements as the iterations left. -/
theorem compareAll_in_bounds (orig enc cons : List Int) (good : Bool)
    (ho : cons.length ≤ orig.length) (he : cons.length ≤ enc.length) :
    compareAll orig enc cons good ≠ .error .outOfBounds := by
  by_cases h32 : cons.length < 2 ^ 32
  · obtain ⟨g, hg, _⟩ := compareAll_ok orig enc cons good ho he h32
    rw [hg]
    exact fun h => Except.noConfusion h
  · obtain ⟨g, hg, _⟩ := compareLoop_ok orig enc cons (2 ^ 32) 0 good
      (by omega) (by omega) (by omega)
    unfold compareAll
    rw [if_neg h32, hg]
    exact fun h => Except.noConfusion h (fun h' => Halt.noConfusion h')

/-- C29: the connected producer makes its `Verify` pass; the library keeps its
length contract (the packed value of a plaintext has the plaintext's length, and
`SetLength` sets it), and the consumer's vector is no longer than the original.
Then no index read by the correction loop or by the comparison loop is out of
bounds.  And the pass completes (the lengths being below `2^32`, and the
context, key pair, ciphertext and plaintext having been assigned) with `good`
false afterwards exactly when it was false before or some index `j` below the
length of the consumer's vector has `original[j] ≠ corrected[j]` or
`original[j] ≠ consumer[j]`, where `corrected` is the self-decrypted vector
after the negative-wrap correction; indices from the length of the consumer's
vector on are not compared.  With one of the four pointers still null the
process is stopped before either loop runs. -/
theorem verify_compares_consumer_indices (E : HEEngine) (rand : Nat → Nat) (σ : Producer E)
    (hc : σ.connected = true) (hs : σ.state = .Verify)
    (hlen : ∀ p, (E.GetPackedValue p).length = E.GetLength p)
    (hset : ∀ p n, E.GetLength (E.SetLength p n) = n)
    (hcons : σ.unpackedConsumer.length ≤ (unpackedOriginalProducer E σ).length) :
    step E rand σ ≠ .error .outOfBounds ∧
    (E.GetLength σ.pt < 2 ^ 32 →
      σ.clientCCSet = true → σ.keyPairSet = true → σ.ctSet = true → σ.ptSet = true →
      ∃ g, step E rand σ =
          .ok { σ with good := g, sent := σ.sent ++ [DisconnectProducer], done := true } ∧
        (g = false ↔ σ.good = false ∨ ∃ j, j < σ.unpackedConsumer.length ∧
          ((unpackedOriginalProducer E σ)[j]? ≠
              ((unpackedEncryptedProducer E σ).map (wrapValue σ.plaintextModulus))[j]? ∨
            (unpackedOriginalProducer E σ)[j]? ≠ σ.unpackedConsumer[j]?))) ∧
    ((σ.clientCCSet = false ∨ σ.keyPairSet = false ∨ σ.ctSet = false ∨ σ.ptSet = false) →
      step E rand σ = .error .nullPointer) := by
  have ho : (unpackedOriginalProducer E σ).length = E.GetLength σ.pt := hlen _
  have he : (unpackedEncryptedProducer E σ).length = E.GetLength σ.pt := by
    unfold unpackedEncryptedProducer
    rw [hlen, hset]
  have hnull : (σ.clientCCSet = false ∨ σ.keyPairSet = false ∨ σ.ctSet = false ∨
      σ.ptSet = false) → step E rand σ = .error .nullPointer := by
    intro h
    simp only [step, hc, hs, if_true]
    rcases h with h | h | h | h <;> simp [h]
  refine ⟨?_, ?_, hnull⟩
  · -- no access out of bounds
    by_cases hp : σ.clientCCSet = false ∨ σ.keyPairSet = false ∨ σ.ctSet = false ∨
        σ.ptSet = false
    · rw [hnull hp]
      exact fun h => Except.noConfusion h (fun h' => Halt.noConfusion h')
    have hp' : (σ.clientCCSet && σ.keyPairSet && σ.ctSet && σ.ptSet) = true := by
      revert hp
      cases σ.clientCCSet <;> cases σ.keyPairSet <;> cases σ.ctSet <;> cases σ.ptSet <;>
        simp
    have hw := wrapCorrect_in_bounds σ.plaintextModulus (E.GetLength σ.pt)
      (unpackedEncryptedProducer E σ) (by omega)
    unfold unpackedEncryptedProducer at hw
    simp only [step, hc, hs, if_true, hp', Bool.not_true, Bool.false_eq_true, if_false]
    cases hwc : wrapCorrect σ.plaintextModulus (E.GetLength σ.pt)
        (E.GetPackedValue (E.SetLength (E.Decrypt σ.clientCC σ.keyPair.2 σ.ct)
          (E.GetLength σ.pt))) with
    | error e =>
      simp only
      intro h
      rw [hwc] at hw
      exact hw (congrArg Except.error (Except.error.inj h))
    | ok corrected =>
      simp only
      have hcl : corrected.length = E.GetLength σ.pt := by
        by_cases h32 : E.GetLength σ.pt < 2 ^ 32
        · have e := wrapCorrect_ok σ.plaintextModulus (E.GetLength σ.pt)
            (unpackedEncryptedProducer E σ) (by omega) h32
          unfold unpackedEncryptedProducer at e
          rw [e] at hwc
          have e2 := Except.ok.inj hwc
          rw [← e2]
          simp only [List.length_append, List.length_map, List.length_take, List.length_drop]
          have := he
          unfold unpackedEncryptedProducer at this
          omega
        · unfold wrapCorrect at hwc
          rw [if_neg h32] at hwc
          split at hwc <;> exact Except.noConfusion hwc
      have hcmp := compareAll_in_bounds (unpackedOriginalProducer E σ) corrected
        σ.unpackedConsumer σ.good hcons (by omega)
      unfold unpackedOriginalProducer at hcmp
      cases hca : compareAll (E.GetPackedValue σ.pt) corrected σ.unpackedConsumer σ.good with
      | error e =>
        simp only
        intro h
        rw [hca] at hcmp
        exact hcmp (congrArg Except.error (Except.error.inj h))
      | ok g =>
        simp only
        exact fun h => Except.noConfusion h
  · intro h32 hcc hkp hct hpt
    obtain ⟨g, hg, hiff⟩ := step_Verify_ok E rand σ hc hs hcc hkp hct hpt (by omega) h32
      hcons (by omega) (by omega)
    refine ⟨g, hg, ?_⟩
    have ht : List.take (E.GetLength σ.pt) (unpackedEncryptedProducer E σ) =
        unpackedEncryptedProducer E σ := List.take_of_length_le (by omega)
    have hd : List.drop (E.GetLength σ.pt) (unpackedEncryptedProducer E σ) = [] :=
      List.drop_of_length_le (by omega)
    rw [ht, hd, List.append_nil] at hiff
    constructor
    · intro hgf
      by_contra hcon
      push_neg at hcon
      have : g = true := hiff.2 ⟨by simpa using hcon.1, fun i hi => hcon.2 i hi⟩
      rw [hgf] at this
      exact absurd this (by decide)
    · intro h
      cases hgv : g
      · rfl
      · exfalso
        obtain ⟨hgood, hall⟩ := hiff.1 hgv
        rcases h with h | ⟨j, hj, hne⟩
        · rw [hgood] at h
          exact absurd h (by decide)
        · rcases hne with hne | hne
          · exact hne (hall j hj).1
          · exact hne (hall j hj).2

/-- Witness for C29: the scenario's toy producer when the consumer returned the
shorter vector `[3, 8]`: nothing is read out of bounds, the pass completes and
`good` is false because index 1 differs. -/
theorem verify_compares_consumer_indices_witness :
    step demoEngine scenarioRand (scenarioBeforeVerify [3, 8]) ≠ .error .outOfBounds ∧
    ∃ g, step demoEngine scenarioRand (scenarioBeforeVerify [3, 8]) =
        .ok { scenarioBeforeVerify [3, 8] with
                good := g
                sent := (scenarioBeforeVerify [3, 8]).sent ++ [DisconnectProducer]
                done := true } ∧
      g = false := by
  have hlen : ∀ p, (demoEngine.GetPackedValue p).length = demoEngine.GetLength p :=
    fun p => rfl
  have hset : ∀ p n, demoEngine.GetLength (demoEngine.SetLength p n) = n := by
    intro p n
    show (List.take n p ++ List.replicate (n - List.length p) 0).length = n
    simp only [List.length_append, List.length_take, List.length_replicate]
    omega
  have h := verify_compares_consumer_indices demoEngine scenarioRand
    (scenarioBeforeVerify [3, 8]) rfl rfl hlen hset (by decide)
  obtain ⟨g, hg, hiff⟩ := h.2.1 (by decide) rfl rfl rfl rfl
  exact ⟨h.1, g, hg, hiff.2 (Or.inr ⟨1, by decide, Or.inr (by decide)⟩)⟩

end PreNet

/-! # Theorems about the Threshold clients -/

namespace ThreshNet

/-- C18 as stated fails: Bob's `SendCTPartialAdd` sends its share under the tag
`SendDecryptPartialMainAdd`, not under a lead tag, and no call of Bob's client
with that share sends `SendDecryptPartialLeadAdd`; it is Alice's
`SendCTPartialAdd` that sends `SendDecryptPartialLeadAdd`, and what Alice
requests is `RequestDecryptMainAdd`, the main share, not the lead. -/
theorem bob_sends_main_not_lead :
    ClientB.sends demoThreshEngine (.SendCTPartialAdd (5 : Nat)) =
      [{ id := .SendDecryptPartialMainAdd, body := [5] }] ∧
    ThreshMsgTypes.SendDecryptPartialMainAdd ∉ leadSendTags ∧
    ClientA.sends demoThreshEngine (.SendCTPartialAdd (5 : Nat)) =
      [{ id := .SendDecryptPartialLeadAdd, body := [5] }] ∧
    ThreshMsgTypes.SendDecryptPartialLeadAdd ∉ mainSendTags ∧
    ClientA.sends demoThreshEngine .RequestDecryptMainAdd =
      [{ id := .RequestDecryptMainAdd, body := [] }] ∧
    ThreshMsgTypes.RequestDecryptMainAdd ∉ leadRequestTags := by
  refine ⟨rfl, by decide, rfl, by decide, rfl, by decide⟩

/-- C18 (amended): for each operation in Add, Mult, Sum, Alice's client sends the
lead share (one message, tag `SendDecryptPartialLead<op>`, carrying the
serialized ciphertext) and requests the main share (`RequestDecryptMain<op>`);
Bob's client sends the main share (tag `SendDecryptPartialMain<op>`) and
requests the lead share (`RequestDecryptLead<op>`).  No call of Alice's client
sends a main-share or lead-request tag, and no call of Bob's client sends a
lead-share or main-request tag. -/
theorem alice_sends_lead_bob_sends_main (E : ThreshEngine) (ct : E.CT) :
    (ClientA.sends E (.SendCTPartialAdd ct) =
        [{ id := .SendDecryptPartialLeadAdd, body := E.serializeCT ct }] ∧
      ClientA.sends E (.SendCTPartialMult ct) =
        [{ id := .SendDecryptPartialLeadMult, body := E.serializeCT ct }] ∧
      ClientA.sends E (.SendCTPartialSum ct) =
        [{ id := .SendDecryptPartialLeadSum, body := E.serializeCT ct }]) ∧
    (ClientA.sends E .RequestDecryptMainAdd = [{ id := .RequestDecryptMainAdd, body := [] }] ∧
      ClientA.sends E .RequestDecryptMainMult = [{ id := .RequestDecryptMainMult, body := [] }] ∧
      ClientA.sends E .RequestDecryptMainSum = [{ id := .RequestDecryptMainSum, body := [] }]) ∧
    (ClientB.sends E (.SendCTPartialAdd ct) =
        [{ id := .SendDecryptPartialMainAdd, body := E.serializeCT ct }] ∧
      ClientB.sends E (.SendCTPartialMult ct) =
        [{ id := .SendDecryptPartialMainMult, body := E.serializeCT ct }] ∧
      ClientB.sends E (.SendCTPartialSum ct) =
        [{ id := .SendDecryptPartialMainSum, body := E.serializeCT ct }]) ∧
    (ClientB.sends E .RequestDecryptLeadAdd = [{ id := .RequestDecryptLeadAdd, body := [] }] ∧
      ClientB.sends E .RequestDecryptLeadMult = [{ id := .RequestDecryptLeadMult, body := [] }] ∧
      ClientB.sends E .RequestDecryptLeadSum = [{ id := .RequestDecryptLeadSum, body := [] }]) ∧
    (∀ c : ClientA.Call E,
      (ClientA.tags E c).all (fun t => !(mainSendTags ++ leadRequestTags).contains t) = true) ∧
    (∀ c : ClientB.Call E,
      (ClientB.tags E c).all (fun t => !(leadSendTags ++ mainRequestTags).contains t) = true) := by
  refine ⟨⟨rfl, rfl, rfl⟩, ⟨rfl, rfl, rfl⟩, ⟨rfl, rfl, rfl⟩, ⟨rfl, rfl, rfl⟩, ?_, ?_⟩
  · intro c
    cases c <;> rfl
  · intro c
    cases c <;> rfl

/-- C19: Alice's client sends the three round-1 artifacts and the round-3 final
key, and requests the four round-2 artifacts; Bob's client sends the four
round-2 artifacts, and requests the three round-1 artifacts and the round-3
final key.  Each of these calls hands exactly one message to `Send`, with the
tag of that artifact and direction (a request has an empty body, a send carries
the serialized artifact).  And these are all: every round-material tag a call
of Alice's client sends is one of her four send tags or four request tags, and
likewise for Bob. -/
theorem round_ownership (E : ThreshEngine) (kp : E.PublicKey × E.PrivateKey)
    (k : E.EvalKey) (ks : E.EvalSumKeys) :
    (ClientA.sends E (.SendRnd1PubKey kp) =
        [{ id := .SendRnd1PubKey, body := E.serializePublicKey kp.1 }] ∧
      ClientA.sends E (.SendRnd1evalMultKey k) =
        [{ id := .SendRnd1evalMultKey, body := E.serializeEvalKey k }] ∧
      ClientA.sends E (.SendRnd1evalSumKeys ks) =
        [{ id := .SendRnd1evalSumKeys, body := E.serializeEvalSumKeys ks }] ∧
      ClientA.sends E (.SendRnd3EvalMultFinal k) =
        [{ id := .SendRnd3EvalMultFinal, body := E.serializeEvalKey k }]) ∧
    (ClientA.sends E .RequestRnd2SharedKey = [{ id := .RequestRnd2SharedKey, body := [] }] ∧
      ClientA.sends E .RequestRnd2evalMultAB = [{ id := .RequestRnd2EvalMultAB, body := [] }] ∧
      ClientA.sends E .RequestRnd2evalMultBAB = [{ id := .RequestRnd2EvalMultBAB, body := [] }] ∧
      ClientA.sends E .RequestRnd2evalSumKeysJoin =
        [{ id := .RequestRnd2EvalSumKeysJoin, body := [] }]) ∧
    (ClientB.sends E (.SendRnd2SharedKey kp) =
        [{ id := .SendRnd2SharedKey, body := E.serializePublicKey kp.1 }] ∧
      ClientB.sends E (.SendRnd2EvalMultAB k) =
        [{ id := .SendRnd2EvalMultAB, body := E.serializeEvalKey k }] ∧
      ClientB.sends E (.SendRnd2EvalMultBAB k) =
        [{ id := .SendRnd2EvalMultBAB, body := E.serializeEvalKey k }] ∧
      ClientB.sends E (.SendRnd2EvalSumKeysJoin ks) =
        [{ id := .SendRnd2EvalSumKeysJoin, body := E.serializeEvalSumKeys ks }]) ∧
    (ClientB.sends E .RequestRnd1PubKey = [{ id := .RequestRnd1PubKey, body := [] }] ∧
      ClientB.sends E .RequestRnd1evalMultKey = [{ id := .RequestRnd1evalMultKey, body := [] }] ∧
      ClientB.sends E .RequestRnd1evalSumKeys = [{ id := .RequestRnd1evalSumKeys, body := [] }] ∧
      ClientB.sends E .RequestRnd3evalMultFinal =
        [{ id := .RequestRnd3EvalMultFinal, body := [] }]) ∧
    (∀ c : ClientA.Call E, (ClientA.tags E c).all (fun t =>
      (roundOfSend t == none ||
        [ThreshMsgTypes.SendRnd1PubKey, .SendRnd1evalMultKey, .SendRnd1evalSumKeys,
          .SendRnd3EvalMultFinal].contains t) &&
      (roundOfRequest t == none ||
        [ThreshMsgTypes.RequestRnd2SharedKey, .RequestRnd2EvalMultAB, .RequestRnd2EvalMultBAB,
          .RequestRnd2EvalSumKeysJoin].contains t)) = true) ∧
    (∀ c : ClientB.Call E, (ClientB.tags E c).all (fun t =>
      (roundOfSend t == none ||
        [ThreshMsgTypes.SendRnd2SharedKey, .SendRnd2EvalMultAB, .SendRnd2EvalMultBAB,
          .SendRnd2EvalSumKeysJoin].contains t) &&
      (roundOfRequest t == none ||
        [ThreshMsgTypes.RequestRnd1PubKey, .RequestRnd1evalMultKey, .RequestRnd1evalSumKeys,
          .RequestRnd3EvalMultFinal].contains t)) = true) ∧
    ([ThreshMsgTypes.SendRnd1PubKey, .SendRnd1evalMultKey, .SendRnd1evalSumKeys].map roundOfSend =
        [some 1, some 1, some 1] ∧
      roundOfSend .SendRnd3EvalMultFinal = some 3 ∧
      [ThreshMsgTypes.SendRnd2SharedKey, .SendRnd2EvalMultAB, .SendRnd2EvalMultBAB,
        .SendRnd2EvalSumKeysJoin].map roundOfSend = [some 2, some 2, some 2, some 2] ∧
      [ThreshMsgTypes.RequestRnd1PubKey, .RequestRnd1evalMultKey,
        .RequestRnd1evalSumKeys].map roundOfRequest = [some 1, some 1, some 1] ∧
      roundOfRequest .RequestRnd3EvalMultFinal = some 3 ∧
      [ThreshMsgTypes.RequestRnd2SharedKey, .RequestRnd2EvalMultAB, .RequestRnd2EvalMultBAB,
        .RequestRnd2EvalSumKeysJoin].map roundOfRequest = [some 2, some 2, some 2, some 2]) := by
  refine ⟨⟨rfl, rfl, rfl, rfl⟩, ⟨rfl, rfl, rfl, rfl⟩, ⟨rfl, rfl, rfl, rfl⟩,
    ⟨rfl, rfl, rfl, rfl⟩, ?_, ?_, ⟨rfl, rfl, rfl, rfl, rfl, rfl⟩⟩
  · intro c
    cases c <;> rfl
  · intro c
    cases c <;> rfl

/-- C20 as stated fails: the tag enumeration has the enumerator
`DisconnectClient`, and both Alice's and Bob's client have the method
`DisconnectClient`, inherited from the common client, which sends a message with
that tag. -/
theorem thresh_has_disconnect :
    isDisconnectTag .DisconnectClient = true ∧
    ClientA.sends demoThreshEngine .DisconnectClient =
      [{ id := .DisconnectClient, body := [] }] ∧
    ClientB.sends demoThreshEngine .DisconnectClient =
      [{ id := .DisconnectClient, body := [] }] :=
  ⟨rfl, rfl, rfl⟩

/-- C20 (amended): the Threshold vocabulary has exactly one disconnect tag,
`DisconnectClient`, shared by both roles; Alice's and Bob's client each have one
call that sends it, `DisconnectClient`, which hands `Send` exactly one message
with that tag and an empty body, and no other call of either client sends a
disconnect tag. -/
theorem thresh_single_disconnect (E : ThreshEngine) :
    (∀ t, isDisconnectTag t = true ↔ t = .DisconnectClient) ∧
    ClientA.sends E .DisconnectClient = [{ id := .DisconnectClient, body := [] }] ∧
    ClientB.sends E .DisconnectClient = [{ id := .DisconnectClient, body := [] }] ∧
    (∀ c : ClientA.Call E, (ClientA.tags E c).any isDisconnectTag = true ↔
      c = .DisconnectClient) ∧
    (∀ c : ClientB.Call E, (ClientB.tags E c).any isDisconnectTag = true ↔
      c = .DisconnectClient) := by
  refine ⟨?_, rfl, rfl, ?_, ?_⟩
  · intro t
    cases t <;> simp [isDisconnectTag]
  · intro c
    cases c <;> simp [ClientA.tags, ClientA.sends, isDisconnectTag,
      ThreshCommonClient.RequestCC, ThreshCommonClient.DisconnectClient,
      ClientA.RequestRnd2SharedKey, ClientA.RequestRnd2evalMultAB,
      ClientA.RequestRnd2evalMultBAB, ClientA.RequestRnd2evalSumKeysJoin,
      ClientA.RequestDecryptMainAdd, ClientA.RequestDecryptMainMult,
      ClientA.RequestDecryptMainSum, ClientA.RequestCT1, ClientA.RequestCT2,
      ClientA.RequestCT3, ClientA.SendRnd1PubKey, ClientA.SendRnd1evalMultKey,
      ClientA.SendRnd1evalSumKeys, ClientA.SendRnd3EvalMultFinal, ClientA.SendCTPartialAdd,
      ClientA.SendCTPartialMult, ClientA.SendCTPartialSum]
  · intro c
    cases c <;> simp [ClientB.tags, ClientB.sends, isDisconnectTag,
      ThreshCommonClient.RequestCC, ThreshCommonClient.DisconnectClient,
      ClientB.RequestRnd1PubKey, ClientB.RequestRnd1evalMultKey,
      ClientB.RequestRnd1evalSumKeys, ClientB.RequestRnd3evalMultFinal,
      ClientB.RequestDecryptLeadAdd, ClientB.RequestDecryptLeadMult,
      ClientB.RequestDecryptLeadSum, ClientB.SendRnd2SharedKey, ClientB.SendRnd2EvalMultAB,
      ClientB.SendRnd2EvalMultBAB, ClientB.SendRnd2EvalSumKeysJoin, ClientB.SendCT1,
      ClientB.SendCT2, ClientB.SendCT3, ClientB.SendCTPartialAdd, ClientB.SendCTPartialMult,
      ClientB.SendCTPartialSum]

/-! ## The tag-name table -/

/-- C30: `ThreshMsgNames` has exactly as many entries as `ThreshMsgTypes` has
enumerators (78, listed without repetition and with values 0..77 by
`ThreshMsgTypes.all`), and for every tag the entry at the tag's value is the
tag's own name, so the lookup of `operator<<` is in bounds and prints that name. -/
theorem msg_names_aligned :
    ThreshMsgNames.length = 78 ∧
    ThreshMsgTypes.all.map ThreshMsgTypes.value = List.range ThreshMsgNames.length ∧
    ∀ t : ThreshMsgTypes,
      ThreshMsgTypes.all[t.value]? = some t ∧
      t.value < ThreshMsgNames.length ∧
      ThreshMsgNames[t.value]? = some t.enumeratorName ∧
      t.print = some (toString t.value ++ ": " ++ t.enumeratorName) := by
  have hnames : ∀ t : ThreshMsgTypes, ThreshMsgNames[t.value]? = some t.enumeratorName := by
    intro t
    cases t <;> rfl
  refine ⟨rfl, by decide, fun t => ⟨by cases t <;> rfl, by cases t <;> decide, hnames t, ?_⟩⟩
  unfold ThreshMsgTypes.print
  rw [hnames t]


/-! ## Round ordering through artifact presence -/

/-- A `SendRnd...` tag stores an artifact of the round `roundOfSend` gives. -/
theorem roundOfSend_of_artifactOfSend (t : ThreshMsgTypes) (X : RoundArtifact)
    (h : artifactOfSend t = some X) : roundOfSend t = some X.round ∧ t = X.sendTag := by
  cases t <;> simp [artifactOfSend] at h <;> subst h <;> exact ⟨rfl, rfl⟩

/-- Handling a message never empties a slot. -/
theorem relay_OnMessage_mono (s : ThreshRelay) (m : ThreshMessage) (Y : RoundArtifact)
    (h : (s.slot Y).isSome) : ((s.OnMessage m).1.slot Y).isSome := by
  unfold ThreshRelay.OnMessage
  cases hs : artifactOfSend m.id with
  | some X =>
    simp only
    by_cases hY : Y = X
    · simp [hY]
    · simpa [hY] using h
  | none =>
    simp only
    cases hr : artifactOfRequest m.id with
    | some X =>
      simp only
      cases hv : s.slot X <;> exact h
    | none => exact h

/-- A reply under a `SendX` tag is only given from a present slot `X`, which is
still present after the message is handled. -/
theorem relay_OnMessage_data (s : ThreshRelay) (m r : ThreshMessage) (X : RoundArtifact)
    (hr : r ∈ (s.OnMessage m).2) (hid : r.id = X.sendTag) :
    ((s.OnMessage m).1.slot X).isSome := by
  unfold ThreshRelay.OnMessage at hr ⊢
  cases hs : artifactOfSend m.id with
  | some Z =>
    rw [hs] at hr
    simp only [List.mem_singleton] at hr
    subst hr
    simp only at hid
    exact absurd hid (by cases Z <;> cases X <;> decide)
  | none =>
    rw [hs] at hr
    simp only at hr ⊢
    cases hq : artifactOfRequest m.id with
    | some Z =>
      rw [hq] at hr
      simp only at hr ⊢
      cases hv : s.slot Z with
      | some v =>
        rw [hv] at hr
        simp only [List.mem_singleton] at hr
        subst hr
        simp only at hid
        have hZ : Z = X := by
          revert hid
          cases Z <;> cases X <;> decide
        subst hZ
        simp [hv]
      | none =>
        rw [hv] at hr
        simp only [List.mem_singleton] at hr
        subst hr
        simp only at hid
        exact absurd hid (by cases Z <;> cases X <;> decide)
    | none =>
      rw [hq] at hr
      simp at hr

/-- A message that is no `SendX` leaves the slot `X` as it is. -/
theorem relay_OnMessage_other (s : ThreshRelay) (m : ThreshMessage) (X : RoundArtifact)
    (h : m.id ≠ X.sendTag) : (s.OnMessage m).1.slot X = s.slot X := by
  unfold ThreshRelay.OnMessage
  cases hs : artifactOfSend m.id with
  | some Z =>
    simp only
    have hZ : X ≠ Z := by
      intro e
      subst e
      exact h (roundOfSend_of_artifactOfSend _ _ hs).2
    simp [hZ]
  | none =>
    simp only
    cases hq : artifactOfRequest m.id with
    | some Z =>
      simp only
      cases hv : s.slot Z <;> rfl
    | none => rfl

/-- Serving messages never empties a slot. -/
theorem relay_serve_mono (Y : RoundArtifact) : ∀ (ms : List ThreshMessage) (s : ThreshRelay),
    (s.slot Y).isSome → ((s.serve ms).1.slot Y).isSome
  | [], _, h => h
  | m :: rest, s, h => by
    rw [ThreshRelay.serve]
    exact relay_serve_mono Y rest _ (relay_OnMessage_mono s m Y h)

/-- A reply under a `SendX` tag among the replies to some messages means the slot
`X` is present once they are served. -/
theorem relay_serve_data (X : RoundArtifact) (r : ThreshMessage) (hid : r.id = X.sendTag) :
    ∀ (ms : List ThreshMessage) (s : ThreshRelay), r ∈ (s.serve ms).2 →
      ((s.serve ms).1.slot X).isSome
  | [], _, h => by simp [ThreshRelay.serve] at h
  | m :: rest, s, h => by
    rw [ThreshRelay.serve] at h ⊢
    simp only [List.mem_append] at h
    rcases h with h | h
    · exact relay_serve_mono X rest _ (relay_OnMessage_data s m r X h hid)
    · exact relay_serve_data X r hid rest _ h

/-- Messages none of which is a `SendX` leave the slot `X` as it is. -/
theorem relay_serve_other (X : RoundArtifact) : ∀ (ms : List ThreshMessage) (s : ThreshRelay),
    (∀ m ∈ ms, m.id ≠ X.sendTag) → (s.serve ms).1.slot X = s.slot X
  | [], _, _ => rfl
  | m :: rest, s, h => by
    rw [ThreshRelay.serve]
    simp only
    rw [relay_serve_other X rest _ (fun m' hm' => h m' (List.mem_cons_of_mem _ hm')),
      relay_OnMessage_other s m X (h m (List.mem_cons_self _ _))]

/-- Calls none of which sends a `SendX` leave the slot `X` as it is. -/
theorem relayRun_other (E : ThreshEngine) (X : RoundArtifact) :
    ∀ (run : List (PartyCall E)) (s : ThreshRelay),
      (∀ c ∈ run, ∀ m ∈ c.sends E, m.id ≠ X.sendTag) →
      (relayRun E s run).1.slot X = s.slot X
  | [], _, _ => rfl
  | c :: rest, s, h => by
    rw [relayRun]
    simp only
    rw [relayRun_other E X rest _ (fun c' hc' => h c' (List.mem_cons_of_mem _ hc')),
      relay_serve_other X _ s (h c (List.mem_cons_self _ _))]

/-- A run served in two parts. -/
theorem relayRun_append (E : ThreshEngine) : ∀ (pre post : List (PartyCall E)) (s : ThreshRelay),
    relayRun E s (pre ++ post) =
      ((relayRun E (relayRun E s pre).1 post).1,
        (relayRun E s pre).2 ++ (relayRun E (relayRun E s pre).1 post).2)
  | [], _, _ => by simp [relayRun]
  | c :: rest, post, s => by
    rw [List.cons_append, relayRun, relayRun_append E rest post]
    simp [relayRun]

/-- A prefix of a run that follows the rounds follows them too. -/
theorem followsRounds_prefix (E : ThreshEngine) : ∀ (pre post : List (PartyCall E))
    (s : ThreshRelay) (seen : List (Party × ThreshMessage)),
    followsRounds E s seen (pre ++ post) = true → followsRounds E s seen pre = true
  | [], _, _, _, _ => rfl
  | c :: rest, post, s, seen, h => by
    rw [List.cons_append, followsRounds, Bool.and_eq_true] at h
    rw [followsRounds, Bool.and_eq_true]
    exact ⟨h.1, followsRounds_prefix E rest post _ _ h.2⟩

/-- A run that follows the rounds keeps the store invariant. -/
theorem roundInv_run (E : ThreshEngine) : ∀ (run : List (PartyCall E)) (s : ThreshRelay)
    (seen : List (Party × ThreshMessage)), RoundInv s seen →
    followsRounds E s seen run = true →
    RoundInv (relayRun E s run).1 (seen ++ (relayRun E s run).2)
  | [], s, seen, hinv, _ => by simpa [relayRun] using hinv
  | c :: rest, s, seen, hinv, hf => by
    rw [followsRounds, Bool.and_eq_true] at hf
    rw [relayRun]
    simp only
    rw [← List.append_assoc]
    refine roundInv_run E rest _ _ ?_ hf.2
    have hseen : ∀ (p : Party) (m : ThreshMessage) (Y : RoundArtifact),
        (p, m) ∈ seen ++ (s.serve (c.sends E)).2.map (fun m => (c.party, m)) →
        m.id = Y.sendTag → ((s.serve (c.sends E)).1.slot Y).isSome := by
      intro p m Y hm hid
      rw [List.mem_append] at hm
      rcases hm with hm | hm
      · exact relay_serve_mono Y _ s (hinv.2 p m Y hm hid)
      · rw [List.mem_map] at hm
        obtain ⟨m', hm', e⟩ := hm
        have e2 : m' = m := (Prod.mk.inj e).2
        subst e2
        exact relay_serve_data Y m' hid _ s hm'
    refine ⟨?_, hseen⟩
    intro X hX hpres Y hY
    by_cases h2 : sendsRound2 E c = true
    · have hall : round1.all (fun Y => fetched seen c.party Y) = true := by
        simpa [h2] using hf.1
      have hYmem : Y ∈ round1 := by
        revert hY
        cases Y <;> simp [round1, RoundArtifact.round]
      have hfetch := (List.all_eq_true.1 hall) Y hYmem
      unfold fetched at hfetch
      rw [List.any_eq_true] at hfetch
      obtain ⟨r, hr, hdec⟩ := hfetch
      have hdec2 := of_decide_eq_true hdec
      exact relay_serve_mono Y _ s (hinv.2 r.1 r.2 Y hr hdec2.2)
    · have hno : ∀ m ∈ c.sends E, m.id ≠ X.sendTag := by
        intro m hm e
        apply h2
        unfold sendsRound2
        rw [List.any_eq_true]
        refine ⟨m, hm, decide_eq_true ?_⟩
        rw [e]
        revert hX
        cases X <;> simp [RoundArtifact.round, RoundArtifact.sendTag, roundOfSend]
      rw [relay_serve_other X _ s hno] at hpres
      exact relay_serve_mono Y _ s (hinv.1 X hX hpres Y hY)

/-- Among the methods of the two clients only Alice's `SendRnd3EvalMultFinal`
sends the tag `SendRnd3EvalMultFinal`. -/
theorem only_alice_sends_final (E : ThreshEngine) (c : PartyCall E)
    (hc : ∀ k, c ≠ PartyCall.alice (.SendRnd3EvalMultFinal k)) :
    ∀ m ∈ c.sends E, m.id ≠ ThreshMsgTypes.SendRnd3EvalMultFinal := by
  intro m hm
  cases c with
  | alice a =>
    cases a with
    | SendRnd3EvalMultFinal k => exact absurd rfl (hc k)
    | _ =>
      simp [PartyCall.sends, ClientA.sends] at hm <;>
        (subst hm
         simp [
            ThreshCommonClient.RequestCC, ThreshCommonClient.DisconnectClient,
            ClientA.RequestRnd2SharedKey, ClientA.RequestRnd2evalMultAB,
            ClientA.RequestRnd2evalMultBAB, ClientA.RequestRnd2evalSumKeysJoin,
            ClientA.RequestDecryptMainAdd, ClientA.RequestDecryptMainMult,
            ClientA.RequestDecryptMainSum, ClientA.RequestCT1, ClientA.RequestCT2,
            ClientA.RequestCT3, ClientA.SendRnd1PubKey, ClientA.SendRnd1evalMultKey,
            ClientA.SendRnd1evalSumKeys, ClientA.SendRnd3EvalMultFinal,
            ClientA.SendCTPartialAdd, ClientA.SendCTPartialMult, ClientA.SendCTPartialSum])
  | bob b =>
    cases b <;> simp [PartyCall.sends, ClientB.sends] at hm <;>
      (subst hm
       simp [ClientB.SendRnd2SharedKey, ClientB.SendRnd2EvalSumKeysJoin,
          ThreshCommonClient.RequestCC, ThreshCommonClient.DisconnectClient,
          ClientB.RequestRnd1PubKey, ClientB.RequestRnd1evalMultKey,
          ClientB.RequestRnd1evalSumKeys, ClientB.RequestRnd3evalMultFinal,
          ClientB.RequestDecryptLeadAdd, ClientB.RequestDecryptLeadMult,
          ClientB.RequestDecryptLeadSum, ClientB.SendRnd2EvalMultAB,
          ClientB.SendRnd2EvalMultBAB, ClientB.SendCT1, ClientB.SendCT2, ClientB.SendCT3,
          ClientB.SendCTPartialAdd, ClientB.SendCTPartialMult, ClientB.SendCTPartialSum])

/-- Requests for the final key against an empty slot are all answered with the
Nack, and the slot stays empty. -/
theorem final_requests_nacked (E : ThreshEngine) : ∀ (n : Nat) (s : ThreshRelay),
    s.slot .Rnd3EvalMultFinal = none →
    (relayRun E s (List.replicate n (PartyCall.bob .RequestRnd3evalMultFinal))).2 =
      List.replicate n (Party.Bob, { id := .NackRnd3evalMultFinal, body := [] })
  | 0, _, _ => rfl
  | n + 1, s, h => by
    have hstep : s.serve ((PartyCall.bob ClientB.Call.RequestRnd3evalMultFinal :
        PartyCall E).sends E) = (s, [{ id := .NackRnd3evalMultFinal, body := [] }]) := by
      simp [PartyCall.sends, ClientB.sends, ClientB.RequestRnd3evalMultFinal,
        ThreshRelay.serve, ThreshRelay.OnMessage, artifactOfSend, artifactOfRequest, h,
        RoundArtifact.nackTag]
    rw [List.replicate_succ, relayRun, hstep]
    simp only [List.map_cons, List.map_nil, List.singleton_append, PartyCall.party,
      List.replicate_succ]
    rw [final_requests_nacked E n s h]

/-- C21 as stated fails on the relay of the specification: Bob sends the joint
public key of round 2 first and Alice then requests it.  The relay stores it
and gives it out, answering `AckRnd2SharedKey` and then `SendRnd2SharedKey` with
the stored bytes, while all three round-1 slots are still empty: a round-2
artifact is fetched before any round-1 artifact has been stored.  The store has
no check across slots. -/
theorem round2_fetched_before_round1 :
    (relayRun demoThreshEngine ThreshRelay.empty
      [.bob (.SendRnd2SharedKey ((21 : Nat), (22 : Nat))), .alice .RequestRnd2SharedKey]).2 =
      [(Party.Bob, { id := .AckRnd2SharedKey, body := [] }),
       (Party.Alice, { id := .SendRnd2SharedKey, body := [21] })] ∧
    RoundArtifact.Rnd2SharedKey.round = 2 ∧
    (round1.map (fun Y => (Y.round, ((relayRun demoThreshEngine ThreshRelay.empty
      [.bob (.SendRnd2SharedKey ((21 : Nat), (22 : Nat))),
       .alice .RequestRnd2SharedKey]).1.slot Y).isSome))) =
      [(1, false), (1, false), (1, false)] ∧
    followsRounds demoThreshEngine ThreshRelay.empty []
      [.bob (.SendRnd2SharedKey ((21 : Nat), (22 : Nat))), .alice .RequestRnd2SharedKey] =
      false := by
  refine ⟨rfl, rfl, rfl, rfl⟩

/-- C21 (amended): against the relay of the specification, (1) whatever calls
the two clients made before, as long as Alice has not called
`SendRnd3EvalMultFinal`, every one of any number of `RequestRnd3evalMultFinal`
calls by Bob is answered `NackRnd3evalMultFinal`; (2) for every artifact kind of
the three rounds, a request handled before any send of that kind is answered
with the kind's Nack; and (3) in a run that follows the rounds (a party sends a
round-2 artifact only after it has fetched the three round-1 artifacts),
whenever a round-2 artifact has been given out as a data reply, all three
round-1 artifacts are present in the store.  The relay itself does not look at
the round-1 slots when it stores or serves a round-2 artifact. -/
theorem round_ordering_by_presence (E : ThreshEngine) :
    (∀ (pre : List (PartyCall E)) (n : Nat),
      (∀ k, PartyCall.alice (.SendRnd3EvalMultFinal k) ∉ pre) →
      (relayRun E (relayRun E ThreshRelay.empty pre).1
        (List.replicate n (PartyCall.bob .RequestRnd3evalMultFinal))).2 =
        List.replicate n (Party.Bob, { id := .NackRnd3evalMultFinal, body := [] })) ∧
    (∀ (pre : List (PartyCall E)) (X : RoundArtifact) (req : ThreshMessage),
      (∀ c ∈ pre, ∀ m ∈ c.sends E, m.id ≠ X.sendTag) →
      artifactOfRequest req.id = some X →
      ((relayRun E ThreshRelay.empty pre).1.OnMessage req).2 =
        [{ id := X.nackTag, body := [] }]) ∧
    (∀ (pre post : List (PartyCall E)) (X : RoundArtifact) (p : Party) (v : List Nat),
      followsRounds E ThreshRelay.empty [] (pre ++ post) = true →
      X.round = 2 →
      (p, { id := X.sendTag, body := v }) ∈ (relayRun E ThreshRelay.empty pre).2 →
      ∀ Y : RoundArtifact, Y.round = 1 →
        ((relayRun E ThreshRelay.empty pre).1.slot Y).isSome) := by
  refine ⟨?_, ?_, ?_⟩
  · intro pre n hpre
    apply final_requests_nacked
    have := relayRun_other E .Rnd3EvalMultFinal pre ThreshRelay.empty (by
      intro c hc
      apply only_alice_sends_final E c
      intro k e
      subst e
      exact hpre k hc)
    rw [this]
    rfl
  · intro pre X req hpre hreq
    have hslot := relayRun_other E X pre ThreshRelay.empty hpre
    have hnot : artifactOfSend req.id = none := by
      revert hreq
      cases req.id <;> simp [artifactOfRequest, artifactOfSend]
    unfold ThreshRelay.OnMessage
    rw [hnot]
    simp only
    rw [hreq]
    simp only
    rw [hslot]
    rfl
  · intro pre post X p v hf hX hmem Y hY
    have hpre := followsRounds_prefix E pre post _ _ hf
    have hinv := roundInv_run E pre ThreshRelay.empty [] ⟨by
      intro X _ h
      simp [ThreshRelay.empty] at h, by
      intro p m Y h
      simp at h⟩ hpre
    rw [List.nil_append] at hinv
    exact hinv.1 X hX (hinv.2 p _ X hmem rfl) Y hY

/-- Witness for C21 on `demoRun`: before Alice sends the final key, three
requests of Bob after the whole run are each answered with the Nack; a request
for the joint public key after Alice's three sends alone is answered with its
Nack; and the run follows the rounds, Alice is given the joint public key, and
the round-1 public key is in the store. -/
theorem round_ordering_by_presence_witness :
    (relayRun demoThreshEngine (relayRun demoThreshEngine ThreshRelay.empty demoRun).1
      (List.replicate 3 (PartyCall.bob .RequestRnd3evalMultFinal))).2 =
      List.replicate 3 (Party.Bob, { id := .NackRnd3evalMultFinal, body := [] }) ∧
    ((relayRun demoThreshEngine ThreshRelay.empty (demoRun.take 3)).1.OnMessage
      ClientA.RequestRnd2SharedKey).2 = [{ id := .NackRnd2SharedKey, body := [] }] ∧
    ((relayRun demoThreshEngine ThreshRelay.empty demoRun).1.slot .Rnd1PubKey).isSome :=
  ⟨(round_ordering_by_presence demoThreshEngine).1 demoRun 3 (by
      intro k h
      simp [demoRun] at h),
    (round_ordering_by_presence demoThreshEngine).2.1 (demoRun.take 3) .Rnd2SharedKey
      ClientA.RequestRnd2SharedKey (by
        intro c hc m hm
        simp [demoRun] at hc
        rcases hc with rfl | rfl | rfl <;>
          simp [PartyCall.sends, ClientA.sends] at hm <;>
          (subst hm
           simp [ClientA.SendRnd1PubKey, ClientA.SendRnd1evalMultKey,
             ClientA.SendRnd1evalSumKeys, RoundArtifact.sendTag])) rfl,
    (round_ordering_by_presence demoThreshEngine).2.2 demoRun [] .Rnd2SharedKey .Alice [21]
      (by rw [List.append_nil]; rfl) rfl (by decide) .Rnd1PubKey rfl⟩

end ThreshNet


/-! # Theorems about `validateData` -/

namespace RealServer

open PreNet (Halt)

/-- For a tolerance that is not negative, an element passes the two checks of the
loop exactly when the specification's condition holds. -/
theorem element_passes_iff (a b tol : ℚ) (htol : 0 ≤ tol) :
    ¬ (relativeExceeds (a - b) a tol = true ∧ |a - b| > tol) ↔ specWithinTolerance a b tol := by
  unfold relativeExceeds specWithinTolerance
  by_cases ha : a = 0
  · subst ha
    simp only [if_true, decide_eq_true_eq, ne_eq, not_true_eq_false, false_and, false_or]
    constructor
    · intro h
      by_contra hgt
      push_neg at hgt
      apply h
      refine ⟨?_, hgt⟩
      intro h0
      rw [h0, abs_zero] at hgt
      exact absurd hgt (not_lt.mpr htol)
    · intro h hcon
      exact absurd hcon.2 (not_lt.mpr h)
  · rw [if_neg ha]
    simp only [decide_eq_true_eq, abs_div, ne_eq, ha, not_false_eq_true, true_and]
    constructor
    · intro h
      by_contra hcon
      push_neg at hcon
      exact h ⟨hcon.1, hcon.2⟩
    · rintro (h | h) hcon
      · exact absurd hcon.1 (not_lt.mpr h)
      · exact absurd hcon.2 (not_lt.mpr h)

/-- The loop over indices that are all present returns, and returns true exactly
when no visited element fails both checks. -/
theorem validateLoop_ok (v1 v2 : List ℚ) (tol : ℚ) : ∀ (k i : Nat),
    i + k ≤ v1.length → i + k ≤ v2.length →
    ∃ r, validateLoop v1 v2 tol k i = .ok r ∧
      (r = true ↔ ∀ (j : Nat) (a b : ℚ), i ≤ j → j < i + k → v1[j]? = some a → v2[j]? = some b →
        ¬ (relativeExceeds (a - b) a tol = true ∧ |a - b| > tol))
  | 0, i, _, _ => ⟨true, rfl, by
      constructor
      · intro _ j a b h1 h2
        omega
      · intro _
        rfl⟩
  | k + 1, i, h1, h2 => by
    have hi1 : i < v1.length := by omega
    have hi2 : i < v2.length := by omega
    obtain ⟨r, hr, hiff⟩ := validateLoop_ok v1 v2 tol k (i + 1) (by omega) (by omega)
    rw [validateLoop, List.getElem?_eq_getElem hi1, List.getElem?_eq_getElem hi2]
    simp only
    by_cases hfail : relativeExceeds (v1[i] - v2[i]) v1[i] tol = true ∧ |v1[i] - v2[i]| > tol
    · refine ⟨false, by rw [if_pos hfail.1, if_pos hfail.2], ?_⟩
      constructor
      · intro h
        exact absurd h (by decide)
      · intro h
        exact absurd hfail (h i v1[i] v2[i] (le_refl _) (by omega)
          (List.getElem?_eq_getElem hi1) (List.getElem?_eq_getElem hi2))
    · refine ⟨r, ?_, ?_⟩
      · by_cases hrel : relativeExceeds (v1[i] - v2[i]) v1[i] tol = true
        · have habs : ¬ |v1[i] - v2[i]| > tol := fun h => hfail ⟨hrel, h⟩
          rw [if_pos hrel, if_neg habs, hr]
        · rw [if_neg hrel, hr]
      · rw [hiff]
        constructor
        · intro h j a b hj1 hj2 ha hb
          by_cases hij : j = i
          · subst hij
            rw [List.getElem?_eq_getElem hi1] at ha
            rw [List.getElem?_eq_getElem hi2] at hb
            rw [← Option.some.inj ha, ← Option.some.inj hb]
            exact hfail
          · exact h j a b (by omega) (by omega) ha hb
        · intro h j a b hj1 hj2 ha hb
          exact h j a b (by omega) (by omega) ha hb

/-- C26 as stated fails: with the negative tolerance `-1` and the one-element
vectors `[0]` and `[0]`, `validateData` returns true (the quotient `0 / 0` is a
NaN, so the scale check does not fire), while neither `|0 - 0| / |0| ≤ -1` nor
`|0 - 0| ≤ -1` holds. -/
theorem validateData_negative_tolerance :
    validateData [0] [0] (-1) = .ok true ∧
    ¬ (|(0 : ℚ) - 0| / |(0 : ℚ)| ≤ -1 ∨ |(0 : ℚ) - 0| ≤ -1) ∧
    ¬ specWithinTolerance 0 0 (-1) := by
  refine ⟨?_, ?_, ?_⟩
  · simp [validateData, validateLoop, relativeExceeds]
  · norm_num
  · unfold specWithinTolerance
    norm_num

/-- C26 (amended): `validateData` returns false whenever the two vectors differ
in size.  For equal sizes (below `2^32`) and a tolerance `tol ≥ 0` it returns,
and returns true exactly when every index `i` satisfies
`|v1[i] - v2[i]| / |v1[i]| ≤ tol`, the quotient being taken only where
`v1[i] ≠ 0`, or `|v1[i] - v2[i]| ≤ tol`.  In particular `validateData v v tol`
is true for every `v` and every `tol ≥ 0`. -/
theorem validateData_within_tolerance (v1 v2 : List ℚ) (tol : ℚ) :
    (v1.length ≠ v2.length → validateData v1 v2 tol = .ok false) ∧
    (v1.length = v2.length → v1.length < 2 ^ 32 → 0 ≤ tol →
      ∃ r, validateData v1 v2 tol = .ok r ∧
        (r = true ↔ ∀ (i : Nat) (a b : ℚ), v1[i]? = some a → v2[i]? = some b →
          specWithinTolerance a b tol)) ∧
    (v1.length < 2 ^ 32 → 0 ≤ tol → validateData v1 v1 tol = .ok true) := by
  have key : ∀ w1 w2 : List ℚ, w1.length = w2.length → w1.length < 2 ^ 32 → 0 ≤ tol →
      ∃ r, validateData w1 w2 tol = .ok r ∧
        (r = true ↔ ∀ (i : Nat) (a b : ℚ), w1[i]? = some a → w2[i]? = some b →
          specWithinTolerance a b tol) := by
    intro w1 w2 hlen h32 htol
    obtain ⟨r, hr, hiff⟩ := validateLoop_ok w1 w2 tol w1.length 0 (by omega) (by omega)
    refine ⟨r, ?_, ?_⟩
    · unfold validateData
      rw [if_neg (by simpa using hlen), if_pos h32, hr]
    · rw [hiff]
      constructor
      · intro h i a b ha hb
        have hi : i < w1.length := by
          by_contra hcon
          rw [List.getElem?_eq_none (by omega)] at ha
          exact Option.noConfusion ha
        exact (element_passes_iff a b tol htol).1 (h i a b (Nat.zero_le _) (by omega) ha hb)
      · intro h j a b _ _ ha hb
        exact (element_passes_iff a b tol htol).2 (h j a b ha hb)
  refine ⟨fun h => ?_, key v1 v2, fun h32 htol => ?_⟩
  · unfold validateData
    rw [if_pos h]
  · obtain ⟨r, hr, hiff⟩ := key v1 v1 rfl h32 htol
    have : r = true := by
      rw [hiff]
      intro i a b ha hb
      rw [ha] at hb
      have e : a = b := Option.some.inj hb
      subst e
      right
      simpa using htol
    rw [hr, this]

/-- Witness for C26 (amended): vectors of different sizes fail; with the default
tolerance, `[25/2, 0]` against `[25/2, 1/20000]` passes (the second element by
the absolute check, its divisor being zero) and against `[25/2, 1]` fails;
and a vector passes against itself. -/
theorem validateData_within_tolerance_witness :
    validateData [1, 2] [1] defaultTol = .ok false ∧
    (∃ r, validateData [25 / 2, 0] [25 / 2, 1 / 20000] defaultTol = .ok r ∧
      (r = true ↔ ∀ (i : Nat) (a b : ℚ), ([25 / 2, 0] : List ℚ)[i]? = some a →
        ([25 / 2, 1 / 20000] : List ℚ)[i]? = some b → specWithinTolerance a b defaultTol)) ∧
    validateData [25 / 2, 0] [25 / 2, 0] defaultTol = .ok true :=
  ⟨(validateData_within_tolerance [1, 2] [1] defaultTol).1 (by decide),
    (validateData_within_tolerance [25 / 2, 0] [25 / 2, 1 / 20000] defaultTol).2.1 rfl
      (by decide) (by norm_num [defaultTol]),
    (validateData_within_tolerance [25 / 2, 0] [25 / 2, 0] defaultTol).2.2
      (by decide) (by norm_num [defaultTol])⟩

end RealServer
